import Mathlib

/-!
Shallow embedding of `src/python/converter.py` (a POSCAR ⇄ CIF converter).

Modelling conventions used throughout this file:

* Python `str` values are modelled as `List Char` (named `Str` below), so that
  the string-processing functions of the source (`strip`, `split`,
  `splitlines`, `startswith`, substring containment, concatenation) become
  structurally recursive Lean functions that are easy to reason about.
* Python `float` values are modelled as `ℚ`.  `float(tok)` on a decimal
  literal is modelled by exact decimal parsing (`parseFloat`), and the format
  specifiers `%.6f` / `%.2f` are modelled by exact decimal rounding
  (`fmtFixed`, ties rounded up).  `math.sqrt` is modelled by `Rat.sqrt`
  (exact on squares of rationals, which covers every use made by the theorems
  below), and `math.degrees(math.acos _)` by the table `acosDeg` (exact on the
  cosine values 0, ±1/2, ±1; only the value at 0 is ever used by the theorems
  below).
* A Python exception escaping a function is modelled by the function
  returning `none`; all converter functions therefore return `Option _`.
* Python `dict`s (which preserve insertion order) are modelled as association
  lists with unique keys, updated in place and appended on fresh keys.
-/

namespace Converter

abbrev Str := List Char

/-- Whitespace test used by Python `str.strip` / `str.split`. -/
def isWs (c : Char) : Bool := c.isWhitespace

/-- Model of Python `str.strip()`: drop whitespace from both ends. -/
def pystrip (s : Str) : Str := ((s.dropWhile isWs).reverse.dropWhile isWs).reverse

/-- Split a character list at every character satisfying `p`, keeping empty
pieces (the primitive underlying both `split()` and `splitlines()`). -/
def splitSep (p : Char → Bool) : Str → List Str
  | [] => [[]]
  | c :: cs =>
    match splitSep p cs with
    | [] => [[]]
    | t :: ts => if p c then [] :: t :: ts else (c :: t) :: ts

/-- Model of Python `str.split()` with no argument: split on whitespace runs,
discarding empty pieces. -/
def pysplit (s : Str) : List Str := (splitSep isWs s).filter (fun t => !t.isEmpty)

/-- Model of Python `text.strip().splitlines()` as used by both converters. -/
def pysplitlines (s : Str) : List Str :=
  if (pystrip s).isEmpty then [] else splitSep (fun c => c = '\n') (pystrip s)

/-- Model of the Python containment test `pat in s` (for nonempty `pat`). -/
def strContains (s pat : Str) : Bool :=
  match s with
  | [] => pat.isEmpty
  | _ :: cs => pat.isPrefixOf s || strContains cs pat

/-- Numeric value of a decimal digit character. -/
def digitVal (c : Char) : Nat := c.toNat - 48

/-- Value of a most-significant-first string of decimal digits. -/
def natOfDigits (s : Str) : Nat := s.foldl (fun acc c => acc * 10 + digitVal c) 0

/-- Fuel-based digit extraction (least-significant first), written with
structural recursion so that it evaluates inside the kernel. -/
def natDigitsAux : Nat → Nat → Str
  | 0, _ => []
  | fuel + 1, n => if n = 0 then [] else Nat.digitChar (n % 10) :: natDigitsAux fuel (n / 10)

/-- Decimal rendering of a natural number (model of Python `str` on `int`). -/
def natToStr (n : Nat) : Str :=
  if n = 0 then ['0'] else (natDigitsAux n n).reverse

/-- Test that a string is nonempty and all decimal digits. -/
def allDigits (s : Str) : Bool := !s.isEmpty && s.all Char.isDigit

/-- Model of Python `float(tok)` on an unsigned token: digits with an optional
single decimal point (exponents, `inf`/`nan` and underscores are outside the
modelled fragment).  Returns the exact decimal value. -/
def parseUFloat (s : Str) : Option ℚ :=
  match splitSep (fun c => c = '.') s with
  | [ip] => if allDigits ip then some ((natOfDigits ip : ℚ)) else none
  | [ip, fp] =>
    if ip.isEmpty && fp.isEmpty then none
    else if (ip.isEmpty || allDigits ip) && (fp.isEmpty || allDigits fp) then
      some ((natOfDigits ip : ℚ) + (natOfDigits fp : ℚ) / (10 : ℚ) ^ fp.length)
    else none
  | _ => none

/-- Model of Python `float(tok)` including an optional sign. -/
def parseFloat (s : Str) : Option ℚ :=
  match s with
  | [] => none
  | c :: rest =>
    if c = '-' then (parseUFloat rest).map (fun q => -q)
    else if c = '+' then parseUFloat rest
    else parseUFloat (c :: rest)

/-- Model of Python `int(tok)`: optional sign followed by digits only. -/
def parseInt (s : Str) : Option ℤ :=
  match s with
  | [] => none
  | c :: rest =>
    if c = '-' then (if allDigits rest then some (-(natOfDigits rest : ℤ)) else none)
    else if c = '+' then (if allDigits rest then some ((natOfDigits rest : ℤ)) else none)
    else (if allDigits (c :: rest) then some ((natOfDigits (c :: rest) : ℤ)) else none)

/-- Left-pad a digit string with zeros to the given width. -/
def padZeros (nd : Nat) (s : Str) : Str := List.replicate (nd - s.length) '0' ++ s

/-- Fixed-point rendering of a nonnegative rational with `nd` decimals. -/
def fmtPos (nd : Nat) (q : ℚ) : Str :=
  natToStr ((round (q * (10 : ℚ) ^ nd)).toNat / 10 ^ nd) ++
  '.' :: padZeros nd (natToStr ((round (q * (10 : ℚ) ^ nd)).toNat % 10 ^ nd))

/-- Model of the Python format specifier `{q:.nd f}` on our exact rationals:
round to `nd` decimals (ties up) and render with a fixed number of decimals. -/
def fmtFixed (nd : Nat) (q : ℚ) : Str :=
  if Rat.blt q 0 then '-' :: fmtPos nd (-q) else fmtPos nd q

/-- Shorthand for the `%.6f` format used for lengths and coordinates. -/
def fmt6 (q : ℚ) : Str := fmtFixed 6 q

/-- Shorthand for the `%.2f` format used for angles. -/
def fmt2 (q : ℚ) : Str := fmtFixed 2 q

/-- Join tokens with single spaces (Python `" ".join`). -/
def joinSpace : List Str → Str
  | [] => []
  | [t] => t
  | t :: ts => t ++ ' ' :: joinSpace ts

/-- Join lines with newlines (Python `"\n".join`). -/
def joinNL : List Str → Str
  | [] => []
  | [t] => t
  | t :: ts => t ++ '\n' :: joinNL ts

/-- Concatenate lines, terminating every line with a newline (the shape in
which `cif_to_poscar` accumulates its output string). -/
def terminateLines (ls : List Str) : Str := (ls.map (fun l => l ++ ['\n'])).flatten

/-! Vector-geometry helpers (`vector_norm`, `dot_product`, `angle_between`
from the source, lines 4–45). -/

/-- Model of the source `sum(x**2 for x in v)`. -/
def sumSq (v : List ℚ) : ℚ := (v.map (fun x => x * x)).sum

/-- Model of the source `vector_norm` (`math.sqrt` modelled by `Rat.sqrt`,
which is exact on all inputs the theorems below evaluate it at). -/
def vector_norm (v : List ℚ) : ℚ := Rat.sqrt (sumSq v)

/-- Model of the source `dot_product`: `sum(x*y for x, y in zip(v1, v2))`,
where `zip` truncates to the shorter argument. -/
def dot_product (v1 v2 : List ℚ) : ℚ := ((v1.zip v2).map (fun p => p.1 * p.2)).sum

/-- Model of `math.degrees(math.acos q)`: a table that is exact at the
cosines 1, 1/2, 0, -1/2, -1.  The theorems below only ever evaluate it at 0
(orthogonal vectors), where `acos` is exact in the source as well. -/
def acosDeg (q : ℚ) : ℚ :=
  if q = 1 then 0
  else if q = 1/2 then 60
  else if q = 0 then 90
  else if q = -(1/2) then 120
  else if q = -1 then 180
  else 90

/-- Model of the source clamp `max(min(cos_angle, 1.0), -1.0)`. -/
def clamp1 (q : ℚ) : ℚ := max (min q 1) (-1)

/-- Model of the source `angle_between`.  A zero denominator raises
`ZeroDivisionError` in Python, modelled by `none`. -/
def angle_between (v1 v2 : List ℚ) : Option ℚ :=
  if vector_norm v1 * vector_norm v2 = 0 then none
  else some (acosDeg (clamp1 (dot_product v1 v2 / (vector_norm v1 * vector_norm v2))))

/-! The CIF parser state of `cif_to_poscar` (source lines 112–170). -/

/-- Keys of the `column_indices` dict in the source. -/
inductive ColKey
  | type
  | label
  | x
  | y
  | z
  deriving DecidableEq, Repr

/-- Insertion-ordered dict membership. -/
def dictMem (d : List (ColKey × Nat)) (k : ColKey) : Bool := d.any (fun p => p.1 = k)

/-- Model of the Python dict assignment `d[k] = v` (overwrite in place, or
append a fresh key at the end). -/
def dictSet (d : List (ColKey × Nat)) (k : ColKey) (v : Nat) : List (ColKey × Nat) :=
  if dictMem d k then d.map (fun p => if p.1 = k then (p.1, v) else p) else d ++ [(k, v)]

/-- Model of the Python dict read `d[k]`; `none` models `KeyError`. -/
def dictGet (d : List (ColKey × Nat)) (k : ColKey) : Option Nat :=
  (d.find? (fun p => p.1 = k)).map (fun p => p.2)

/-- Model of Python `max(values)`; `none` models the `ValueError` on an empty
sequence. -/
def pymax : List Nat → Option Nat
  | [] => none
  | v :: vs => some (vs.foldl Nat.max v)

/-- The mutable locals of the line-scanning loop of `cif_to_poscar`. -/
structure ScanState where
  a : ℚ
  b : ℚ
  c : ℚ
  alpha : ℚ
  beta : ℚ
  gamma : ℚ
  atom_lines : List (List Str)
  reading_atoms : Bool
  column_indices : List (ColKey × Nat)
  deriving DecidableEq, Repr

/-- Initial values of the scan locals (source lines 119–125). -/
def initScan : ScanState :=
  { a := 1, b := 1, c := 1, alpha := 90, beta := 90, gamma := 90,
    atom_lines := [], reading_atoms := false, column_indices := [] }

def kwWCellLengthA : Str := "*cell*length_a".data
def kwUCellLengthA : Str := "_cell_length_a".data
def kwWCellLengthB : Str := "*cell*length_b".data
def kwUCellLengthB : Str := "_cell_length_b".data
def kwWCellLengthC : Str := "*cell*length_c".data
def kwUCellLengthC : Str := "_cell_length_c".data
def kwWCellAngleAlpha : Str := "*cell*angle_alpha".data
def kwUCellAngleAlpha : Str := "_cell_angle_alpha".data
def kwWCellAngleBeta : Str := "*cell*angle_beta".data
def kwUCellAngleBeta : Str := "_cell_angle_beta".data
def kwWCellAngleGamma : Str := "*cell*angle_gamma".data
def kwUCellAngleGamma : Str := "_cell_angle_gamma".data
def kwLoop : Str := "loop_".data
def kwWAtomSite : Str := "*atom*site_".data
def kwUAtomSite : Str := "_atom_site_".data
def kwTypeSymbol : Str := "type_symbol".data
def kwLabel : Str := "label".data
def kwFractX : Str := "fract_x".data
def kwFractY : Str := "fract_y".data
def kwFractZ : Str := "fract_z".data

/-- Model of `float(line.split()[-1])` (source `line.split()[-1]` then
`float`): the last whitespace token of the line, parsed as a float. -/
def lastTokenFloat (line : Str) : Option ℚ := (pysplit line).getLast?.bind parseFloat

/-- The column-header registration of source lines 153–164 (note the `elif`
chain: `type_symbol` wins over `label`, which wins over the `fract_*` names;
the assigned index is the current size of the dict). -/
def registerHeader (ci : List (ColKey × Nat)) (line : Str) : List (ColKey × Nat) :=
  if strContains line kwTypeSymbol then dictSet ci ColKey.type ci.length
  else if strContains line kwLabel then dictSet ci ColKey.label ci.length
  else if strContains line kwFractX then dictSet ci ColKey.x ci.length
  else if strContains line kwFractY then dictSet ci ColKey.y ci.length
  else if strContains line kwFractZ then dictSet ci ColKey.z ci.length
  else ci

/-- The body of the `for line in lines` loop of `cif_to_poscar` applied to
the already-stripped line (source lines 130–170), faithfully following the
`elif` chain.  `none` models an exception escaping the loop body. -/
def scanLineCore (st : ScanState) (line : Str) : Option ScanState :=
  if line.isEmpty || ['#'].isPrefixOf line then some st
  else if strContains line kwWCellLengthA || strContains line kwUCellLengthA then
    (lastTokenFloat line).map (fun v => { st with a := v })
  else if strContains line kwWCellLengthB || strContains line kwUCellLengthB then
    (lastTokenFloat line).map (fun v => { st with b := v })
  else if strContains line kwWCellLengthC || strContains line kwUCellLengthC then
    (lastTokenFloat line).map (fun v => { st with c := v })
  else if strContains line kwWCellAngleAlpha || strContains line kwUCellAngleAlpha then
    (lastTokenFloat line).map (fun v => { st with alpha := v })
  else if strContains line kwWCellAngleBeta || strContains line kwUCellAngleBeta then
    (lastTokenFloat line).map (fun v => { st with beta := v })
  else if strContains line kwWCellAngleGamma || strContains line kwUCellAngleGamma then
    (lastTokenFloat line).map (fun v => { st with gamma := v })
  else if strContains line kwLoop then
    some { st with reading_atoms := false, column_indices := [] }
  else if strContains line kwWAtomSite || strContains line kwUAtomSite then
    some { st with reading_atoms := true, column_indices := registerHeader st.column_indices line }
  else if st.reading_atoms && !(['*'].isPrefixOf line) && !(['_'].isPrefixOf line) then
    match pymax (st.column_indices.map (fun p => p.2)) with
    | none => none
    | some m =>
      if (pysplit line).length ≥ m + 1 then
        some { st with atom_lines := st.atom_lines ++ [pysplit line] }
      else some st
  else some st

/-- One iteration of the scanning loop: strip the line, then dispatch
(source line 129 followed by lines 130–170). -/
def scanLine (st : ScanState) (line0 : Str) : Option ScanState :=
  scanLineCore st (pystrip line0)


/-- The element-symbol resolution of source lines 178–183: prefer the
`type_symbol` column, otherwise keep only the alphabetic characters of the
`label` column (Python `filter(str.isalpha, label)`). -/
def atomSym (ci : List (ColKey × Nat)) (tokens : List Str) : Option Str :=
  if dictMem ci ColKey.type then
    (dictGet ci ColKey.type).bind (fun i => tokens.get? i)
  else
    ((dictGet ci ColKey.label).bind (fun i => tokens.get? i)).map
      (fun l => l.filter (fun c => c.isAlpha))

/-- Read and float-parse the coordinate column `k` of one record
(source lines 189–191); `none` models `KeyError`, `IndexError` or
`ValueError`. -/
def getCoord (ci : List (ColKey × Nat)) (tokens : List Str) (k : ColKey) : Option ℚ :=
  ((dictGet ci k).bind (fun i => tokens.get? i)).bind parseFloat

/-- Model of the Python species-count update
`species[sym] = species.get(sym, 0) + 1` on an insertion-ordered dict. -/
def speciesIncr (sp : List (Str × Nat)) (k : Str) : List (Str × Nat) :=
  if sp.any (fun p => p.1 = k) then
    sp.map (fun p => if p.1 = k then (p.1, p.2 + 1) else p)
  else sp ++ [(k, 1)]

/-- One iteration of the record-processing loop of `cif_to_poscar`
(source lines 176–192). -/
def processAtom (ci : List (ColKey × Nat)) (acc : List (Str × Nat) × List (ℚ × ℚ × ℚ))
    (tokens : List Str) : Option (List (Str × Nat) × List (ℚ × ℚ × ℚ)) :=
  (atomSym ci tokens).bind fun sym =>
  (getCoord ci tokens ColKey.x).bind fun xv =>
  (getCoord ci tokens ColKey.y).bind fun yv =>
  (getCoord ci tokens ColKey.z).bind fun zv =>
  some (speciesIncr acc.1 sym, acc.2 ++ [(xv, yv, zv)])

/-- The full record-processing loop over the accumulated atom rows. -/
def processAtoms (ci : List (ColKey × Nat)) (rows : List (List Str)) :
    Option (List (Str × Nat) × List (ℚ × ℚ × ℚ)) :=
  rows.foldlM (processAtom ci) ([], [])

/-- The POSCAR output lines built by source lines 195–210: title, literal
scale `1.0`, the orthogonal cell `diag(a, b, c)`, the species symbols and
counts, the literal `Direct`, then one 6-decimal line per coordinate. -/
def renderPoscarLines (title : Str) (a b c : ℚ) (sp : List (Str × Nat))
    (coords : List (ℚ × ℚ × ℚ)) : List Str :=
  [title,
   "1.0".data,
   fmt6 a ++ " 0.0 0.0".data,
   "0.0 ".data ++ fmt6 b ++ " 0.0".data,
   "0.0 0.0 ".data ++ fmt6 c,
   joinSpace (sp.map (fun p => p.1)),
   joinSpace (sp.map (fun p => natToStr p.2)),
   "Direct".data] ++
  coords.map (fun t => fmt6 t.1 ++ ' ' :: fmt6 t.2.1 ++ ' ' :: fmt6 t.2.2)

/-- Model of the source `cif_to_poscar` (lines 102–212).  `none` models an
uncaught Python exception. -/
def cif_to_poscar (input : Str) : Option Str :=
  let lines := pysplitlines input
  lines.head?.bind fun line0 =>
  let title := if "data_".data.isPrefixOf line0 then line0.drop 5 else line0
  (lines.foldlM scanLine initScan).bind fun st =>
  (processAtoms st.column_indices st.atom_lines).map fun pr =>
  terminateLines (renderPoscarLines title st.a st.b st.c pr.1 pr.2)

/-! The POSCAR parser and CIF renderer of `poscar_to_cif`
(source lines 47–100). -/

/-- Read the coordinate rows `lines[8 .. 8+n-1]`, float-parsing the first
three whitespace tokens of each (source line 74, `split()[:3]`). -/
def readCoords (lines : List Str) : Nat → Nat → Option (List (List ℚ))
  | _, 0 => some []
  | i, n + 1 =>
    (lines.get? i).bind fun l =>
    (((pysplit l).take 3).mapM parseFloat).bind fun row =>
    (readCoords lines (i + 1) n).map fun rest => row :: rest

/-- Model of the Python tuple unpacking `x, y, z = coords[idx]`: succeeds
exactly when the row has exactly three entries. -/
def unpack3 (row : List ℚ) : Option (ℚ × ℚ × ℚ) :=
  match row with
  | [xv, yv, zv] => some (xv, yv, zv)
  | _ => none

/-- Emit the labelled atom lines of one species group (source lines 93–98):
labels are `atom ++ (1-based index within the group)`, and each consumed
coordinate row must unpack as exactly three floats. -/
def emitGroup (atom : Str) : Nat → Nat → List (List ℚ) →
    Option (List Str × List (List ℚ))
  | 0, _, coords => some ([], coords)
  | n + 1, i, coords =>
    coords.head?.bind fun row =>
    (unpack3 row).bind fun t =>
    (emitGroup atom n (i + 1) coords.tail).map fun pr =>
    (("  ".data ++ atom ++ natToStr i ++ ' ' :: fmt6 t.1 ++ ' ' :: fmt6 t.2.1
        ++ ' ' :: fmt6 t.2.2) :: pr.1,
     pr.2)

/-- Emit all species groups, `zip`-truncating to the shorter of the types and
counts lists as in the source, threading the coordinate rows. -/
def emitAtoms : List (Str × ℤ) → List (List ℚ) → Option (List Str)
  | [], _ => some []
  | (atom, count) :: gs, coords =>
    (emitGroup atom count.toNat 1 coords).bind fun pr =>
    (emitAtoms gs pr.2).map fun rest => pr.1 ++ rest

/-- The fixed CIF header lines of source lines 76–91 (exact spacing kept). -/
def cifHeaderLines (title : Str) (aLen bLen cLen alpha beta gamma : ℚ) : List Str :=
  [title.map (fun ch => if ch = ' ' then '_' else ch),
   "_symmetry_space_group_name_H-M   'P 1'".data,
   "_symmetry_Int_Tables_number      1".data,
   "_cell_length_a    ".data ++ fmt6 aLen,
   "_cell_length_b    ".data ++ fmt6 bLen,
   "_cell_length_c    ".data ++ fmt6 cLen,
   "_cell_angle_alpha ".data ++ fmt2 alpha,
   "_cell_angle_beta  ".data ++ fmt2 beta,
   "_cell_angle_gamma ".data ++ fmt2 gamma,
   "loop_".data,
   "  _atom_site_label".data,
   "  _atom_site_fract_x".data,
   "  _atom_site_fract_y".data,
   "  _atom_site_fract_z".data]

/-- Sum of a list of integers (`sum(atom_counts)` in the source). -/
def sumZ (l : List ℤ) : ℤ := l.sum

/-- The values `poscar_to_cif` reads from its input before any geometry is
computed (source lines 57–74). -/
structure PoscarDoc where
  title : Str
  scale : ℚ
  row1 : List ℚ
  row2 : List ℚ
  row3 : List ℚ
  types : List Str
  counts : List ℤ
  coords : List (List ℚ)
  deriving DecidableEq, Repr

/-- The reading pass of `poscar_to_cif` (source lines 57–74): title, scale,
the three unscaled lattice rows, the species tokens of line 5, the integer
counts of line 6, and `sum(counts)` coordinate rows starting at line 8
(line 7 is skipped). -/
def parsePoscar (lines : List Str) : Option PoscarDoc := do
  let title ← lines.get? 0
  let l1 ← lines.get? 1
  let scale ← parseFloat (pystrip l1)
  let r2 ← lines.get? 2
  let w1 ← (pysplit r2).mapM parseFloat
  let r3 ← lines.get? 3
  let w2 ← (pysplit r3).mapM parseFloat
  let r4 ← lines.get? 4
  let w3 ← (pysplit r4).mapM parseFloat
  parsePoscarTail lines title scale w1 w2 w3
where
  /-- Species, counts and coordinate rows (source lines 71–74). -/
  parsePoscarTail (lines : List Str) (title : Str) (scale : ℚ)
      (w1 w2 w3 : List ℚ) : Option PoscarDoc := do
    let l5 ← lines.get? 5
    let l6 ← lines.get? 6
    let atomCounts ← (pysplit l6).mapM parseInt
    let coords ← readCoords lines 8 (sumZ atomCounts).toNat
    some { title := title, scale := scale, row1 := w1, row2 := w2, row3 := w3,
           types := pysplit l5, counts := atomCounts, coords := coords }

/-- Model of the source `poscar_to_cif` (lines 47–100).  `none` models an
uncaught Python exception. -/
def poscar_to_cif (input : Str) : Option Str := do
  let d ← parsePoscar (pysplitlines input)
  let aVec := d.row1.map (fun x => d.scale * x)
  let bVec := d.row2.map (fun x => d.scale * x)
  let cVec := d.row3.map (fun x => d.scale * x)
  let alpha ← angle_between bVec cVec
  let beta ← angle_between aVec cVec
  let gamma ← angle_between aVec bVec
  let atomRows ← emitAtoms (d.types.zip d.counts) d.coords
  some (joinNL (cifHeaderLines d.title (vector_norm aVec) (vector_norm bVec) (vector_norm cVec)
    alpha beta gamma ++ atomRows))

/-! Spec-side helper definitions used to state the theorems below. -/

/-- Lines of an output string: split at every newline (a terminating newline
thus contributes a final empty piece). -/
def linesOf (s : Str) : List Str := splitSep (fun c => c = '\n') s

/-- The element-derivation rule exactly as the specification words it for the
label fallback: remove the digit characters of the label, keeping every
non-digit character.  (The source instead keeps only alphabetic characters;
see the theorems about claim C7.) -/
def stripDigitsSpec (l : Str) : Str := l.filter (fun c => !c.isDigit)

/-- The rounding performed on a rational by formatting with `%.6f` and
parsing the result back. -/
def round6 (q : ℚ) : ℚ :=
  ((if q < 0 then -(round ((-q) * (10 : ℚ) ^ 6)) else round (q * (10 : ℚ) ^ 6) : ℤ) : ℚ) / 10 ^ 6

/-- A rational expressible with at most six decimal places. -/
def Reps6 (q : ℚ) : Prop := (q * 10 ^ 6).den = 1

instance : DecidablePred Reps6 := fun q => by
  unfold Reps6
  infer_instance

/-- Characters that can occur in a numeric token (digits, decimal point,
sign); such tokens can never contain any parser keyword. -/
def numChar (c : Char) : Bool := c.isDigit || c = '.' || c = '-' || c = '+'

/-- An element-symbol token as assumed well-formed: nonempty and purely
alphabetic. -/
def goodSym (s : Str) : Bool := !s.isEmpty && s.all (fun c => c.isAlpha)

/-- A whitespace-free nonempty token. -/
def goodTok (s : Str) : Bool := !s.isEmpty && s.all (fun c => !isWs c)

/-- The keyword substrings tested by the `elif` chain of the line scanner. -/
def scanKws : List Str :=
  [kwWCellLengthA, kwUCellLengthA, kwWCellLengthB, kwUCellLengthB,
   kwWCellLengthC, kwUCellLengthC, kwWCellAngleAlpha, kwUCellAngleAlpha,
   kwWCellAngleBeta, kwUCellAngleBeta, kwWCellAngleGamma, kwUCellAngleGamma,
   kwLoop, kwWAtomSite, kwUAtomSite]

/-- Total number of atoms recorded in a species-count dict. -/
def speciesTotal (sp : List (Str × Nat)) : Nat := (sp.map (fun p => p.2)).sum

/-- Literal token used for the off-diagonal zeros of a diagonal cell. -/
def zeroTok : Str := "0.0".data

/-- Coordinate triple rendered as one line of whitespace-separated
6-decimal tokens. -/
def mkCoordLine (t : ℚ × ℚ × ℚ) : Str := joinSpace [fmt6 t.1, fmt6 t.2.1, fmt6 t.2.2]

/-- A well-formed lattice-format (POSCAR) document with a diagonal cell:
title, scale, the diagonal lattice rows, species symbols and counts derived
from `groups`, the `Direct` marker, and one coordinate line per atom. -/
def mkPoscarInput (title : Str) (s d1 d2 d3 : ℚ)
    (groups : List (Str × List (ℚ × ℚ × ℚ))) : Str :=
  joinNL ([title,
           fmt6 s,
           joinSpace [fmt6 d1, zeroTok, zeroTok],
           joinSpace [zeroTok, fmt6 d2, zeroTok],
           joinSpace [zeroTok, zeroTok, fmt6 d3],
           joinSpace (groups.map (fun g => g.1)),
           joinSpace (groups.map (fun g => natToStr g.2.length)),
           "Direct".data] ++
          ((groups.map (fun g => g.2)).flatten).map mkCoordLine)

/-- A coordinate triple as the 3-element row list stored in `PoscarDoc`. -/
def tripleToList (t : ℚ × ℚ × ℚ) : List ℚ := [t.1, t.2.1, t.2.2]

/-- The atom line emitted by `poscar_to_cif` for one atom of a species group
(source line 97). -/
def rowText (atom : Str) (i : Nat) (t : ℚ × ℚ × ℚ) : Str :=
  "  ".data ++ atom ++ natToStr i ++ ' ' :: fmt6 t.1 ++ ' ' :: fmt6 t.2.1 ++ ' ' :: fmt6 t.2.2

/-- The atom lines of a whole species group, starting at label index `i`. -/
def rowTexts (atom : Str) : Nat → List (ℚ × ℚ × ℚ) → List Str
  | _, [] => []
  | i, t :: ts => rowText atom i t :: rowTexts atom (i + 1) ts

/-- The whitespace-split tokens of `rowText atom i t`. -/
def rowToks (atom : Str) (i : Nat) (t : ℚ × ℚ × ℚ) : List Str :=
  [atom ++ natToStr i, fmt6 t.1, fmt6 t.2.1, fmt6 t.2.2]

/-- The token lists of a whole species group, starting at label index `i`. -/
def rowTokss (atom : Str) : Nat → List (ℚ × ℚ × ℚ) → List (List Str)
  | _, [] => []
  | i, t :: ts => rowToks atom i t :: rowTokss atom (i + 1) ts

/-- The six scalar cell fields of a structural-format document. -/
inductive CifKeyId
  | lenA
  | lenB
  | lenC
  | angAlpha
  | angBeta
  | angGamma
  deriving DecidableEq, Repr

/-- The text of a cell-field key in wildcard style (`style = true`) or
underscore style (`style = false`). -/
def keyText : Bool → CifKeyId → Str
  | true, CifKeyId.lenA => kwWCellLengthA
  | false, CifKeyId.lenA => kwUCellLengthA
  | true, CifKeyId.lenB => kwWCellLengthB
  | false, CifKeyId.lenB => kwUCellLengthB
  | true, CifKeyId.lenC => kwWCellLengthC
  | false, CifKeyId.lenC => kwUCellLengthC
  | true, CifKeyId.angAlpha => kwWCellAngleAlpha
  | false, CifKeyId.angAlpha => kwUCellAngleAlpha
  | true, CifKeyId.angBeta => kwWCellAngleBeta
  | false, CifKeyId.angBeta => kwUCellAngleBeta
  | true, CifKeyId.angGamma => kwWCellAngleGamma
  | false, CifKeyId.angGamma => kwUCellAngleGamma

/-- Store a parsed scalar cell field in the scan state. -/
def setCellField (st : ScanState) (k : CifKeyId) (v : ℚ) : ScanState :=
  match k with
  | CifKeyId.lenA => { st with a := v }
  | CifKeyId.lenB => { st with b := v }
  | CifKeyId.lenC => { st with c := v }
  | CifKeyId.angAlpha => { st with alpha := v }
  | CifKeyId.angBeta => { st with beta := v }
  | CifKeyId.angGamma => { st with gamma := v }

/-- The name suffix of an atom-site column header. -/
def colName : ColKey → Str
  | ColKey.type => kwTypeSymbol
  | ColKey.label => kwLabel
  | ColKey.x => kwFractX
  | ColKey.y => kwFractY
  | ColKey.z => kwFractZ

/-- The text of an atom-site column-header line in either style. -/
def hdrText (style : Bool) (k : ColKey) : Str :=
  (if style then kwWAtomSite else kwUAtomSite) ++ colName k

/-- A structural-format (CIF) document with the chosen header style: title,
one line per cell field, a `loop_` line, the atom-site column headers, then
the data rows (each a list of whitespace-separated tokens). -/
def mkCifInput (style : Bool) (title : Str) (params : List (CifKeyId × Str))
    (hdrs : List ColKey) (rows : List (List Str)) : Str :=
  joinNL (title ::
          (params.map (fun p => joinSpace [keyText style p.1, p.2]) ++
           ["loop_".data] ++
           hdrs.map (hdrText style) ++
           rows.map joinSpace))

end Converter

namespace Converter

/-! Basic lemmas about the string primitives. -/

theorem splitSep_cons (p : Char → Bool) (c : Char) (cs : Str) :
    splitSep p (c :: cs) =
      match splitSep p cs with
      | [] => [[]]
      | t :: ts => if p c then [] :: t :: ts else (c :: t) :: ts := rfl

theorem splitSep_ne_nil (p : Char → Bool) (s : Str) : splitSep p s ≠ [] := by
  induction s with
  | nil => simp [splitSep]
  | cons c cs ih =>
    rw [splitSep_cons]
    cases h : splitSep p cs with
    | nil => simp
    | cons t ts => by_cases hc : p c <;> simp [hc]

theorem splitSep_sepFree (p : Char → Bool) (s : Str) (h : ∀ c ∈ s, p c = false) :
    splitSep p s = [s] := by
  induction s with
  | nil => rfl
  | cons c cs ih =>
    rw [splitSep_cons, ih (fun a ha => h a (List.mem_cons_of_mem _ ha))]
    simp [h c (List.mem_cons_self _ _)]

theorem splitSep_append_sep (p : Char → Bool) (xs ys : Str) (c : Char)
    (hxs : ∀ a ∈ xs, p a = false) (hc : p c = true) :
    splitSep p (xs ++ c :: ys) = xs :: splitSep p ys := by
  induction xs with
  | nil =>
    rw [List.nil_append, splitSep_cons]
    cases h : splitSep p ys with
    | nil => exact absurd h (splitSep_ne_nil p ys)
    | cons t ts => simp [hc, ← h]
  | cons a xs ih =>
    rw [List.cons_append, splitSep_cons,
      ih (fun b hb => hxs b (List.mem_cons_of_mem _ hb))]
    simp [hxs a (List.mem_cons_self _ _)]

theorem sepFree_of_mem_splitSep (p : Char → Bool) (s t : Str)
    (ht : t ∈ splitSep p s) : ∀ c ∈ t, p c = false := by
  induction s generalizing t with
  | nil =>
    simp only [splitSep, List.mem_singleton] at ht
    subst ht
    intro c hc
    exact absurd hc (List.not_mem_nil c)
  | cons a s ih =>
    rw [splitSep_cons] at ht
    cases h : splitSep p s with
    | nil => exact absurd h (splitSep_ne_nil p s)
    | cons u us =>
      rw [h] at ht
      by_cases hp : p a
      · simp only [hp, if_pos] at ht
        rcases List.mem_cons.mp ht with h1 | h1
        · subst h1
          intro c hc
          exact absurd hc (List.not_mem_nil c)
        · exact ih t (h ▸ h1)
      · simp only [hp, if_neg, Bool.false_eq_true, not_false_iff] at ht
        rcases List.mem_cons.mp ht with h1 | h1
        · subst h1
          intro c hc
          rcases List.mem_cons.mp hc with h2 | h2
          · subst h2
            exact Bool.eq_false_iff.mpr hp
          · exact ih u (h ▸ List.mem_cons_self u us) c h2
        · exact ih t (h ▸ List.mem_cons_of_mem u h1)

theorem goodTok_wsFree {t : Str} (h : goodTok t = true) : ∀ c ∈ t, isWs c = false := by
  intro c hc
  have := (Bool.and_eq_true _ _).mp h |>.2
  rw [List.all_eq_true] at this
  simpa using this c hc

theorem goodTok_ne_nil {t : Str} (h : goodTok t = true) : t ≠ [] := by
  have := (Bool.and_eq_true _ _).mp h |>.1
  simpa [List.isEmpty_iff] using this

theorem pysplit_sepFree (s : Str) (h : ∀ c ∈ s, isWs c = false) (hne : s ≠ []) :
    pysplit s = [s] := by
  unfold pysplit
  rw [splitSep_sepFree _ _ h]
  simp [hne]

theorem pysplit_append_ws (xs ys : Str) (c : Char)
    (hxs : ∀ a ∈ xs, isWs a = false) (hc : isWs c = true) :
    pysplit (xs ++ c :: ys) = (if xs.isEmpty then [] else [xs]) ++ pysplit ys := by
  unfold pysplit
  rw [splitSep_append_sep _ _ _ _ hxs hc, List.filter_cons]
  by_cases h : xs = [] <;> simp [h]

theorem joinSpace_cons_cons (t u : Str) (us : List Str) :
    joinSpace (t :: u :: us) = t ++ ' ' :: joinSpace (u :: us) := rfl

theorem pysplit_joinSpace (toks : List Str) (h : ∀ t ∈ toks, goodTok t = true) :
    pysplit (joinSpace toks) = toks := by
  induction toks with
  | nil => rfl
  | cons t ts ih =>
    cases ts with
    | nil =>
      exact pysplit_sepFree t (goodTok_wsFree (h t (List.mem_cons_self _ _)))
        (goodTok_ne_nil (h t (List.mem_cons_self _ _)))
    | cons u us =>
      rw [joinSpace_cons_cons,
        pysplit_append_ws _ _ _ (goodTok_wsFree (h t (List.mem_cons_self _ _))) (by decide),
        ih (fun a ha => h a (List.mem_cons_of_mem _ ha))]
      simp [goodTok_ne_nil (h t (List.mem_cons_self _ _))]

theorem terminateLines_cons (l : Str) (ls : List Str) :
    terminateLines (l :: ls) = l ++ '\n' :: terminateLines ls := by
  simp [terminateLines]

theorem linesOf_terminateLines (ls : List Str) (h : ∀ l ∈ ls, ∀ c ∈ l, c ≠ '\n') :
    linesOf (terminateLines ls) = ls ++ [[]] := by
  induction ls with
  | nil => rfl
  | cons l ls ih =>
    rw [terminateLines_cons]
    unfold linesOf at *
    rw [splitSep_append_sep _ _ _ _
      (fun a ha => by simpa using h l (List.mem_cons_self _ _) a ha) (by simp),
      ih (fun m hm => h m (List.mem_cons_of_mem _ hm))]
    rfl

theorem joinNL_cons_cons (t u : Str) (us : List Str) :
    joinNL (t :: u :: us) = t ++ '\n' :: joinNL (u :: us) := rfl

theorem splitSepNL_joinNL (ls : List Str) (hne : ls ≠ [])
    (h : ∀ l ∈ ls, ∀ c ∈ l, c ≠ '\n') :
    splitSep (fun c => c = '\n') (joinNL ls) = ls := by
  induction ls with
  | nil => exact absurd rfl hne
  | cons l ls ih =>
    cases ls with
    | nil =>
      exact splitSep_sepFree _ l
        (fun a ha => by simpa using h l (List.mem_cons_self _ _) a ha)
    | cons u us =>
      rw [joinNL_cons_cons,
        splitSep_append_sep _ _ _ _
          (fun a ha => by simpa using h l (List.mem_cons_self _ _) a ha) (by simp),
        ih (by simp) (fun m hm => h m (List.mem_cons_of_mem _ hm))]

theorem dropWhile_ws_eq_self (l : Str) (h : ∀ c, l.head? = some c → isWs c = false) :
    l.dropWhile isWs = l := by
  cases l with
  | nil => rfl
  | cons a l =>
    rw [List.dropWhile_cons, h a rfl]
    simp

theorem pystrip_eq_self (s : Str) (h1 : ∀ c, s.head? = some c → isWs c = false)
    (h2 : ∀ c, s.getLast? = some c → isWs c = false) : pystrip s = s := by
  unfold pystrip
  rw [dropWhile_ws_eq_self s h1, dropWhile_ws_eq_self _ (by
    intro c hc
    exact h2 c (by simpa using hc)), List.reverse_reverse]

end Converter

namespace Converter

/-! Lemmas about substring containment. -/

theorem strContains_infix_iff (s pat : Str) : strContains s pat = true ↔ pat <:+: s := by
  induction s with
  | nil =>
    constructor
    · intro h
      have hp : pat = [] := by simpa [strContains, List.isEmpty_iff] using h
      simp [hp]
    · intro h
      have hp : pat = [] := List.infix_nil.mp h
      simp [strContains, hp]
  | cons a cs ih =>
    simp only [strContains, Bool.or_eq_true, List.isPrefixOf_iff_prefix, ih,
      List.infix_cons_iff]

theorem strContains_false_of_missing_char (s pat : Str) (c0 : Char)
    (hc0 : c0 ∈ pat) (hs : c0 ∉ s) : strContains s pat = false := by
  apply Bool.eq_false_iff.mpr
  intro h
  exact hs (((strContains_infix_iff s pat).mp h).subset hc0)

theorem prefix_sep_split (sep : Char) (pat xs ys : Str) (hsep : sep ∉ pat)
    (h : pat <+: xs ++ sep :: ys) : pat <+: xs := by
  induction xs generalizing pat with
  | nil =>
    cases pat with
    | nil => exact List.nil_prefix
    | cons c pat' =>
      rw [List.nil_append, List.cons_prefix_cons] at h
      exact absurd (h.1 ▸ List.mem_cons_self c pat') hsep
  | cons b xs' ih =>
    cases pat with
    | nil => exact List.nil_prefix
    | cons c pat' =>
      rw [List.cons_append, List.cons_prefix_cons] at h
      exact List.cons_prefix_cons.mpr
        ⟨h.1, ih pat' (fun hm => hsep (List.mem_cons_of_mem _ hm)) h.2⟩

theorem infix_sep_split (sep : Char) (pat xs ys : Str) (hsep : sep ∉ pat) :
    pat <:+: xs ++ sep :: ys ↔ pat <:+: xs ∨ pat <:+: ys := by
  constructor
  · intro h
    induction xs generalizing pat with
    | nil =>
      rw [List.nil_append, List.infix_cons_iff] at h
      rcases h with h | h
      · cases pat with
        | nil => exact Or.inl List.nil_infix
        | cons c pat' =>
          rw [List.cons_prefix_cons] at h
          exact absurd (h.1 ▸ List.mem_cons_self c pat') hsep
      · exact Or.inr h
    | cons b xs' ih =>
      rw [List.cons_append, List.infix_cons_iff] at h
      rcases h with h | h
      · rw [← List.cons_append] at h
        exact Or.inl (prefix_sep_split sep pat (b :: xs') ys hsep h).isInfix
      · rcases ih pat hsep h with h1 | h1
        · exact Or.inl (h1.trans (List.suffix_cons b xs').isInfix)
        · exact Or.inr h1
  · intro h
    rcases h with h | h
    · exact h.trans (List.prefix_append _ _).isInfix
    · exact h.trans ((List.suffix_cons sep ys).trans (List.suffix_append _ _)).isInfix

theorem strContains_sep_split (xs ys : Str) (sep : Char) (pat : Str)
    (hsep : sep ∉ pat) :
    strContains (xs ++ sep :: ys) pat = (strContains xs pat || strContains ys pat) := by
  rcases h1 : strContains xs pat with _ | _ <;> rcases h2 : strContains ys pat with _ | _ <;>
    simp only [Bool.or_self, Bool.or_true, Bool.true_or, Bool.or_false]
  · apply Bool.eq_false_iff.mpr
    intro h
    rcases (infix_sep_split sep pat xs ys hsep).mp ((strContains_infix_iff _ _).mp h) with h3 | h3
    · exact absurd ((strContains_infix_iff _ _).mpr h3) (by simp [h1])
    · exact absurd ((strContains_infix_iff _ _).mpr h3) (by simp [h2])
  · exact (strContains_infix_iff _ _).mpr
      ((infix_sep_split sep pat xs ys hsep).mpr (Or.inr ((strContains_infix_iff _ _).mp h2)))
  · exact (strContains_infix_iff _ _).mpr
      ((infix_sep_split sep pat xs ys hsep).mpr (Or.inl ((strContains_infix_iff _ _).mp h1)))
  · exact (strContains_infix_iff _ _).mpr
      ((infix_sep_split sep pat xs ys hsep).mpr (Or.inl ((strContains_infix_iff _ _).mp h1)))

theorem strContains_joinSpace (toks : List Str) (pat : Str)
    (hpat : ' ' ∉ pat) (hne : pat ≠ []) :
    strContains (joinSpace toks) pat = toks.any (fun t => strContains t pat) := by
  induction toks with
  | nil =>
    simp [joinSpace, strContains, List.isEmpty_iff, hne]
  | cons t ts ih =>
    cases ts with
    | nil => simp [joinSpace]
    | cons u us =>
      rw [joinSpace_cons_cons, strContains_sep_split _ _ _ _ hpat, ih]
      simp [List.any_cons]

theorem singleton_isPrefixOf_cons (c a : Char) (l : Str) :
    [c].isPrefixOf (a :: l) = (c == a) := by
  simp [List.isPrefixOf]

theorem singleton_isPrefixOf_nil (c : Char) : [c].isPrefixOf ([] : Str) = false := rfl

end Converter

namespace Converter

/-! Lemmas about character classes. -/

theorem char_ne_of_class {f : Char → Bool} {c ch : Char} (h : f c = true)
    (hch : f ch = false) : c ≠ ch := by
  intro e
  rw [e, hch] at h
  exact Bool.false_ne_true h

theorem class_not_ws {f : Char → Bool} (hsp : f ' ' = false) (ht : f '\t' = false)
    (hr : f '\r' = false) (hn : f '\n' = false) {c : Char} (h : f c = true) :
    isWs c = false := by
  simp only [isWs, Char.isWhitespace, Bool.or_eq_false_iff, decide_eq_false_iff_not]
  exact ⟨⟨⟨char_ne_of_class h hsp, char_ne_of_class h ht⟩,
    char_ne_of_class h hr⟩, char_ne_of_class h hn⟩

theorem numChar_not_ws {c : Char} (h : numChar c = true) : isWs c = false :=
  class_not_ws (by decide) (by decide) (by decide) (by decide) h

theorem isDigit_numChar {c : Char} (h : c.isDigit = true) : numChar c = true := by
  simp [numChar, h]

theorem isAlpha_not_ws {c : Char} (h : c.isAlpha = true) : isWs c = false :=
  class_not_ws (by decide) (by decide) (by decide) (by decide) h

/-! Lemmas about decimal rendering and parsing of numbers. -/

theorem digitVal_digitChar {d : Nat} (h : d < 10) :
    digitVal (Nat.digitChar d) = d := by
  interval_cases d <;> decide

theorem digitChar_isDigit {d : Nat} (h : d < 10) : (Nat.digitChar d).isDigit = true := by
  interval_cases d <;> decide

theorem natDigitsAux_eq (fuel n : Nat) (h : n ≤ fuel) :
    natDigitsAux fuel n = (Nat.digits 10 n).map Nat.digitChar := by
  induction fuel generalizing n with
  | zero =>
    interval_cases n
    simp [natDigitsAux]
  | succ fuel ih =>
    unfold natDigitsAux
    by_cases h0 : n = 0
    · simp [h0]
    · rw [if_neg h0]
      have h2 : n / 10 < n := Nat.div_lt_self (Nat.pos_of_ne_zero h0) (by norm_num)
      rw [ih _ (by omega), ← List.map_cons]
      congr 1
      exact (Nat.digits_def' (by norm_num : 1 < 10) (Nat.pos_of_ne_zero h0)).symm

theorem natToStr_eq (n : Nat) :
    natToStr n = if n = 0 then ['0'] else ((Nat.digits 10 n).map Nat.digitChar).reverse := by
  unfold natToStr
  by_cases h : n = 0
  · rw [if_pos h, if_pos h]
  · rw [if_neg h, if_neg h, natDigitsAux_eq n n le_rfl]

theorem natToStr_ne_nil (n : Nat) : natToStr n ≠ [] := by
  rw [natToStr_eq]
  by_cases h : n = 0
  · simp [h]
  · simp only [h, if_neg, not_false_iff]
    intro he
    have : Nat.digits 10 n = [] := by
      have := congrArg List.length he
      simpa using this
    exact h (Nat.digits_eq_nil_iff_eq_zero.mp this)

theorem natToStr_isDigit (n : Nat) : ∀ c ∈ natToStr n, c.isDigit = true := by
  rw [natToStr_eq]
  by_cases h : n = 0
  · simp only [h, if_pos]
    intro c hc
    rw [List.mem_singleton] at hc
    subst hc
    decide
  · simp only [h, if_neg, not_false_iff, List.mem_reverse, List.mem_map]
    rintro c ⟨d, hd, rfl⟩
    exact digitChar_isDigit (Nat.digits_lt_base (by norm_num) hd)

theorem natOfDigits_append_singleton (xs : Str) (c : Char) :
    natOfDigits (xs ++ [c]) = natOfDigits xs * 10 + digitVal c := by
  unfold natOfDigits
  rw [List.foldl_append]
  rfl

theorem natOfDigits_rev_digits (ds : List Nat) (h : ∀ d ∈ ds, d < 10) :
    natOfDigits ((ds.map Nat.digitChar).reverse) = Nat.ofDigits 10 ds := by
  induction ds with
  | nil => rfl
  | cons d ds ih =>
    rw [List.map_cons, List.reverse_cons, natOfDigits_append_singleton,
      ih (fun a ha => h a (List.mem_cons_of_mem _ ha)),
      digitVal_digitChar (h d (List.mem_cons_self _ _)), Nat.ofDigits_cons]
    ring

theorem natOfDigits_natToStr (n : Nat) : natOfDigits (natToStr n) = n := by
  rw [natToStr_eq]
  by_cases h : n = 0
  · simp [h]
    rfl
  · rw [if_neg h, natOfDigits_rev_digits _ (fun d hd => Nat.digits_lt_base (by norm_num) hd),
      Nat.ofDigits_digits]

theorem natOfDigits_replicate_zero_append (k : Nat) (s : Str) :
    natOfDigits (List.replicate k '0' ++ s) = natOfDigits s := by
  induction k with
  | zero => rfl
  | succ k ih =>
    rw [List.replicate_succ, List.cons_append]
    show natOfDigits (List.replicate k '0' ++ s) = _
    exact ih

theorem natOfDigits_padZeros (nd : Nat) (s : Str) :
    natOfDigits (padZeros nd s) = natOfDigits s :=
  natOfDigits_replicate_zero_append _ s

theorem natToStr_length_le {n k : Nat} (hk : 1 ≤ k) (h : n < 10 ^ k) :
    (natToStr n).length ≤ k := by
  rw [natToStr_eq]
  by_cases h0 : n = 0
  · simpa [h0] using hk
  · rw [if_neg h0, List.length_reverse, List.length_map,
      Nat.digits_len 10 n (by norm_num) h0]
    have := Nat.log_lt_of_lt_pow h0 h
    omega

theorem padZeros_length {nd : Nat} {s : Str} (h : s.length ≤ nd) :
    (padZeros nd s).length = nd := by
  unfold padZeros
  rw [List.length_append, List.length_replicate]
  omega

theorem allDigits_natToStr (n : Nat) : allDigits (natToStr n) = true := by
  unfold allDigits
  rw [Bool.and_eq_true, List.all_eq_true]
  constructor
  · simpa [List.isEmpty_iff] using natToStr_ne_nil n
  · intro c hc
    exact natToStr_isDigit n c hc

theorem allDigits_padZeros_natToStr (nd n : Nat) :
    allDigits (padZeros nd (natToStr n)) = true := by
  unfold allDigits padZeros
  rw [Bool.and_eq_true, List.all_eq_true]
  refine ⟨?_, ?_⟩
  · have : natToStr n ≠ [] := natToStr_ne_nil n
    rcases hs : natToStr n with _ | ⟨c, cs⟩
    · exact absurd hs this
    · simp [List.isEmpty_iff]
  · intro c hc
    rcases List.mem_append.mp hc with h | h
    · rw [List.eq_of_mem_replicate h]
      decide
    · exact natToStr_isDigit n c h

end Converter

namespace Converter

/-! Round-trip lemmas between fixed-point formatting and float parsing. -/

theorem splitSep_dot_format (xs ys : Str) (hxs : ∀ c ∈ xs, c.isDigit = true)
    (hys : ∀ c ∈ ys, c.isDigit = true) :
    splitSep (fun c => c = '.') (xs ++ '.' :: ys) = [xs, ys] := by
  rw [splitSep_append_sep _ _ _ _
    (fun a ha => by simpa using char_ne_of_class (hxs a ha) (by decide : ('.' : Char).isDigit = false))
    (by simp),
    splitSep_sepFree _ _
    (fun a ha => by simpa using char_ne_of_class (hys a ha) (by decide : ('.' : Char).isDigit = false))]

theorem allDigits_wsFree {s : Str} (h : allDigits s = true) : ∀ c ∈ s, isWs c = false := by
  intro c hc
  have := (Bool.and_eq_true _ _).mp h |>.2
  rw [List.all_eq_true] at this
  exact numChar_not_ws (isDigit_numChar (this c hc))

theorem parseUFloat_format (ipn : Nat) (nd : Nat) (fp : Nat) (hnd : 1 ≤ nd) (hfp : fp < 10 ^ nd) :
    parseUFloat (natToStr ipn ++ '.' :: padZeros nd (natToStr fp)) =
      some ((ipn : ℚ) + (fp : ℚ) / (10 : ℚ) ^ nd) := by
  unfold parseUFloat
  rw [splitSep_dot_format _ _ (natToStr_isDigit ipn) (fun c hc => by
    unfold padZeros at hc
    rcases List.mem_append.mp hc with h | h
    · rw [List.eq_of_mem_replicate h]
      decide
    · exact natToStr_isDigit fp c h)]
  have h1 : allDigits (natToStr ipn) = true := allDigits_natToStr ipn
  have h2 : allDigits (padZeros nd (natToStr fp)) = true := allDigits_padZeros_natToStr nd fp
  have h3 : (natToStr ipn).isEmpty = false := by
    rcases hs : natToStr ipn with _ | ⟨c, cs⟩
    · exact absurd hs (natToStr_ne_nil ipn)
    · rfl
  simp only [h1, h2, h3, Bool.false_and, Bool.and_self, Bool.false_eq_true, if_false,
    Bool.or_true, Bool.true_or, Bool.and_true, if_true, Option.some.injEq]
  rw [natOfDigits_padZeros, natOfDigits_natToStr, natOfDigits_natToStr,
    padZeros_length (natToStr_length_le hnd hfp)]

theorem parseFloat_of_head_digit (s : Str) (hne : s ≠ [])
    (h : ∀ c, s.head? = some c → c.isDigit = true) :
    parseFloat s = parseUFloat s := by
  cases s with
  | nil => exact absurd rfl hne
  | cons c rest =>
    have hc := h c rfl
    show (if c = '-' then (parseUFloat rest).map (fun q => -q)
      else if c = '+' then parseUFloat rest else parseUFloat (c :: rest)) = _
    rw [if_neg (char_ne_of_class hc (by decide : ('-' : Char).isDigit = false)),
      if_neg (char_ne_of_class hc (by decide : ('+' : Char).isDigit = false))]

theorem head_natToStr_append_isDigit (n : Nat) (rest : Str) (c : Char)
    (h : (natToStr n ++ rest).head? = some c) : c.isDigit = true := by
  rcases hs : natToStr n with _ | ⟨d, ds⟩
  · exact absurd hs (natToStr_ne_nil n)
  · rw [hs, List.cons_append] at h
    cases h
    exact natToStr_isDigit n c (hs ▸ List.mem_cons_self _ _)

theorem cast_div_add_mod_pow (m nd : Nat) :
    ((m / 10 ^ nd : Nat) : ℚ) + ((m % 10 ^ nd : Nat) : ℚ) / (10 : ℚ) ^ nd =
      (m : ℚ) / (10 : ℚ) ^ nd := by
  have hk : ((10 ^ nd : Nat) : ℚ) = (10 : ℚ) ^ nd := by push_cast; ring
  have hkne : ((10 ^ nd : Nat) : ℚ) ≠ 0 := by rw [hk]; positivity
  rw [← hk]
  field_simp
  norm_cast
  rw [Nat.mul_comm (m / 10 ^ nd) (10 ^ nd)]
  exact Nat.div_add_mod m (10 ^ nd)

theorem parseUFloat_fmtPos (nd : Nat) (q : ℚ) (hnd : 1 ≤ nd) :
    parseUFloat (fmtPos nd q) =
      some ((((round (q * (10 : ℚ) ^ nd)).toNat : ℚ)) / (10 : ℚ) ^ nd) := by
  unfold fmtPos
  rw [parseUFloat_format _ nd _ hnd (Nat.mod_lt _ (Nat.pos_pow_of_pos nd (by norm_num)))]
  congr 1
  exact cast_div_add_mod_pow _ nd

theorem parseFloat_fmtPos (nd : Nat) (q : ℚ) (hnd : 1 ≤ nd) :
    parseFloat (fmtPos nd q) =
      some ((((round (q * (10 : ℚ) ^ nd)).toNat : ℚ)) / (10 : ℚ) ^ nd) := by
  rw [parseFloat_of_head_digit _ (by
      unfold fmtPos
      intro he
      have := congrArg List.length he
      simp at this) (by
    intro c hc
    unfold fmtPos at hc
    exact head_natToStr_append_isDigit _ _ c hc)]
  exact parseUFloat_fmtPos nd q hnd

theorem round_toNat_cast (x : ℚ) (hx : 0 ≤ x) :
    (((round x).toNat : ℚ)) = ((round x : ℤ) : ℚ) := by
  have h0 : 0 ≤ round x := by
    rw [round_eq]
    exact Int.floor_nonneg.mpr (by linarith)
  exact_mod_cast Int.toNat_of_nonneg h0

theorem fmtFixed_eq (nd : Nat) (q : ℚ) :
    fmtFixed nd q = if q < 0 then '-' :: fmtPos nd (-q) else fmtPos nd q := by
  unfold fmtFixed
  by_cases h : q < 0
  · rw [if_pos h, if_pos (show q.blt 0 = true from h)]
  · rw [if_neg h, if_neg (show ¬q.blt 0 = true from h)]

theorem parseFloat_fmt6 (q : ℚ) : parseFloat (fmt6 q) = some (round6 q) := by
  unfold fmt6 round6
  rw [fmtFixed_eq]
  by_cases h : q < 0
  · rw [if_pos h, if_pos h]
    show (if ('-' : Char) = '-' then (parseUFloat (fmtPos 6 (-q))).map (fun x => -x)
      else if ('-' : Char) = '+' then parseUFloat (fmtPos 6 (-q))
      else parseUFloat ('-' :: fmtPos 6 (-q))) = _
    rw [if_pos rfl, parseUFloat_fmtPos 6 (-q) (by norm_num), Option.map_some',
      Option.some.injEq, round_toNat_cast _ (by nlinarith [h.le])]
    push_cast
    ring
  · rw [if_neg h, if_neg h, parseFloat_fmtPos 6 q (by norm_num), Option.some.injEq,
      round_toNat_cast _ (by nlinarith [not_lt.mp h])]

theorem round6_reps (q : ℚ) (h : Reps6 q) : round6 q = q := by
  unfold Reps6 at h
  have hz : ((q * 10 ^ 6 : ℚ).num : ℚ) = q * 10 ^ 6 := by
    conv_rhs => rw [← Rat.num_div_den (q * 10 ^ 6)]
    rw [h]
    simp
  unfold round6
  by_cases hq : q < 0
  · rw [if_pos hq]
    have : ((-q) * 10 ^ 6 : ℚ) = ((-(q * 10 ^ 6 : ℚ).num : ℤ) : ℚ) := by
      push_cast
      rw [hz]
      ring
    rw [this, round_intCast]
    push_cast
    rw [neg_neg, hz]
    field_simp
  · rw [if_neg hq]
    have : (q * 10 ^ 6 : ℚ) = (((q * 10 ^ 6 : ℚ).num : ℤ) : ℚ) := by rw [hz]
    rw [this, round_intCast, hz]
    field_simp

theorem round6_close (q : ℚ) : |round6 q - q| ≤ 1 / 2000000 := by
  unfold round6
  by_cases hq : q < 0
  · rw [if_pos hq]
    have h := abs_sub_round ((-q) * 10 ^ 6)
    rw [abs_sub_comm] at h
    have h2 : ((-(round ((-q) * 10 ^ 6)) : ℤ) : ℚ) / 10 ^ 6 - q =
        -(((round ((-q) * 10 ^ 6) : ℤ) : ℚ) - (-q) * 10 ^ 6) / 10 ^ 6 := by
      push_cast
      ring
    rw [h2, abs_div, abs_neg, abs_of_pos (show (0:ℚ) < 10 ^ 6 by norm_num),
      show (1:ℚ) / 2000000 = (1 / 2) / 10 ^ 6 by norm_num,
      div_le_div_iff_of_pos_right (show (0:ℚ) < 10 ^ 6 by norm_num)]
    exact h
  · rw [if_neg hq]
    have h := abs_sub_round (q * 10 ^ 6)
    rw [abs_sub_comm] at h
    have h2 : ((round (q * 10 ^ 6) : ℤ) : ℚ) / 10 ^ 6 - q =
        (((round (q * 10 ^ 6) : ℤ) : ℚ) - q * 10 ^ 6) / 10 ^ 6 := by
      ring
    rw [h2, abs_div, abs_of_pos (show (0:ℚ) < 10 ^ 6 by norm_num),
      show (1:ℚ) / 2000000 = (1 / 2) / 10 ^ 6 by norm_num,
      div_le_div_iff_of_pos_right (show (0:ℚ) < 10 ^ 6 by norm_num)]
    exact h

theorem fmtPos_numChar (nd : Nat) (q : ℚ) : ∀ c ∈ fmtPos nd q, numChar c = true := by
  intro c hc
  unfold fmtPos at hc
  rcases List.mem_append.mp hc with h | h
  · exact isDigit_numChar (natToStr_isDigit _ c h)
  · rcases List.mem_cons.mp h with h1 | h1
    · subst h1
      decide
    · unfold padZeros at h1
      rcases List.mem_append.mp h1 with h2 | h2
      · rw [List.eq_of_mem_replicate h2]
        decide
      · exact isDigit_numChar (natToStr_isDigit _ c h2)

theorem fmtFixed_numChar (nd : Nat) (q : ℚ) : ∀ c ∈ fmtFixed nd q, numChar c = true := by
  intro c hc
  rw [fmtFixed_eq] at hc
  by_cases h : q < 0
  · rw [if_pos h] at hc
    rcases List.mem_cons.mp hc with h1 | h1
    · subst h1
      decide
    · exact fmtPos_numChar _ _ c h1
  · rw [if_neg h] at hc
    exact fmtPos_numChar _ _ c hc

theorem fmtPos_ne_nil (nd : Nat) (q : ℚ) : fmtPos nd q ≠ [] := by
  unfold fmtPos
  intro he
  have := congrArg List.length he
  simp at this

theorem fmtFixed_ne_nil (nd : Nat) (q : ℚ) : fmtFixed nd q ≠ [] := by
  rw [fmtFixed_eq]
  by_cases h : q < 0
  · simp [h]
  · simpa [h] using fmtPos_ne_nil nd q

theorem goodTok_fmtFixed (nd : Nat) (q : ℚ) : goodTok (fmtFixed nd q) = true := by
  unfold goodTok
  rw [Bool.and_eq_true, List.all_eq_true]
  constructor
  · rcases hs : fmtFixed nd q with _ | ⟨c, cs⟩
    · exact absurd hs (fmtFixed_ne_nil nd q)
    · rfl
  · intro c hc
    simpa using numChar_not_ws (fmtFixed_numChar nd q c hc)

end Converter

namespace Converter

/-- Claim C8: for every pair of rational sequences `v1` and `v2`, possibly of
different lengths, `dot_product v1 v2` equals the sum of the elementwise
products over the first `min v1.length v2.length` positions; pairs beyond the
shorter length contribute nothing. -/
theorem c8_dot_product_min_length (v1 v2 : List ℚ) :
    dot_product v1 v2 =
      ∑ i ∈ Finset.range (min v1.length v2.length), v1.getD i 0 * v2.getD i 0 := by
  induction v1 generalizing v2 with
  | nil => simp [dot_product]
  | cons a t1 ih =>
    cases v2 with
    | nil => simp [dot_product]
    | cons b t2 =>
      have hmin : min (a :: t1).length ((b :: t2).length) = min t1.length t2.length + 1 := by
        simp [Nat.succ_min_succ]
      rw [hmin, Finset.sum_range_succ']
      have hdot : dot_product (a :: t1) (b :: t2) = a * b + dot_product t1 t2 := by
        simp [dot_product, List.zip_cons_cons]
      rw [hdot, ih]
      simp only [List.getD_cons_succ, List.getD_cons_zero]
      ring

end Converter

namespace Converter

/-! Branch-classification lemmas for the line scanner. -/

theorem mem_false_of_class {f : Char → Bool} {v : Str} (hv : ∀ c ∈ v, f c = true)
    {c0 : Char} (hc0 : f c0 = false) : c0 ∉ v := by
  intro hmem
  rw [hv c0 hmem] at hc0
  exact absurd hc0 (by decide)

theorem strContains_numTok_false (v : Str) (hv : ∀ c ∈ v, numChar c = true)
    (kw : Str) (hkw : '_' ∈ kw) : strContains v kw = false :=
  strContains_false_of_missing_char v kw '_' hkw (mem_false_of_class hv (by decide))

theorem scanKws_numTok_false (v : Str) (hv : ∀ c ∈ v, numChar c = true) :
    ∀ kw ∈ scanKws, strContains v kw = false := by
  intro kw hkw
  apply strContains_numTok_false v hv
  fin_cases hkw <;> decide

theorem scanLineCore_cellKey (st : ScanState) (style : Bool) (k : CifKeyId) (v : Str)
    (hv : ∀ c ∈ v, numChar c = true) (hvne : v ≠ []) :
    scanLineCore st (keyText style k ++ ' ' :: v) =
      (parseFloat v).map (setCellField st k) := by
  have hns : ∀ kw ∈ scanKws, strContains v kw = false := scanKws_numTok_false v hv
  cases style <;> cases k
  case false.lenA =>
    rw [show keyText false CifKeyId.lenA = kwUCellLengthA from rfl]
    unfold scanLineCore
    rw [show ((kwUCellLengthA ++ ' ' :: v).isEmpty
        || ['#'].isPrefixOf (kwUCellLengthA ++ ' ' :: v)) = false from rfl]
    rw [strContains_sep_split kwUCellLengthA v ' ' kwWCellLengthA (by decide),
      strContains_sep_split kwUCellLengthA v ' ' kwUCellLengthA (by decide)]
    rw [show strContains kwUCellLengthA kwWCellLengthA = false from by decide,
      show strContains kwUCellLengthA kwUCellLengthA = true from by decide,
      hns kwWCellLengthA (by simp [scanKws]), hns kwUCellLengthA (by simp [scanKws])]
    simp only [Bool.false_or, Bool.or_false, Bool.or_true, Bool.true_or,
      Bool.false_eq_true, if_false, if_true]
    unfold lastTokenFloat
    rw [pysplit_append_ws kwUCellLengthA v ' ' (by decide) (by decide),
      pysplit_sepFree v (fun c hc => numChar_not_ws (hv c hc)) hvne]
    simp
    rfl
  case false.lenB =>
    rw [show keyText false CifKeyId.lenB = kwUCellLengthB from rfl]
    unfold scanLineCore
    rw [show ((kwUCellLengthB ++ ' ' :: v).isEmpty
        || ['#'].isPrefixOf (kwUCellLengthB ++ ' ' :: v)) = false from rfl]
    rw [strContains_sep_split kwUCellLengthB v ' ' kwWCellLengthA (by decide),
      strContains_sep_split kwUCellLengthB v ' ' kwUCellLengthA (by decide)]
    rw [show strContains kwUCellLengthB kwWCellLengthA = false from by decide,
      show strContains kwUCellLengthB kwUCellLengthA = false from by decide,
      hns kwWCellLengthA (by simp [scanKws]), hns kwUCellLengthA (by simp [scanKws])]
    rw [strContains_sep_split kwUCellLengthB v ' ' kwWCellLengthB (by decide),
      strContains_sep_split kwUCellLengthB v ' ' kwUCellLengthB (by decide)]
    rw [show strContains kwUCellLengthB kwWCellLengthB = false from by decide,
      show strContains kwUCellLengthB kwUCellLengthB = true from by decide,
      hns kwWCellLengthB (by simp [scanKws]), hns kwUCellLengthB (by simp [scanKws])]
    simp only [Bool.false_or, Bool.or_false, Bool.or_true, Bool.true_or,
      Bool.false_eq_true, if_false, if_true]
    unfold lastTokenFloat
    rw [pysplit_append_ws kwUCellLengthB v ' ' (by decide) (by decide),
      pysplit_sepFree v (fun c hc => numChar_not_ws (hv c hc)) hvne]
    simp
    rfl
  case false.lenC =>
    rw [show keyText false CifKeyId.lenC = kwUCellLengthC from rfl]
    unfold scanLineCore
    rw [show ((kwUCellLengthC ++ ' ' :: v).isEmpty
        || ['#'].isPrefixOf (kwUCellLengthC ++ ' ' :: v)) = false from rfl]
    rw [strContains_sep_split kwUCellLengthC v ' ' kwWCellLengthA (by decide),
      strContains_sep_split kwUCellLengthC v ' ' kwUCellLengthA (by decide)]
    rw [show strContains kwUCellLengthC kwWCellLengthA = false from by decide,
      show strContains kwUCellLengthC kwUCellLengthA = false from by decide,
      hns kwWCellLengthA (by simp [scanKws]), hns kwUCellLengthA (by simp [scanKws])]
    rw [strContains_sep_split kwUCellLengthC v ' ' kwWCellLengthB (by decide),
      strContains_sep_split kwUCellLengthC v ' ' kwUCellLengthB (by decide)]
    rw [show strContains kwUCellLengthC kwWCellLengthB = false from by decide,
      show strContains kwUCellLengthC kwUCellLengthB = false from by decide,
      hns kwWCellLengthB (by simp [scanKws]), hns kwUCellLengthB (by simp [scanKws])]
    rw [strContains_sep_split kwUCellLengthC v ' ' kwWCellLengthC (by decide),
      strContains_sep_split kwUCellLengthC v ' ' kwUCellLengthC (by decide)]
    rw [show strContains kwUCellLengthC kwWCellLengthC = false from by decide,
      show strContains kwUCellLengthC kwUCellLengthC = true from by decide,
      hns kwWCellLengthC (by simp [scanKws]), hns kwUCellLengthC (by simp [scanKws])]
    simp only [Bool.false_or, Bool.or_false, Bool.or_true, Bool.true_or,
      Bool.false_eq_true, if_false, if_true]
    unfold lastTokenFloat
    rw [pysplit_append_ws kwUCellLengthC v ' ' (by decide) (by decide),
      pysplit_sepFree v (fun c hc => numChar_not_ws (hv c hc)) hvne]
    simp
    rfl
  case false.angAlpha =>
    rw [show keyText false CifKeyId.angAlpha = kwUCellAngleAlpha from rfl]
    unfold scanLineCore
    rw [show ((kwUCellAngleAlpha ++ ' ' :: v).isEmpty
        || ['#'].isPrefixOf (kwUCellAngleAlpha ++ ' ' :: v)) = false from rfl]
    rw [strContains_sep_split kwUCellAngleAlpha v ' ' kwWCellLengthA (by decide),
      strContains_sep_split kwUCellAngleAlpha v ' ' kwUCellLengthA (by decide)]
    rw [show strContains kwUCellAngleAlpha kwWCellLengthA = false from by decide,
      show strContains kwUCellAngleAlpha kwUCellLengthA = false from by decide,
      hns kwWCellLengthA (by simp [scanKws]), hns kwUCellLengthA (by simp [scanKws])]
    rw [strContains_sep_split kwUCellAngleAlpha v ' ' kwWCellLengthB (by decide),
      strContains_sep_split kwUCellAngleAlpha v ' ' kwUCellLengthB (by decide)]
    rw [show strContains kwUCellAngleAlpha kwWCellLengthB = false from by decide,
      show strContains kwUCellAngleAlpha kwUCellLengthB = false from by decide,
      hns kwWCellLengthB (by simp [scanKws]), hns kwUCellLengthB (by simp [scanKws])]
    rw [strContains_sep_split kwUCellAngleAlpha v ' ' kwWCellLengthC (by decide),
      strContains_sep_split kwUCellAngleAlpha v ' ' kwUCellLengthC (by decide)]
    rw [show strContains kwUCellAngleAlpha kwWCellLengthC = false from by decide,
      show strContains kwUCellAngleAlpha kwUCellLengthC = false from by decide,
      hns kwWCellLengthC (by simp [scanKws]), hns kwUCellLengthC (by simp [scanKws])]
    rw [strContains_sep_split kwUCellAngleAlpha v ' ' kwWCellAngleAlpha (by decide),
      strContains_sep_split kwUCellAngleAlpha v ' ' kwUCellAngleAlpha (by decide)]
    rw [show strContains kwUCellAngleAlpha kwWCellAngleAlpha = false from by decide,
      show strContains kwUCellAngleAlpha kwUCellAngleAlpha = true from by decide,
      hns kwWCellAngleAlpha (by simp [scanKws]), hns kwUCellAngleAlpha (by simp [scanKws])]
    simp only [Bool.false_or, Bool.or_false, Bool.or_true, Bool.true_or,
      Bool.false_eq_true, if_false, if_true]
    unfold lastTokenFloat
    rw [pysplit_append_ws kwUCellAngleAlpha v ' ' (by decide) (by decide),
      pysplit_sepFree v (fun c hc => numChar_not_ws (hv c hc)) hvne]
    simp
    rfl
  case false.angBeta =>
    rw [show keyText false CifKeyId.angBeta = kwUCellAngleBeta from rfl]
    unfold scanLineCore
    rw [show ((kwUCellAngleBeta ++ ' ' :: v).isEmpty
        || ['#'].isPrefixOf (kwUCellAngleBeta ++ ' ' :: v)) = false from rfl]
    rw [strContains_sep_split kwUCellAngleBeta v ' ' kwWCellLengthA (by decide),
      strContains_sep_split kwUCellAngleBeta v ' ' kwUCellLengthA (by decide)]
    rw [show strContains kwUCellAngleBeta kwWCellLengthA = false from by decide,
      show strContains kwUCellAngleBeta kwUCellLengthA = false from by decide,
      hns kwWCellLengthA (by simp [scanKws]), hns kwUCellLengthA (by simp [scanKws])]
    rw [strContains_sep_split kwUCellAngleBeta v ' ' kwWCellLengthB (by decide),
      strContains_sep_split kwUCellAngleBeta v ' ' kwUCellLengthB (by decide)]
    rw [show strContains kwUCellAngleBeta kwWCellLengthB = false from by decide,
      show strContains kwUCellAngleBeta kwUCellLengthB = false from by decide,
      hns kwWCellLengthB (by simp [scanKws]), hns kwUCellLengthB (by simp [scanKws])]
    rw [strContains_sep_split kwUCellAngleBeta v ' ' kwWCellLengthC (by decide),
      strContains_sep_split kwUCellAngleBeta v ' ' kwUCellLengthC (by decide)]
    rw [show strContains kwUCellAngleBeta kwWCellLengthC = false from by decide,
      show strContains kwUCellAngleBeta kwUCellLengthC = false from by decide,
      hns kwWCellLengthC (by simp [scanKws]), hns kwUCellLengthC (by simp [scanKws])]
    rw [strContains_sep_split kwUCellAngleBeta v ' ' kwWCellAngleAlpha (by decide),
      strContains_sep_split kwUCellAngleBeta v ' ' kwUCellAngleAlpha (by decide)]
    rw [show strContains kwUCellAngleBeta kwWCellAngleAlpha = false from by decide,
      show strContains kwUCellAngleBeta kwUCellAngleAlpha = false from by decide,
      hns kwWCellAngleAlpha (by simp [scanKws]), hns kwUCellAngleAlpha (by simp [scanKws])]
    rw [strContains_sep_split kwUCellAngleBeta v ' ' kwWCellAngleBeta (by decide),
      strContains_sep_split kwUCellAngleBeta v ' ' kwUCellAngleBeta (by decide)]
    rw [show strContains kwUCellAngleBeta kwWCellAngleBeta = false from by decide,
      show strContains kwUCellAngleBeta kwUCellAngleBeta = true from by decide,
      hns kwWCellAngleBeta (by simp [scanKws]), hns kwUCellAngleBeta (by simp [scanKws])]
    simp only [Bool.false_or, Bool.or_false, Bool.or_true, Bool.true_or,
      Bool.false_eq_true, if_false, if_true]
    unfold lastTokenFloat
    rw [pysplit_append_ws kwUCellAngleBeta v ' ' (by decide) (by decide),
      pysplit_sepFree v (fun c hc => numChar_not_ws (hv c hc)) hvne]
    simp
    rfl
  case false.angGamma =>
    rw [show keyText false CifKeyId.angGamma = kwUCellAngleGamma from rfl]
    unfold scanLineCore
    rw [show ((kwUCellAngleGamma ++ ' ' :: v).isEmpty
        || ['#'].isPrefixOf (kwUCellAngleGamma ++ ' ' :: v)) = false from rfl]
    rw [strContains_sep_split kwUCellAngleGamma v ' ' kwWCellLengthA (by decide),
      strContains_sep_split kwUCellAngleGamma v ' ' kwUCellLengthA (by decide)]
    rw [show strContains kwUCellAngleGamma kwWCellLengthA = false from by decide,
      show strContains kwUCellAngleGamma kwUCellLengthA = false from by decide,
      hns kwWCellLengthA (by simp [scanKws]), hns kwUCellLengthA (by simp [scanKws])]
    rw [strContains_sep_split kwUCellAngleGamma v ' ' kwWCellLengthB (by decide),
      strContains_sep_split kwUCellAngleGamma v ' ' kwUCellLengthB (by decide)]
    rw [show strContains kwUCellAngleGamma kwWCellLengthB = false from by decide,
      show strContains kwUCellAngleGamma kwUCellLengthB = false from by decide,
      hns kwWCellLengthB (by simp [scanKws]), hns kwUCellLengthB (by simp [scanKws])]
    rw [strContains_sep_split kwUCellAngleGamma v ' ' kwWCellLengthC (by decide),
      strContains_sep_split kwUCellAngleGamma v ' ' kwUCellLengthC (by decide)]
    rw [show strContains kwUCellAngleGamma kwWCellLengthC = false from by decide,
      show strContains kwUCellAngleGamma kwUCellLengthC = false from by decide,
      hns kwWCellLengthC (by simp [scanKws]), hns kwUCellLengthC (by simp [scanKws])]
    rw [strContains_sep_split kwUCellAngleGamma v ' ' kwWCellAngleAlpha (by decide),
      strContains_sep_split kwUCellAngleGamma v ' ' kwUCellAngleAlpha (by decide)]
    rw [show strContains kwUCellAngleGamma kwWCellAngleAlpha = false from by decide,
      show strContains kwUCellAngleGamma kwUCellAngleAlpha = false from by decide,
      hns kwWCellAngleAlpha (by simp [scanKws]), hns kwUCellAngleAlpha (by simp [scanKws])]
    rw [strContains_sep_split kwUCellAngleGamma v ' ' kwWCellAngleBeta (by decide),
      strContains_sep_split kwUCellAngleGamma v ' ' kwUCellAngleBeta (by decide)]
    rw [show strContains kwUCellAngleGamma kwWCellAngleBeta = false from by decide,
      show strContains kwUCellAngleGamma kwUCellAngleBeta = false from by decide,
      hns kwWCellAngleBeta (by simp [scanKws]), hns kwUCellAngleBeta (by simp [scanKws])]
    rw [strContains_sep_split kwUCellAngleGamma v ' ' kwWCellAngleGamma (by decide),
      strContains_sep_split kwUCellAngleGamma v ' ' kwUCellAngleGamma (by decide)]
    rw [show strContains kwUCellAngleGamma kwWCellAngleGamma = false from by decide,
      show strContains kwUCellAngleGamma kwUCellAngleGamma = true from by decide,
      hns kwWCellAngleGamma (by simp [scanKws]), hns kwUCellAngleGamma (by simp [scanKws])]
    simp only [Bool.false_or, Bool.or_false, Bool.or_true, Bool.true_or,
      Bool.false_eq_true, if_false, if_true]
    unfold lastTokenFloat
    rw [pysplit_append_ws kwUCellAngleGamma v ' ' (by decide) (by decide),
      pysplit_sepFree v (fun c hc => numChar_not_ws (hv c hc)) hvne]
    simp
    rfl
  case true.lenA =>
    rw [show keyText true CifKeyId.lenA = kwWCellLengthA from rfl]
    unfold scanLineCore
    rw [show ((kwWCellLengthA ++ ' ' :: v).isEmpty
        || ['#'].isPrefixOf (kwWCellLengthA ++ ' ' :: v)) = false from rfl]
    rw [strContains_sep_split kwWCellLengthA v ' ' kwWCellLengthA (by decide),
      strContains_sep_split kwWCellLengthA v ' ' kwUCellLengthA (by decide)]
    rw [show strContains kwWCellLengthA kwWCellLengthA = true from by decide,
      show strContains kwWCellLengthA kwUCellLengthA = false from by decide,
      hns kwWCellLengthA (by simp [scanKws]), hns kwUCellLengthA (by simp [scanKws])]
    simp only [Bool.false_or, Bool.or_false, Bool.or_true, Bool.true_or,
      Bool.false_eq_true, if_false, if_true]
    unfold lastTokenFloat
    rw [pysplit_append_ws kwWCellLengthA v ' ' (by decide) (by decide),
      pysplit_sepFree v (fun c hc => numChar_not_ws (hv c hc)) hvne]
    simp
    rfl
  case true.lenB =>
    rw [show keyText true CifKeyId.lenB = kwWCellLengthB from rfl]
    unfold scanLineCore
    rw [show ((kwWCellLengthB ++ ' ' :: v).isEmpty
        || ['#'].isPrefixOf (kwWCellLengthB ++ ' ' :: v)) = false from rfl]
    rw [strContains_sep_split kwWCellLengthB v ' ' kwWCellLengthA (by decide),
      strContains_sep_split kwWCellLengthB v ' ' kwUCellLengthA (by decide)]
    rw [show strContains kwWCellLengthB kwWCellLengthA = false from by decide,
      show strContains kwWCellLengthB kwUCellLengthA = false from by decide,
      hns kwWCellLengthA (by simp [scanKws]), hns kwUCellLengthA (by simp [scanKws])]
    rw [strContains_sep_split kwWCellLengthB v ' ' kwWCellLengthB (by decide),
      strContains_sep_split kwWCellLengthB v ' ' kwUCellLengthB (by decide)]
    rw [show strContains kwWCellLengthB kwWCellLengthB = true from by decide,
      show strContains kwWCellLengthB kwUCellLengthB = false from by decide,
      hns kwWCellLengthB (by simp [scanKws]), hns kwUCellLengthB (by simp [scanKws])]
    simp only [Bool.false_or, Bool.or_false, Bool.or_true, Bool.true_or,
      Bool.false_eq_true, if_false, if_true]
    unfold lastTokenFloat
    rw [pysplit_append_ws kwWCellLengthB v ' ' (by decide) (by decide),
      pysplit_sepFree v (fun c hc => numChar_not_ws (hv c hc)) hvne]
    simp
    rfl
  case true.lenC =>
    rw [show keyText true CifKeyId.lenC = kwWCellLengthC from rfl]
    unfold scanLineCore
    rw [show ((kwWCellLengthC ++ ' ' :: v).isEmpty
        || ['#'].isPrefixOf (kwWCellLengthC ++ ' ' :: v)) = false from rfl]
    rw [strContains_sep_split kwWCellLengthC v ' ' kwWCellLengthA (by decide),
      strContains_sep_split kwWCellLengthC v ' ' kwUCellLengthA (by decide)]
    rw [show strContains kwWCellLengthC kwWCellLengthA = false from by decide,
      show strContains kwWCellLengthC kwUCellLengthA = false from by decide,
      hns kwWCellLengthA (by simp [scanKws]), hns kwUCellLengthA (by simp [scanKws])]
    rw [strContains_sep_split kwWCellLengthC v ' ' kwWCellLengthB (by decide),
      strContains_sep_split kwWCellLengthC v ' ' kwUCellLengthB (by decide)]
    rw [show strContains kwWCellLengthC kwWCellLengthB = false from by decide,
      show strContains kwWCellLengthC kwUCellLengthB = false from by decide,
      hns kwWCellLengthB (by simp [scanKws]), hns kwUCellLengthB (by simp [scanKws])]
    rw [strContains_sep_split kwWCellLengthC v ' ' kwWCellLengthC (by decide),
      strContains_sep_split kwWCellLengthC v ' ' kwUCellLengthC (by decide)]
    rw [show strContains kwWCellLengthC kwWCellLengthC = true from by decide,
      show strContains kwWCellLengthC kwUCellLengthC = false from by decide,
      hns kwWCellLengthC (by simp [scanKws]), hns kwUCellLengthC (by simp [scanKws])]
    simp only [Bool.false_or, Bool.or_false, Bool.or_true, Bool.true_or,
      Bool.false_eq_true, if_false, if_true]
    unfold lastTokenFloat
    rw [pysplit_append_ws kwWCellLengthC v ' ' (by decide) (by decide),
      pysplit_sepFree v (fun c hc => numChar_not_ws (hv c hc)) hvne]
    simp
    rfl
  case true.angAlpha =>
    rw [show keyText true CifKeyId.angAlpha = kwWCellAngleAlpha from rfl]
    unfold scanLineCore
    rw [show ((kwWCellAngleAlpha ++ ' ' :: v).isEmpty
        || ['#'].isPrefixOf (kwWCellAngleAlpha ++ ' ' :: v)) = false from rfl]
    rw [strContains_sep_split kwWCellAngleAlpha v ' ' kwWCellLengthA (by decide),
      strContains_sep_split kwWCellAngleAlpha v ' ' kwUCellLengthA (by decide)]
    rw [show strContains kwWCellAngleAlpha kwWCellLengthA = false from by decide,
      show strContains kwWCellAngleAlpha kwUCellLengthA = false from by decide,
      hns kwWCellLengthA (by simp [scanKws]), hns kwUCellLengthA (by simp [scanKws])]
    rw [strContains_sep_split kwWCellAngleAlpha v ' ' kwWCellLengthB (by decide),
      strContains_sep_split kwWCellAngleAlpha v ' ' kwUCellLengthB (by decide)]
    rw [show strContains kwWCellAngleAlpha kwWCellLengthB = false from by decide,
      show strContains kwWCellAngleAlpha kwUCellLengthB = false from by decide,
      hns kwWCellLengthB (by simp [scanKws]), hns kwUCellLengthB (by simp [scanKws])]
    rw [strContains_sep_split kwWCellAngleAlpha v ' ' kwWCellLengthC (by decide),
      strContains_sep_split kwWCellAngleAlpha v ' ' kwUCellLengthC (by decide)]
    rw [show strContains kwWCellAngleAlpha kwWCellLengthC = false from by decide,
      show strContains kwWCellAngleAlpha kwUCellLengthC = false from by decide,
      hns kwWCellLengthC (by simp [scanKws]), hns kwUCellLengthC (by simp [scanKws])]
    rw [strContains_sep_split kwWCellAngleAlpha v ' ' kwWCellAngleAlpha (by decide),
      strContains_sep_split kwWCellAngleAlpha v ' ' kwUCellAngleAlpha (by decide)]
    rw [show strContains kwWCellAngleAlpha kwWCellAngleAlpha = true from by decide,
      show strContains kwWCellAngleAlpha kwUCellAngleAlpha = false from by decide,
      hns kwWCellAngleAlpha (by simp [scanKws]), hns kwUCellAngleAlpha (by simp [scanKws])]
    simp only [Bool.false_or, Bool.or_false, Bool.or_true, Bool.true_or,
      Bool.false_eq_true, if_false, if_true]
    unfold lastTokenFloat
    rw [pysplit_append_ws kwWCellAngleAlpha v ' ' (by decide) (by decide),
      pysplit_sepFree v (fun c hc => numChar_not_ws (hv c hc)) hvne]
    simp
    rfl
  case true.angBeta =>
    rw [show keyText true CifKeyId.angBeta = kwWCellAngleBeta from rfl]
    unfold scanLineCore
    rw [show ((kwWCellAngleBeta ++ ' ' :: v).isEmpty
        || ['#'].isPrefixOf (kwWCellAngleBeta ++ ' ' :: v)) = false from rfl]
    rw [strContains_sep_split kwWCellAngleBeta v ' ' kwWCellLengthA (by decide),
      strContains_sep_split kwWCellAngleBeta v ' ' kwUCellLengthA (by decide)]
    rw [show strContains kwWCellAngleBeta kwWCellLengthA = false from by decide,
      show strContains kwWCellAngleBeta kwUCellLengthA = false from by decide,
      hns kwWCellLengthA (by simp [scanKws]), hns kwUCellLengthA (by simp [scanKws])]
    rw [strContains_sep_split kwWCellAngleBeta v ' ' kwWCellLengthB (by decide),
      strContains_sep_split kwWCellAngleBeta v ' ' kwUCellLengthB (by decide)]
    rw [show strContains kwWCellAngleBeta kwWCellLengthB = false from by decide,
      show strContains kwWCellAngleBeta kwUCellLengthB = false from by decide,
      hns kwWCellLengthB (by simp [scanKws]), hns kwUCellLengthB (by simp [scanKws])]
    rw [strContains_sep_split kwWCellAngleBeta v ' ' kwWCellLengthC (by decide),
      strContains_sep_split kwWCellAngleBeta v ' ' kwUCellLengthC (by decide)]
    rw [show strContains kwWCellAngleBeta kwWCellLengthC = false from by decide,
      show strContains kwWCellAngleBeta kwUCellLengthC = false from by decide,
      hns kwWCellLengthC (by simp [scanKws]), hns kwUCellLengthC (by simp [scanKws])]
    rw [strContains_sep_split kwWCellAngleBeta v ' ' kwWCellAngleAlpha (by decide),
      strContains_sep_split kwWCellAngleBeta v ' ' kwUCellAngleAlpha (by decide)]
    rw [show strContains kwWCellAngleBeta kwWCellAngleAlpha = false from by decide,
      show strContains kwWCellAngleBeta kwUCellAngleAlpha = false from by decide,
      hns kwWCellAngleAlpha (by simp [scanKws]), hns kwUCellAngleAlpha (by simp [scanKws])]
    rw [strContains_sep_split kwWCellAngleBeta v ' ' kwWCellAngleBeta (by decide),
      strContains_sep_split kwWCellAngleBeta v ' ' kwUCellAngleBeta (by decide)]
    rw [show strContains kwWCellAngleBeta kwWCellAngleBeta = true from by decide,
      show strContains kwWCellAngleBeta kwUCellAngleBeta = false from by decide,
      hns kwWCellAngleBeta (by simp [scanKws]), hns kwUCellAngleBeta (by simp [scanKws])]
    simp only [Bool.false_or, Bool.or_false, Bool.or_true, Bool.true_or,
      Bool.false_eq_true, if_false, if_true]
    unfold lastTokenFloat
    rw [pysplit_append_ws kwWCellAngleBeta v ' ' (by decide) (by decide),
      pysplit_sepFree v (fun c hc => numChar_not_ws (hv c hc)) hvne]
    simp
    rfl
  case true.angGamma =>
    rw [show keyText true CifKeyId.angGamma = kwWCellAngleGamma from rfl]
    unfold scanLineCore
    rw [show ((kwWCellAngleGamma ++ ' ' :: v).isEmpty
        || ['#'].isPrefixOf (kwWCellAngleGamma ++ ' ' :: v)) = false from rfl]
    rw [strContains_sep_split kwWCellAngleGamma v ' ' kwWCellLengthA (by decide),
      strContains_sep_split kwWCellAngleGamma v ' ' kwUCellLengthA (by decide)]
    rw [show strContains kwWCellAngleGamma kwWCellLengthA = false from by decide,
      show strContains kwWCellAngleGamma kwUCellLengthA = false from by decide,
      hns kwWCellLengthA (by simp [scanKws]), hns kwUCellLengthA (by simp [scanKws])]
    rw [strContains_sep_split kwWCellAngleGamma v ' ' kwWCellLengthB (by decide),
      strContains_sep_split kwWCellAngleGamma v ' ' kwUCellLengthB (by decide)]
    rw [show strContains kwWCellAngleGamma kwWCellLengthB = false from by decide,
      show strContains kwWCellAngleGamma kwUCellLengthB = false from by decide,
      hns kwWCellLengthB (by simp [scanKws]), hns kwUCellLengthB (by simp [scanKws])]
    rw [strContains_sep_split kwWCellAngleGamma v ' ' kwWCellLengthC (by decide),
      strContains_sep_split kwWCellAngleGamma v ' ' kwUCellLengthC (by decide)]
    rw [show strContains kwWCellAngleGamma kwWCellLengthC = false from by decide,
      show strContains kwWCellAngleGamma kwUCellLengthC = false from by decide,
      hns kwWCellLengthC (by simp [scanKws]), hns kwUCellLengthC (by simp [scanKws])]
    rw [strContains_sep_split kwWCellAngleGamma v ' ' kwWCellAngleAlpha (by decide),
      strContains_sep_split kwWCellAngleGamma v ' ' kwUCellAngleAlpha (by decide)]
    rw [show strContains kwWCellAngleGamma kwWCellAngleAlpha = false from by decide,
      show strContains kwWCellAngleGamma kwUCellAngleAlpha = false from by decide,
      hns kwWCellAngleAlpha (by simp [scanKws]), hns kwUCellAngleAlpha (by simp [scanKws])]
    rw [strContains_sep_split kwWCellAngleGamma v ' ' kwWCellAngleBeta (by decide),
      strContains_sep_split kwWCellAngleGamma v ' ' kwUCellAngleBeta (by decide)]
    rw [show strContains kwWCellAngleGamma kwWCellAngleBeta = false from by decide,
      show strContains kwWCellAngleGamma kwUCellAngleBeta = false from by decide,
      hns kwWCellAngleBeta (by simp [scanKws]), hns kwUCellAngleBeta (by simp [scanKws])]
    rw [strContains_sep_split kwWCellAngleGamma v ' ' kwWCellAngleGamma (by decide),
      strContains_sep_split kwWCellAngleGamma v ' ' kwUCellAngleGamma (by decide)]
    rw [show strContains kwWCellAngleGamma kwWCellAngleGamma = true from by decide,
      show strContains kwWCellAngleGamma kwUCellAngleGamma = false from by decide,
      hns kwWCellAngleGamma (by simp [scanKws]), hns kwUCellAngleGamma (by simp [scanKws])]
    simp only [Bool.false_or, Bool.or_false, Bool.or_true, Bool.true_or,
      Bool.false_eq_true, if_false, if_true]
    unfold lastTokenFloat
    rw [pysplit_append_ws kwWCellAngleGamma v ' ' (by decide) (by decide),
      pysplit_sepFree v (fun c hc => numChar_not_ws (hv c hc)) hvne]
    simp
    rfl

theorem scanLineCore_hdr (st : ScanState) (style : Bool) (k : ColKey) :
    scanLineCore st (hdrText style k) =
      some { st with
             reading_atoms := true,
             column_indices := dictSet st.column_indices k st.column_indices.length } := by
  cases style <;> cases k <;> rfl

theorem scanLineCore_loop (st : ScanState) :
    scanLineCore st kwLoop =
      some { st with reading_atoms := false, column_indices := [] } := rfl

end Converter

namespace Converter

theorem scanLineCore_noKw_skip (st : ScanState) (l : Str)
    (hkw : ∀ kw ∈ scanKws, strContains l kw = false)
    (hna : ['*'].isPrefixOf l = true ∨ ['_'].isPrefixOf l = true ∨ st.reading_atoms = false) :
    scanLineCore st l = some st := by
  have h1 := hkw kwWCellLengthA (by simp [scanKws])
  have h2 := hkw kwUCellLengthA (by simp [scanKws])
  have h3 := hkw kwWCellLengthB (by simp [scanKws])
  have h4 := hkw kwUCellLengthB (by simp [scanKws])
  have h5 := hkw kwWCellLengthC (by simp [scanKws])
  have h6 := hkw kwUCellLengthC (by simp [scanKws])
  have h7 := hkw kwWCellAngleAlpha (by simp [scanKws])
  have h8 := hkw kwUCellAngleAlpha (by simp [scanKws])
  have h9 := hkw kwWCellAngleBeta (by simp [scanKws])
  have h10 := hkw kwUCellAngleBeta (by simp [scanKws])
  have h11 := hkw kwWCellAngleGamma (by simp [scanKws])
  have h12 := hkw kwUCellAngleGamma (by simp [scanKws])
  have h13 := hkw kwLoop (by simp [scanKws])
  have h14 := hkw kwWAtomSite (by simp [scanKws])
  have h15 := hkw kwUAtomSite (by simp [scanKws])
  unfold scanLineCore
  by_cases h0 : (l.isEmpty || ['#'].isPrefixOf l) = true
  · rw [if_pos h0]
  · rw [if_neg h0]
    simp only [h1, h2, h3, h4, h5, h6, h7, h8, h9, h10, h11, h12, h13, h14, h15, Bool.or_self, Bool.false_eq_true, if_false]
    rcases hna with h | h | h
    · simp [h]
    · simp [h]
    · simp [h]

theorem scanLineCore_data (st : ScanState) (l : Str)
    (hkw : ∀ kw ∈ scanKws, strContains l kw = false)
    (hne : l.isEmpty = false) (hhash : ['#'].isPrefixOf l = false)
    (hstar : ['*'].isPrefixOf l = false) (hund : ['_'].isPrefixOf l = false)
    (hread : st.reading_atoms = true) :
    scanLineCore st l =
      match pymax (st.column_indices.map (fun p => p.2)) with
      | none => none
      | some m =>
        if (pysplit l).length ≥ m + 1 then
          some { st with atom_lines := st.atom_lines ++ [pysplit l] }
        else some st := by
  have h1 := hkw kwWCellLengthA (by simp [scanKws])
  have h2 := hkw kwUCellLengthA (by simp [scanKws])
  have h3 := hkw kwWCellLengthB (by simp [scanKws])
  have h4 := hkw kwUCellLengthB (by simp [scanKws])
  have h5 := hkw kwWCellLengthC (by simp [scanKws])
  have h6 := hkw kwUCellLengthC (by simp [scanKws])
  have h7 := hkw kwWCellAngleAlpha (by simp [scanKws])
  have h8 := hkw kwUCellAngleAlpha (by simp [scanKws])
  have h9 := hkw kwWCellAngleBeta (by simp [scanKws])
  have h10 := hkw kwUCellAngleBeta (by simp [scanKws])
  have h11 := hkw kwWCellAngleGamma (by simp [scanKws])
  have h12 := hkw kwUCellAngleGamma (by simp [scanKws])
  have h13 := hkw kwLoop (by simp [scanKws])
  have h14 := hkw kwWAtomSite (by simp [scanKws])
  have h15 := hkw kwUAtomSite (by simp [scanKws])
  unfold scanLineCore
  simp only [h1, h2, h3, h4, h5, h6, h7, h8, h9, h10, h11, h12, h13, h14, h15, hne, hhash, hstar, hund, hread, Bool.or_self, Bool.or_false,
    Bool.false_or, Bool.false_eq_true, if_false, Bool.not_false, Bool.and_true,
    Bool.true_and, Bool.and_self, if_true]

end Converter

namespace Converter

/-- Claim C3 (amended): once `reading_atoms` is set and the line is not
blank, not a comment, contains none of the recognized key substrings and
does not start with `*` or `_`, the line is appended as an atom record iff
its token count is at least `max(column_indices.values()) + 1` — which is 4
only when the largest recorded column index is 3 — and if column headers
were seen but none was recognized (`column_indices` empty), such a line
raises an error (`max()` on an empty sequence) instead of being processed. -/
theorem c3_amended_acceptance (st : ScanState) (line0 : Str)
    (hread : st.reading_atoms = true)
    (hkw : ∀ kw ∈ scanKws, strContains (pystrip line0) kw = false)
    (hne : (pystrip line0).isEmpty = false)
    (hhash : ['#'].isPrefixOf (pystrip line0) = false)
    (hstar : ['*'].isPrefixOf (pystrip line0) = false)
    (hund : ['_'].isPrefixOf (pystrip line0) = false) :
    (st.column_indices = [] → scanLine st line0 = none) ∧
    (∀ m, pymax (st.column_indices.map (fun p => p.2)) = some m →
      ((pysplit (pystrip line0)).length ≥ m + 1 →
        scanLine st line0 =
          some { st with atom_lines := st.atom_lines ++ [pysplit (pystrip line0)] }) ∧
      ((pysplit (pystrip line0)).length < m + 1 → scanLine st line0 = some st)) := by
  have hd := scanLineCore_data st (pystrip line0) hkw hne hhash hstar hund hread
  unfold scanLine
  rw [hd]
  constructor
  · intro hci
    rw [hci]
    rfl
  · intro m hm
    rw [hm]
    constructor
    · intro hlen
      simp [hlen]
    · intro hlen
      simp [Nat.not_le.mpr hlen]

unseal Nat.gcd Rat.add Rat.mul Rat.inv Rat.sub in
/-- Claim C3 (counterexample): with the five recognized headers seen, a
4-token data line is silently skipped (the converted output contains no atom
record), although the claim says any line with at least 4 tokens is accepted;
and with an unrecognized atom-site header seen, a data line makes the whole
conversion fail, although the claim says no such line causes a failure. -/
theorem c3_counterexample :
    cif_to_poscar "T\nloop_\n_atom_site_type_symbol\n_atom_site_label\n_atom_site_fract_x\n_atom_site_fract_y\n_atom_site_fract_z\nSi Si1 0.1 0.2\n".data =
      some "T\n1.0\n1.000000 0.0 0.0\n0.0 1.000000 0.0\n0.0 0.0 1.000000\n\n\nDirect\n".data ∧
    (pysplit "Si Si1 0.1 0.2".data).length = 4 ∧
    cif_to_poscar "T\nloop_\n_atom_site_occupancy\nSi 0.1 0.2 0.3\n".data = none := by
  exact ⟨by decide, by decide, by decide⟩

/-- Claim C3 (witness for the amended theorem): with all five headers
recorded the threshold is 5, so a 4-token line is skipped, leaving the state
unchanged. -/
theorem c3_amended_witness :
    (⟨1, 1, 1, 90, 90, 90, [], true,
      [(ColKey.type, 0), (ColKey.label, 1), (ColKey.x, 2), (ColKey.y, 3),
       (ColKey.z, 4)]⟩ : ScanState).reading_atoms = true ∧
    (∀ kw ∈ scanKws, strContains (pystrip "Si Si1 0.1 0.2".data) kw = false) ∧
    scanLine
      (⟨1, 1, 1, 90, 90, 90, [], true,
        [(ColKey.type, 0), (ColKey.label, 1), (ColKey.x, 2), (ColKey.y, 3),
         (ColKey.z, 4)]⟩ : ScanState) "Si Si1 0.1 0.2".data =
      some (⟨1, 1, 1, 90, 90, 90, [], true,
        [(ColKey.type, 0), (ColKey.label, 1), (ColKey.x, 2), (ColKey.y, 3),
         (ColKey.z, 4)]⟩ : ScanState) := by
  refine ⟨by decide, by decide, ?_⟩
  exact ((c3_amended_acceptance _ _ (by decide) (by decide) (by decide) (by decide)
    (by decide) (by decide)).2 4 (by decide)).2 (by decide)

end Converter

namespace Converter

/-- Claim C7 (amended): when the atom-site columns contain no `type_symbol`
entry but do contain a `label` entry, the element symbol of a record is its
label token with every non-alphabetic character removed (the source uses
`filter(str.isalpha, label)`) — digits are removed, but so is every other
non-alphabetic character, such as the charge sign in `Fe2+`. -/
theorem c7_amended_label_filter (ci : List (ColKey × Nat)) (tokens : List Str)
    (i : Nat) (l : Str)
    (hnotype : dictMem ci ColKey.type = false)
    (hlab : dictGet ci ColKey.label = some i)
    (htok : tokens.get? i = some l) :
    atomSym ci tokens = some (l.filter (fun c => c.isAlpha)) := by
  unfold atomSym
  rw [hnotype]
  simp only [Bool.false_eq_true, if_false, hlab, Option.bind_some, Option.map_eq_some']
  exact ⟨l, htok, rfl⟩

unseal Nat.gcd Rat.add Rat.mul Rat.inv Rat.sub in
/-- Claim C7 (counterexample): for the label `Fe2+` the conversion emits the
species symbol `Fe` (only alphabetic characters kept), while removing exactly
the digit characters — as the claim states — would give `Fe+`. -/
theorem c7_counterexample :
    cif_to_poscar "T\nloop_\n_atom_site_label\n_atom_site_fract_x\n_atom_site_fract_y\n_atom_site_fract_z\nFe2+ 0.25 0.5 0.75\n".data =
      some "T\n1.0\n1.000000 0.0 0.0\n0.0 1.000000 0.0\n0.0 0.0 1.000000\nFe\n1\nDirect\n0.250000 0.500000 0.750000\n".data ∧
    stripDigitsSpec "Fe2+".data = "Fe+".data ∧
    ("Fe".data : Str) ≠ "Fe+".data :=
  ⟨by decide, by decide, by decide⟩

/-- Claim C7 (witness for the amended theorem): with a label column at
index 0 and no type column, the record `Fe2+ 0.25 0.5 0.75` yields the
element `Fe`. -/
theorem c7_amended_witness :
    dictMem [(ColKey.label, 0), (ColKey.x, 1), (ColKey.y, 2), (ColKey.z, 3)]
      ColKey.type = false ∧
    atomSym [(ColKey.label, 0), (ColKey.x, 1), (ColKey.y, 2), (ColKey.z, 3)]
      ["Fe2+".data, "0.25".data, "0.5".data, "0.75".data] = some "Fe".data := by
  refine ⟨by decide, ?_⟩
  exact (c7_amended_label_filter _ _ 0 "Fe2+".data (by decide) (by decide)
    (by decide)).trans (by decide)

end Converter

namespace Converter

theorem processAtom_none_acc (ci : List (ColKey × Nat))
    (acc acc2 : List (Str × Nat) × List (ℚ × ℚ × ℚ)) (tokens : List Str)
    (h : processAtom ci acc tokens = none) : processAtom ci acc2 tokens = none := by
  cases h1 : atomSym ci tokens with
  | none => simp [processAtom, h1]
  | some s =>
    cases h2 : getCoord ci tokens ColKey.x with
    | none => simp [processAtom, h1, h2]
    | some xv =>
      cases h3 : getCoord ci tokens ColKey.y with
      | none => simp [processAtom, h1, h2, h3]
      | some yv =>
        cases h4 : getCoord ci tokens ColKey.z with
        | none => simp [processAtom, h1, h2, h3, h4]
        | some zv => simp [processAtom, h1, h2, h3, h4] at h

theorem processAtoms_fold_none (ci : List (ColKey × Nat)) (rows : List (List Str))
    (acc : List (Str × Nat) × List (ℚ × ℚ × ℚ))
    (h : ∃ r ∈ rows, processAtom ci ([], []) r = none) :
    rows.foldlM (processAtom ci) acc = none := by
  induction rows generalizing acc with
  | nil =>
    rcases h with ⟨r, hr, _⟩
    exact absurd hr (List.not_mem_nil r)
  | cons a rows ih =>
    rcases h with ⟨r, hr, hfail⟩
    rw [List.foldlM_cons]
    rcases List.mem_cons.mp hr with hra | hr2
    · rw [processAtom_none_acc ci ([], []) acc a (hra ▸ hfail)]
      rfl
    · cases hpa : processAtom ci acc a with
      | none => rfl
      | some acc2 => simpa [hpa] using ih acc2 ⟨r, hr2, hfail⟩

/-- Claim C1 (amended): in `cif_to_poscar`, an accepted atom record whose
element resolution or coordinate extraction fails (e.g. a non-numeric
`fract_x` token) makes the whole conversion fail — no output is produced —
rather than being dropped with the conversion continuing. -/
theorem c1_amended_record_failure_aborts (input : Str) (st : ScanState)
    (hscan : (pysplitlines input).foldlM scanLine initScan = some st)
    (hbad : ∃ r ∈ st.atom_lines, processAtom st.column_indices ([], []) r = none) :
    cif_to_poscar input = none := by
  simp only [cif_to_poscar]
  cases hh : (pysplitlines input).head? with
  | none => rfl
  | some l0 =>
    simp only [hh, hscan, Option.some_bind]
    unfold processAtoms
    rw [processAtoms_fold_none _ _ _ hbad]
    rfl

unseal Nat.gcd Rat.add Rat.mul Rat.inv Rat.sub in
/-- Claim C1 (counterexample): a document whose first atom record has the
non-numeric `fract_x` token `abc` converts to nothing at all (the whole
conversion fails), even though the remaining document converts fine on its
own — the claim instead demands an output covering the remaining record. -/
theorem c1_counterexample :
    cif_to_poscar "T\nloop_\n_atom_site_label\n_atom_site_fract_x\n_atom_site_fract_y\n_atom_site_fract_z\nSi1 abc 0.5 0.5\nSi2 0.1 0.1 0.1\n".data = none ∧
    cif_to_poscar "T\nloop_\n_atom_site_label\n_atom_site_fract_x\n_atom_site_fract_y\n_atom_site_fract_z\nSi2 0.1 0.1 0.1\n".data =
      some "T\n1.0\n1.000000 0.0 0.0\n0.0 1.000000 0.0\n0.0 0.0 1.000000\nSi\n1\nDirect\n0.100000 0.100000 0.100000\n".data :=
  ⟨by decide, by decide⟩

/-- Claim C1 (witness for the amended theorem): the scan of the document
with the bad record succeeds, the bad record fails processing, and therefore
the whole conversion returns nothing. -/
theorem c1_amended_witness :
    (pysplitlines "T\nloop_\n_atom_site_label\n_atom_site_fract_x\n_atom_site_fract_y\n_atom_site_fract_z\nSi1 abc 0.5 0.5\nSi2 0.1 0.1 0.1\n".data).foldlM
        scanLine initScan =
      some (⟨1, 1, 1, 90, 90, 90,
        [["Si1".data, "abc".data, "0.5".data, "0.5".data],
         ["Si2".data, "0.1".data, "0.1".data, "0.1".data]], true,
        [(ColKey.label, 0), (ColKey.x, 1), (ColKey.y, 2), (ColKey.z, 3)]⟩ : ScanState) ∧
    cif_to_poscar "T\nloop_\n_atom_site_label\n_atom_site_fract_x\n_atom_site_fract_y\n_atom_site_fract_z\nSi1 abc 0.5 0.5\nSi2 0.1 0.1 0.1\n".data = none := by
  refine ⟨by decide, ?_⟩
  exact c1_amended_record_failure_aborts _
    (⟨1, 1, 1, 90, 90, 90,
      [["Si1".data, "abc".data, "0.5".data, "0.5".data],
       ["Si2".data, "0.1".data, "0.1".data, "0.1".data]], true,
      [(ColKey.label, 0), (ColKey.x, 1), (ColKey.y, 2), (ColKey.z, 3)]⟩ : ScanState)
    (by decide)
    ⟨["Si1".data, "abc".data, "0.5".data, "0.5".data], by decide, by decide⟩

end Converter

namespace Converter

theorem nl_pred_false {l : Str} (h : '\n' ∉ l) :
    ∀ a ∈ l, (decide (a = '\n')) = false := by
  intro a ha
  simp only [decide_eq_false_iff_not]
  intro e
  exact h (e ▸ ha)

theorem pysplitlines_nl_free (s l : Str) (hl : l ∈ pysplitlines s) : '\n' ∉ l := by
  intro hmem
  unfold pysplitlines at hl
  split at hl
  · exact absurd hl (List.not_mem_nil l)
  · have := sepFree_of_mem_splitSep _ _ _ hl '\n' hmem
    simp at this

theorem linesOf_terminateLines_prefix (l0 l1 l2 l3 l4 : Str) (rest : List Str)
    (h0 : '\n' ∉ l0) (h1 : '\n' ∉ l1) (h2 : '\n' ∉ l2) (h3 : '\n' ∉ l3)
    (h4 : '\n' ∉ l4) :
    ∃ tail, linesOf (terminateLines (l0 :: l1 :: l2 :: l3 :: l4 :: rest)) =
      l0 :: l1 :: l2 :: l3 :: l4 :: tail := by
  unfold linesOf
  rw [terminateLines_cons,
    splitSep_append_sep _ _ _ _ (nl_pred_false h0) (by simp),
    terminateLines_cons,
    splitSep_append_sep _ _ _ _ (nl_pred_false h1) (by simp),
    terminateLines_cons,
    splitSep_append_sep _ _ _ _ (nl_pred_false h2) (by simp),
    terminateLines_cons,
    splitSep_append_sep _ _ _ _ (nl_pred_false h3) (by simp),
    terminateLines_cons,
    splitSep_append_sep _ _ _ _ (nl_pred_false h4) (by simp)]
  exact ⟨_, rfl⟩

theorem fmt6_no_nl (q : ℚ) : '\n' ∉ fmt6 q :=
  mem_false_of_class (fmtFixed_numChar 6 q) (by decide)

/-- Claim C4: for every input `cif_to_poscar` converts successfully, the
three emitted lattice-vector lines are exactly the orthogonal cell
`diag(a, b, c)` built from the parsed (or defaulted) cell lengths of the
scan state; and the parsed angle values have no effect on the output — two
inputs whose scans agree on everything except the angle fields (and whose
title lines agree) produce identical outputs. -/
theorem c4_lattice_diag_angle_independent :
    (∀ input out, cif_to_poscar input = some out →
      ∃ st, (pysplitlines input).foldlM scanLine initScan = some st ∧
        (linesOf out).get? 2 = some (fmt6 st.a ++ " 0.0 0.0".data) ∧
        (linesOf out).get? 3 = some ("0.0 ".data ++ fmt6 st.b ++ " 0.0".data) ∧
        (linesOf out).get? 4 = some ("0.0 0.0 ".data ++ fmt6 st.c)) ∧
    (∀ i1 i2 l1 l2 st1 st2,
      (pysplitlines i1).head? = some l1 → (pysplitlines i2).head? = some l2 →
      l1 = l2 →
      (pysplitlines i1).foldlM scanLine initScan = some st1 →
      (pysplitlines i2).foldlM scanLine initScan = some st2 →
      st1.a = st2.a → st1.b = st2.b → st1.c = st2.c →
      st1.atom_lines = st2.atom_lines → st1.column_indices = st2.column_indices →
      cif_to_poscar i1 = cif_to_poscar i2) := by
  constructor
  · intro input out h
    simp only [cif_to_poscar] at h
    cases hh : (pysplitlines input).head? with
    | none => rw [hh] at h; simp at h
    | some l0 =>
      rw [hh] at h
      simp only [Option.some_bind] at h
      cases hscan : (pysplitlines input).foldlM scanLine initScan with
      | none => rw [hscan] at h; simp at h
      | some st =>
        rw [hscan] at h
        simp only [Option.some_bind] at h
        cases hpr : processAtoms st.column_indices st.atom_lines with
        | none => rw [hpr] at h; simp at h
        | some pr =>
          rw [hpr] at h
          simp only [Option.map_some'] at h
          refine ⟨st, rfl, ?_⟩
          have hl0 : '\n' ∉ l0 :=
            pysplitlines_nl_free input l0 (List.mem_of_mem_head? hh)
          have htitle : '\n' ∉ (if "data_".data.isPrefixOf l0 = true then l0.drop 5 else l0) := by
            split
            · exact fun hmem => hl0 (List.drop_subset 5 l0 hmem)
            · exact hl0
          have hlat2 : '\n' ∉ fmt6 st.a ++ " 0.0 0.0".data := by
            intro hmem
            rcases List.mem_append.mp hmem with hm | hm
            · exact fmt6_no_nl st.a hm
            · simp at hm
          have hlat3 : '\n' ∉ "0.0 ".data ++ fmt6 st.b ++ " 0.0".data := by
            intro hmem
            rcases List.mem_append.mp hmem with hm | hm
            · rcases List.mem_append.mp hm with hm2 | hm2
              · simp at hm2
              · exact fmt6_no_nl st.b hm2
            · simp at hm
          have hlat4 : '\n' ∉ "0.0 0.0 ".data ++ fmt6 st.c := by
            intro hmem
            rcases List.mem_append.mp hmem with hm | hm
            · simp at hm
            · exact fmt6_no_nl st.c hm
          rcases linesOf_terminateLines_prefix _ _ _ _ _
            (joinSpace (pr.1.map (fun p => p.1)) ::
              joinSpace (pr.1.map (fun p => natToStr p.2)) :: "Direct".data ::
              pr.2.map (fun t => fmt6 t.1 ++ ' ' :: fmt6 t.2.1 ++ ' ' :: fmt6 t.2.2))
            htitle (show '\n' ∉ "1.0".data by decide) hlat2 hlat3 hlat4 with ⟨tail, htail⟩
          have hout := Option.some.inj h
          rw [← hout]
          unfold renderPoscarLines
          rw [show ([(if "data_".data.isPrefixOf l0 then l0.drop 5 else l0),
              "1.0".data,
              fmt6 st.a ++ " 0.0 0.0".data,
              "0.0 ".data ++ fmt6 st.b ++ " 0.0".data,
              "0.0 0.0 ".data ++ fmt6 st.c,
              joinSpace (pr.1.map (fun p => p.1)),
              joinSpace (pr.1.map (fun p => natToStr p.2)),
              "Direct".data] ++
            pr.2.map (fun t => fmt6 t.1 ++ ' ' :: fmt6 t.2.1 ++ ' ' :: fmt6 t.2.2)) =
            ((if "data_".data.isPrefixOf l0 then l0.drop 5 else l0) ::
              "1.0".data ::
              (fmt6 st.a ++ " 0.0 0.0".data) ::
              ("0.0 ".data ++ fmt6 st.b ++ " 0.0".data) ::
              ("0.0 0.0 ".data ++ fmt6 st.c) ::
              (joinSpace (pr.1.map (fun p => p.1)) ::
                joinSpace (pr.1.map (fun p => natToStr p.2)) :: "Direct".data ::
                pr.2.map (fun t => fmt6 t.1 ++ ' ' :: fmt6 t.2.1 ++ ' ' :: fmt6 t.2.2)))
            from rfl, htail]
          exact ⟨rfl, rfl, rfl⟩
  · intro i1 i2 l1 l2 st1 st2 hh1 hh2 hl hscan1 hscan2 ha hb hc hal hci
    simp only [cif_to_poscar, hh1, hh2, hscan1, hscan2, Option.some_bind]
    unfold processAtoms
    rw [hl, ha, hb, hc, hal, hci]

end Converter

namespace Converter

unseal Nat.gcd Rat.add Rat.mul Rat.inv Rat.sub in
/-- Claim C4 (witness): a concrete conversion whose lattice lines are the
diagonal cell of the parsed lengths, and two concrete inputs differing only
in the angle value that produce identical outputs. -/
theorem c4_witness :
    cif_to_poscar "T\n_cell_length_a 2.5\n_cell_length_b 3.5\n_cell_length_c 4.5\n_cell_angle_alpha 90.0\n".data =
      some "T\n1.0\n2.500000 0.0 0.0\n0.0 3.500000 0.0\n0.0 0.0 4.500000\n\n\nDirect\n".data ∧
    (∃ st, (pysplitlines "T\n_cell_length_a 2.5\n_cell_length_b 3.5\n_cell_length_c 4.5\n_cell_angle_alpha 90.0\n".data).foldlM
        scanLine initScan = some st ∧
      (linesOf "T\n1.0\n2.500000 0.0 0.0\n0.0 3.500000 0.0\n0.0 0.0 4.500000\n\n\nDirect\n".data).get? 2 =
        some (fmt6 st.a ++ " 0.0 0.0".data) ∧
      (linesOf "T\n1.0\n2.500000 0.0 0.0\n0.0 3.500000 0.0\n0.0 0.0 4.500000\n\n\nDirect\n".data).get? 3 =
        some ("0.0 ".data ++ fmt6 st.b ++ " 0.0".data) ∧
      (linesOf "T\n1.0\n2.500000 0.0 0.0\n0.0 3.500000 0.0\n0.0 0.0 4.500000\n\n\nDirect\n".data).get? 4 =
        some ("0.0 0.0 ".data ++ fmt6 st.c)) ∧
    cif_to_poscar "T\n_cell_length_a 2.5\n_cell_length_b 3.5\n_cell_length_c 4.5\n_cell_angle_alpha 90.0\n".data =
      cif_to_poscar "T\n_cell_length_a 2.5\n_cell_length_b 3.5\n_cell_length_c 4.5\n_cell_angle_alpha 45.0\n".data := by
  refine ⟨by decide, ?_, ?_⟩
  · exact c4_lattice_diag_angle_independent.1 _ _ (by decide)
  · exact c4_lattice_diag_angle_independent.2 _ _ "T".data "T".data
      (⟨5/2, 7/2, 9/2, 90, 90, 90, [], false, []⟩ : ScanState)
      (⟨5/2, 7/2, 9/2, 45, 90, 90, [], false, []⟩ : ScanState)
      (by decide) (by decide) rfl (by decide) (by decide)
      (by decide) (by decide) (by decide) rfl rfl

end Converter

namespace Converter

theorem foldlM_scan_skip (ls : List Str) (st : ScanState)
    (h : ∀ l ∈ ls, scanLine st l = some st) : ls.foldlM scanLine st = some st := by
  induction ls with
  | nil => rfl
  | cons a ls ih =>
    rw [List.foldlM_cons, h a (List.mem_cons_self _ _)]
    exact ih (fun l hl => h l (List.mem_cons_of_mem _ hl))

unseal Nat.gcd Rat.add Rat.mul Rat.inv Rat.sub in
/-- Claim C10: an input whose first line is a title that is not a
cell-parameter, loop or atom-site line (and does not carry a `data_` prefix),
followed only by blank or comment lines, converts successfully to the title,
the scale line `1.0`, the default orthogonal cell `diag(1.0, 1.0, 1.0)`, an
empty species line, an empty counts line, the `Direct` marker, and no
coordinate lines. -/
theorem c10_title_only_defaults (input : Str) (t : Str) (rest : List Str)
    (hlines : pysplitlines input = t :: rest)
    (_ht0 : t ≠ [])
    (hdata : "data_".data.isPrefixOf t = false)
    (hkw : ∀ kw ∈ scanKws, strContains (pystrip t) kw = false)
    (hrest : ∀ l ∈ rest, (pystrip l).isEmpty = true ∨ ['#'].isPrefixOf (pystrip l) = true) :
    cif_to_poscar input =
      some (t ++ "\n1.0\n1.000000 0.0 0.0\n0.0 1.000000 0.0\n0.0 0.0 1.000000\n\n\nDirect\n".data) := by
  have h1 : scanLine initScan t = some initScan :=
    scanLineCore_noKw_skip initScan (pystrip t) hkw (Or.inr (Or.inr rfl))
  have hrest' : ∀ l ∈ rest, scanLine initScan l = some initScan := by
    intro l hl
    unfold scanLine scanLineCore
    rcases hrest l hl with h | h <;> simp [h]
  have hfold : (t :: rest).foldlM scanLine initScan = some initScan := by
    rw [List.foldlM_cons, h1]
    exact foldlM_scan_skip rest initScan hrest'
  simp only [cif_to_poscar, hlines, List.head?_cons, Option.some_bind, hfold, hdata,
    Bool.false_eq_true, if_false]
  rw [show processAtoms initScan.column_indices initScan.atom_lines = some ([], []) from rfl]
  simp only [Option.map_some']
  show some (terminateLines (t ::
    ["1.0".data, fmt6 1 ++ " 0.0 0.0".data, "0.0 ".data ++ fmt6 1 ++ " 0.0".data,
     "0.0 0.0 ".data ++ fmt6 1, [], [], "Direct".data])) =
    some (t ++ "\n1.0\n1.000000 0.0 0.0\n0.0 1.000000 0.0\n0.0 0.0 1.000000\n\n\nDirect\n".data)
  rw [terminateLines_cons,
    show ('\n' :: terminateLines
        ["1.0".data, fmt6 1 ++ " 0.0 0.0".data, "0.0 ".data ++ fmt6 1 ++ " 0.0".data,
         "0.0 0.0 ".data ++ fmt6 1, [], [], "Direct".data]) =
      "\n1.0\n1.000000 0.0 0.0\n0.0 1.000000 0.0\n0.0 0.0 1.000000\n\n\nDirect\n".data
      from by decide]

end Converter

namespace Converter

unseal Nat.gcd Rat.add Rat.mul Rat.inv Rat.sub in
/-- Claim C10 (witness): the document `MyTitle` followed by a blank line and
a comment line converts to the default output. -/
theorem c10_witness :
    pysplitlines "MyTitle\n\n# note".data = "MyTitle".data :: [[], "# note".data] ∧
    cif_to_poscar "MyTitle\n\n# note".data =
      some ("MyTitle".data ++ "\n1.0\n1.000000 0.0 0.0\n0.0 1.000000 0.0\n0.0 0.0 1.000000\n\n\nDirect\n".data) := by
  refine ⟨by decide, ?_⟩
  exact c10_title_only_defaults _ "MyTitle".data [[], "# note".data]
    (by decide) (by decide) (by decide) (by decide) (by decide)

end Converter

namespace Converter

theorem vector_norm_of_sumSq (x : ℚ) (v : List ℚ) (h : sumSq v = x * x) (hx : 0 ≤ x) :
    vector_norm v = x := by
  unfold vector_norm
  rw [h, Rat.sqrt_eq, abs_of_nonneg hx]

theorem angle_between_orth (v w : List ℚ) (hv : vector_norm v ≠ 0)
    (hw : vector_norm w ≠ 0) (hd : dot_product v w = 0) :
    angle_between v w = some 90 := by
  unfold angle_between
  rw [if_neg (mul_ne_zero hv hw), hd, zero_div,
    show clamp1 0 = 0 from by unfold clamp1; norm_num,
    show acosDeg 0 = 90 from by unfold acosDeg; norm_num]

/-- Claim C5: `poscar_to_cif` scales each lattice row element-wise by the
scale factor of line 1, and emits the angles computed as
`alpha = angle_between(b, c)`, `beta = angle_between(a, c)` and
`gamma = angle_between(a, b)` on the scaled vectors (alpha is opposite
vector a), together with the lengths `vector_norm` of the scaled vectors,
into the fixed CIF header, followed by the labelled atom lines. -/
theorem c5_scaling_and_angle_pairing (input : Str) (d : PoscarDoc)
    (alpha beta gamma : ℚ) (rows : List Str)
    (hp : parsePoscar (pysplitlines input) = some d)
    (ha : angle_between (d.row2.map (fun x => d.scale * x))
        (d.row3.map (fun x => d.scale * x)) = some alpha)
    (hb : angle_between (d.row1.map (fun x => d.scale * x))
        (d.row3.map (fun x => d.scale * x)) = some beta)
    (hg : angle_between (d.row1.map (fun x => d.scale * x))
        (d.row2.map (fun x => d.scale * x)) = some gamma)
    (he : emitAtoms (d.types.zip d.counts) d.coords = some rows) :
    poscar_to_cif input =
      some (joinNL (cifHeaderLines d.title
        (vector_norm (d.row1.map (fun x => d.scale * x)))
        (vector_norm (d.row2.map (fun x => d.scale * x)))
        (vector_norm (d.row3.map (fun x => d.scale * x)))
        alpha beta gamma ++ rows)) := by
  simp only [poscar_to_cif, hp, Option.bind_eq_bind, Option.some_bind, ha, hb, hg, he]

end Converter

namespace Converter

unseal Nat.gcd Rat.add Rat.mul Rat.inv Rat.sub in
/-- Claim C5 (witness): a concrete cubic POSCAR whose CIF output carries the
norms of the scaled rows and the three 90-degree angles with the
crystallographic pairing. -/
theorem c5_witness :
    parsePoscar (pysplitlines "Si\n1.0\n5.0 0 0\n0 5.0 0\n0 0 5.0\nSi\n1\nDirect\n0.5 0.5 0.5".data) =
      some (⟨"Si".data, 1, [5, 0, 0], [0, 5, 0], [0, 0, 5], ["Si".data], [1],
        [[1/2, 1/2, 1/2]]⟩ : PoscarDoc) ∧
    poscar_to_cif "Si\n1.0\n5.0 0 0\n0 5.0 0\n0 0 5.0\nSi\n1\nDirect\n0.5 0.5 0.5".data =
      some (joinNL (cifHeaderLines "Si".data
        (vector_norm (([5, 0, 0] : List ℚ).map (fun x => (1 : ℚ) * x)))
        (vector_norm (([0, 5, 0] : List ℚ).map (fun x => (1 : ℚ) * x)))
        (vector_norm (([0, 0, 5] : List ℚ).map (fun x => (1 : ℚ) * x)))
        90 90 90 ++ ["  Si1 0.500000 0.500000 0.500000".data])) := by
  have hva : vector_norm (([5, 0, 0] : List ℚ).map (fun x => (1 : ℚ) * x)) = 5 :=
    vector_norm_of_sumSq 5 _ (by norm_num [sumSq]) (by norm_num)
  have hvb : vector_norm (([0, 5, 0] : List ℚ).map (fun x => (1 : ℚ) * x)) = 5 :=
    vector_norm_of_sumSq 5 _ (by norm_num [sumSq]) (by norm_num)
  have hvc : vector_norm (([0, 0, 5] : List ℚ).map (fun x => (1 : ℚ) * x)) = 5 :=
    vector_norm_of_sumSq 5 _ (by norm_num [sumSq]) (by norm_num)
  refine ⟨by decide, ?_⟩
  exact c5_scaling_and_angle_pairing _
    (⟨"Si".data, 1, [5, 0, 0], [0, 5, 0], [0, 0, 5], ["Si".data], [1],
      [[1/2, 1/2, 1/2]]⟩ : PoscarDoc)
    90 90 90 ["  Si1 0.500000 0.500000 0.500000".data]
    (by decide)
    (angle_between_orth _ _ (by rw [hvb]; norm_num) (by rw [hvc]; norm_num)
      (by norm_num [dot_product]))
    (angle_between_orth _ _ (by rw [hva]; norm_num) (by rw [hvc]; norm_num)
      (by norm_num [dot_product]))
    (angle_between_orth _ _ (by rw [hva]; norm_num) (by rw [hvb]; norm_num)
      (by norm_num [dot_product]))
    (by decide)

end Converter

namespace Converter

theorem mem_pysplit_goodTok (s t : Str) (ht : t ∈ pysplit s) : goodTok t = true := by
  unfold pysplit at ht
  rcases List.mem_filter.mp ht with ⟨hmem, hne⟩
  unfold goodTok
  rw [Bool.and_eq_true, List.all_eq_true]
  refine ⟨hne, ?_⟩
  intro c hc
  simpa using sepFree_of_mem_splitSep _ _ _ hmem c hc

theorem scanLine_atom_lines (st : ScanState) (l : Str) (st' : ScanState)
    (h : scanLine st l = some st') :
    st'.atom_lines = st.atom_lines ∨
      st'.atom_lines = st.atom_lines ++ [pysplit (pystrip l)] := by
  unfold scanLine scanLineCore at h
  generalize pystrip l = q at h ⊢
  by_cases h1 : (q.isEmpty || ['#'].isPrefixOf q) = true
  · rw [if_pos h1, Option.some_inj] at h
    rw [← h]
    exact Or.inl rfl
  rw [if_neg h1] at h
  by_cases h2 : (strContains q kwWCellLengthA || strContains q kwUCellLengthA) = true
  · rw [if_pos h2] at h
    rcases Option.map_eq_some'.mp h with ⟨v, _, he⟩
    rw [← he]
    exact Or.inl rfl
  rw [if_neg h2] at h
  by_cases h3 : (strContains q kwWCellLengthB || strContains q kwUCellLengthB) = true
  · rw [if_pos h3] at h
    rcases Option.map_eq_some'.mp h with ⟨v, _, he⟩
    rw [← he]
    exact Or.inl rfl
  rw [if_neg h3] at h
  by_cases h4 : (strContains q kwWCellLengthC || strContains q kwUCellLengthC) = true
  · rw [if_pos h4] at h
    rcases Option.map_eq_some'.mp h with ⟨v, _, he⟩
    rw [← he]
    exact Or.inl rfl
  rw [if_neg h4] at h
  by_cases h5 : (strContains q kwWCellAngleAlpha || strContains q kwUCellAngleAlpha) = true
  · rw [if_pos h5] at h
    rcases Option.map_eq_some'.mp h with ⟨v, _, he⟩
    rw [← he]
    exact Or.inl rfl
  rw [if_neg h5] at h
  by_cases h6 : (strContains q kwWCellAngleBeta || strContains q kwUCellAngleBeta) = true
  · rw [if_pos h6] at h
    rcases Option.map_eq_some'.mp h with ⟨v, _, he⟩
    rw [← he]
    exact Or.inl rfl
  rw [if_neg h6] at h
  by_cases h7 : (strContains q kwWCellAngleGamma || strContains q kwUCellAngleGamma) = true
  · rw [if_pos h7] at h
    rcases Option.map_eq_some'.mp h with ⟨v, _, he⟩
    rw [← he]
    exact Or.inl rfl
  rw [if_neg h7] at h
  by_cases h8 : strContains q kwLoop = true
  · rw [if_pos h8, Option.some_inj] at h
    rw [← h]
    exact Or.inl rfl
  rw [if_neg h8] at h
  by_cases h9 : (strContains q kwWAtomSite || strContains q kwUAtomSite) = true
  · rw [if_pos h9, Option.some_inj] at h
    rw [← h]
    exact Or.inl rfl
  rw [if_neg h9] at h
  by_cases h10 : (st.reading_atoms && !(['*'].isPrefixOf q) && !(['_'].isPrefixOf q)) = true
  · rw [if_pos h10] at h
    split at h
    · exact Option.noConfusion h
    · split at h
      · rw [Option.some_inj] at h
        rw [← h]
        exact Or.inr rfl
      · rw [Option.some_inj] at h
        rw [← h]
        exact Or.inl rfl
  rw [if_neg h10, Option.some_inj] at h
  rw [← h]
  exact Or.inl rfl

theorem scan_fold_atom_tokens (lines : List Str) (st0 st : ScanState)
    (h : lines.foldlM scanLine st0 = some st)
    (hinv : ∀ r ∈ st0.atom_lines, ∀ t ∈ r, goodTok t = true) :
    ∀ r ∈ st.atom_lines, ∀ t ∈ r, goodTok t = true := by
  induction lines generalizing st0 with
  | nil =>
    cases h
    exact hinv
  | cons a lines ih =>
    rw [List.foldlM_cons] at h
    cases h1 : scanLine st0 a with
    | none => rw [h1] at h; exact absurd h (by simp)
    | some st1 =>
      rw [h1] at h
      refine ih st1 h ?_
      intro r hr t htk
      rcases scanLine_atom_lines st0 a st1 h1 with he | he
      · exact hinv r (he ▸ hr) t htk
      · rw [he] at hr
        rcases List.mem_append.mp hr with hm | hm
        · exact hinv r hm t htk
        · rw [List.mem_singleton] at hm
          exact mem_pysplit_goodTok _ t (hm ▸ htk)

theorem atomSym_wsFree (ci : List (ColKey × Nat)) (tokens : List Str) (sym : Str)
    (h : atomSym ci tokens = some sym)
    (htok : ∀ t ∈ tokens, goodTok t = true) : ∀ c ∈ sym, isWs c = false := by
  unfold atomSym at h
  split at h
  · rcases Option.bind_eq_some.mp h with ⟨i, _, hi⟩
    intro c hc
    exact goodTok_wsFree (htok sym (List.get?_mem hi)) c hc
  · rcases Option.map_eq_some'.mp h with ⟨l, hl, he⟩
    intro c hc
    rw [← he] at hc
    exact isAlpha_not_ws (List.of_mem_filter hc)

theorem speciesIncr_cons_ne (p : Str × Nat) (sp : List (Str × Nat)) (k : Str)
    (hp : p.1 ≠ k) : speciesIncr (p :: sp) k = p :: speciesIncr sp k := by
  unfold speciesIncr
  by_cases hany : sp.any (fun q => q.1 = k)
  · rw [if_pos (by simp [List.any_cons, hany]), if_pos hany, List.map_cons,
      if_neg (by simpa using hp)]
  · rw [if_neg (by simp [List.any_cons, hany, hp]), if_neg hany, List.cons_append]

theorem speciesIncr_total (sp : List (Str × Nat)) (k : Str)
    (hnd : (sp.map (fun p => p.1)).Nodup) :
    speciesTotal (speciesIncr sp k) = speciesTotal sp + 1 := by
  induction sp with
  | nil => rfl
  | cons p sp ih =>
    rcases List.nodup_cons.mp hnd with ⟨hp, hnd2⟩
    by_cases hpk : p.1 = k
    · have hnok : ∀ q ∈ sp, ¬(q.1 = k) := by
        intro q hq he
        refine hp ?_
        show p.1 ∈ List.map (fun p => p.1) sp
        rw [hpk, ← he]
        exact List.mem_map_of_mem (fun r => r.1) hq
      unfold speciesIncr
      rw [if_pos (by simp [List.any_cons, hpk]), List.map_cons, if_pos hpk]
      have hmap : sp.map (fun q => if q.1 = k then (q.1, q.2 + 1) else q) = sp := by
        have heq : sp.map (fun q => if q.1 = k then (q.1, q.2 + 1) else q) = sp.map (fun q => q) :=
          List.map_congr_left (fun q hq => by rw [if_neg (hnok q hq)])
        rw [heq, List.map_id']
      rw [hmap]
      unfold speciesTotal
      simp [Nat.add_comm, Nat.add_assoc, Nat.add_left_comm]
    · rw [speciesIncr_cons_ne p sp k hpk]
      unfold speciesTotal at *
      simp only [List.map_cons, List.sum_cons, ih hnd2]
      omega

theorem speciesIncr_keys (sp : List (Str × Nat)) (k : Str) (p : Str × Nat)
    (hp : p ∈ speciesIncr sp k) : p.1 = k ∨ p.1 ∈ sp.map (fun q => q.1) := by
  unfold speciesIncr at hp
  split at hp
  · rcases List.mem_map.mp hp with ⟨q, hq, he⟩
    by_cases hqk : q.1 = k
    · rw [if_pos hqk] at he
      rw [← he]
      exact Or.inl hqk
    · rw [if_neg hqk] at he
      exact Or.inr (he ▸ List.mem_map_of_mem (fun r => r.1) hq)
  · rcases List.mem_append.mp hp with hm | hm
    · exact Or.inr (List.mem_map_of_mem (fun r => r.1) hm)
    · rw [List.mem_singleton] at hm
      rw [hm]
      exact Or.inl rfl

theorem speciesIncr_keys_nodup (sp : List (Str × Nat)) (k : Str)
    (hnd : (sp.map (fun p => p.1)).Nodup) :
    ((speciesIncr sp k).map (fun p => p.1)).Nodup := by
  unfold speciesIncr
  split
  · have : (sp.map (fun q => if q.1 = k then (q.1, q.2 + 1) else q)).map (fun p => p.1) =
        sp.map (fun p => p.1) := by
      rw [List.map_map]
      refine List.map_congr_left ?_
      intro q _
      by_cases hqk : q.1 = k
      · simp [hqk]
      · simp [hqk]
    rw [this]
    exact hnd
  · rename_i hany
    rw [List.map_append]
    simp only [List.map_cons, List.map_nil]
    rw [List.nodup_append]
    refine ⟨hnd, List.nodup_singleton k, ?_⟩
    intro x hx
    simp only [List.mem_singleton]
    intro he
    rcases List.mem_map.mp hx with ⟨q, hq, hqe⟩
    rw [List.any_eq_true] at hany
    exact hany ⟨q, hq, by simp [hqe, he]⟩

end Converter

namespace Converter

theorem not_ws_ne_nl {c : Char} (h : isWs c = false) : c ≠ '\n' := by
  intro he
  rw [he] at h
  exact absurd h (by decide)

theorem goodTok_natToStr (n : Nat) : goodTok (natToStr n) = true := by
  unfold goodTok
  rw [Bool.and_eq_true, List.all_eq_true]
  constructor
  · cases hn : natToStr n with
    | nil => exact absurd hn (natToStr_ne_nil n)
    | cons a l => rfl
  · intro c hc
    simp [numChar_not_ws (isDigit_numChar (natToStr_isDigit n c hc))]

theorem joinSpace_no_nl (toks : List Str) (h : ∀ t ∈ toks, '\n' ∉ t) :
    '\n' ∉ joinSpace toks := by
  induction toks with
  | nil => simp [joinSpace]
  | cons t ts ih =>
    cases ts with
    | nil => exact h t (List.mem_cons_self _ _)
    | cons u us =>
      rw [joinSpace_cons_cons]
      intro hmem
      rcases List.mem_append.mp hmem with hm | hm
      · exact h t (List.mem_cons_self _ _) hm
      · rcases List.mem_cons.mp hm with hm2 | hm2
        · exact absurd hm2 (by decide)
        · exact ih (fun a ha => h a (List.mem_cons_of_mem _ ha)) hm2

theorem dropLast_append_singleton (l : List Str) (a : Str) : (l ++ [a]).dropLast = l := by
  simp

theorem processAtom_some (ci : List (ColKey × Nat))
    (acc : List (Str × Nat) × List (ℚ × ℚ × ℚ)) (tokens : List Str)
    (pr : List (Str × Nat) × List (ℚ × ℚ × ℚ))
    (h : processAtom ci acc tokens = some pr) :
    ∃ sym, atomSym ci tokens = some sym ∧
      ∃ xyz, pr = (speciesIncr acc.1 sym, acc.2 ++ [xyz]) := by
  unfold processAtom at h
  rcases Option.bind_eq_some.mp h with ⟨sym, hsym, h⟩
  rcases Option.bind_eq_some.mp h with ⟨xv, _, h⟩
  rcases Option.bind_eq_some.mp h with ⟨yv, _, h⟩
  rcases Option.bind_eq_some.mp h with ⟨zv, _, h⟩
  rw [Option.some_inj] at h
  exact ⟨sym, hsym, (xv, yv, zv), h.symm⟩

theorem processAtoms_inv (ci : List (ColKey × Nat)) (rows : List (List Str))
    (htok : ∀ r ∈ rows, ∀ t ∈ r, goodTok t = true)
    (acc pr : List (Str × Nat) × List (ℚ × ℚ × ℚ))
    (h : rows.foldlM (processAtom ci) acc = some pr)
    (hnd : (acc.1.map (fun p => p.1)).Nodup)
    (hws : ∀ p ∈ acc.1, ∀ c ∈ p.1, isWs c = false) :
    (pr.1.map (fun p => p.1)).Nodup ∧
    (∀ p ∈ pr.1, ∀ c ∈ p.1, isWs c = false) ∧
    speciesTotal pr.1 + acc.2.length = speciesTotal acc.1 + pr.2.length := by
  induction rows generalizing acc with
  | nil =>
    cases h
    exact ⟨hnd, hws, rfl⟩
  | cons r rows ih =>
    rw [List.foldlM_cons] at h
    cases h1 : processAtom ci acc r with
    | none => rw [h1] at h; exact absurd h (by simp)
    | some acc1 =>
      rw [h1] at h
      obtain ⟨sym, hsym, xyz, hacc1⟩ := processAtom_some ci acc r acc1 h1
      have hsymws : ∀ c ∈ sym, isWs c = false :=
        atomSym_wsFree ci r sym hsym (htok r (List.mem_cons_self _ _))
      have hnd1 : (acc1.1.map (fun p => p.1)).Nodup := by
        rw [hacc1]
        exact speciesIncr_keys_nodup acc.1 sym hnd
      have hws1 : ∀ p ∈ acc1.1, ∀ c ∈ p.1, isWs c = false := by
        intro p hp c hc
        rw [hacc1] at hp
        rcases speciesIncr_keys acc.1 sym p hp with hk | hk
        · exact hsymws c (hk ▸ hc)
        · rcases List.mem_map.mp hk with ⟨q, hq, hqe⟩
          exact hws q hq c (hqe ▸ hc)
      obtain ⟨i1, i2, i3⟩ :=
        ih (fun a ha => htok a (List.mem_cons_of_mem _ ha)) acc1 h hnd1 hws1
      refine ⟨i1, i2, ?_⟩
      have htot : speciesTotal acc1.1 = speciesTotal acc.1 + 1 := by
        rw [hacc1]
        exact speciesIncr_total acc.1 sym hnd
      have hlen : acc1.2.length = acc.2.length + 1 := by
        rw [hacc1]
        simp
      rw [htot, hlen] at i3
      omega

end Converter

namespace Converter

/-- C9 — corrected.  For every successful conversion, the number of
coordinate lines following the `Direct` marker always equals the sum of the
integers on the counts line; and the species-symbols line has the same
number of tokens as the counts line PROVIDED every derived species symbol
is nonempty.  (A record whose label has no alphabetic character yields the
empty symbol, which contributes no token to the symbols line, breaking the
first half of the original claim.) -/
theorem c9_output_alignment (input : Str) (l0 : Str) (st : ScanState)
    (pr : List (Str × Nat) × List (ℚ × ℚ × ℚ))
    (hh : (pysplitlines input).head? = some l0)
    (hscan : (pysplitlines input).foldlM scanLine initScan = some st)
    (hpr : processAtoms st.column_indices st.atom_lines = some pr) :
    ∃ out spLine ctLine,
      cif_to_poscar input = some out ∧
      (linesOf out).get? 5 = some spLine ∧
      (linesOf out).get? 6 = some ctLine ∧
      ((linesOf out).drop 8).dropLast.length = ((pysplit ctLine).map natOfDigits).sum ∧
      ((∀ p ∈ pr.1, p.1 ≠ []) → (pysplit spLine).length = (pysplit ctLine).length) := by
  have htok : ∀ r ∈ st.atom_lines, ∀ t ∈ r, goodTok t = true :=
    scan_fold_atom_tokens (pysplitlines input) initScan st hscan
      (fun r hr => absurd hr (List.not_mem_nil r))
  obtain ⟨hnd, hws, htot0⟩ := processAtoms_inv st.column_indices st.atom_lines htok
    ([], []) pr hpr (by simp) (fun p hp => absurd hp (List.not_mem_nil p))
  have htot : speciesTotal pr.1 = pr.2.length := by simpa [speciesTotal] using htot0
  have hout : cif_to_poscar input =
      some (terminateLines (renderPoscarLines
        (if "data_".data.isPrefixOf l0 then l0.drop 5 else l0)
        st.a st.b st.c pr.1 pr.2)) := by
    simp only [cif_to_poscar, hh, Option.some_bind, hscan, hpr, Option.map_some']
  have hl0 : '\n' ∉ l0 := pysplitlines_nl_free input l0 (List.mem_of_mem_head? hh)
  have hlines : linesOf (terminateLines (renderPoscarLines
      (if "data_".data.isPrefixOf l0 then l0.drop 5 else l0)
      st.a st.b st.c pr.1 pr.2)) =
      renderPoscarLines (if "data_".data.isPrefixOf l0 then l0.drop 5 else l0)
        st.a st.b st.c pr.1 pr.2 ++ [[]] := by
    refine linesOf_terminateLines _ ?_
    intro l hl c hc hce
    subst hce
    unfold renderPoscarLines at hl
    rcases List.mem_append.mp hl with hm | hm
    · rcases List.mem_cons.mp hm with rfl | hm
      · revert hc
        split
        · exact fun hmem => hl0 (List.drop_subset 5 l0 hmem)
        · exact hl0
      rcases List.mem_cons.mp hm with rfl | hm
      · exact absurd hc (by decide)
      rcases List.mem_cons.mp hm with rfl | hm
      · rcases List.mem_append.mp hc with h2 | h2
        · exact fmt6_no_nl st.a h2
        · exact absurd h2 (by decide)
      rcases List.mem_cons.mp hm with rfl | hm
      · rcases List.mem_append.mp hc with h2 | h2
        · rcases List.mem_append.mp h2 with h3 | h3
          · exact absurd h3 (by decide)
          · exact fmt6_no_nl st.b h3
        · exact absurd h2 (by decide)
      rcases List.mem_cons.mp hm with rfl | hm
      · rcases List.mem_append.mp hc with h2 | h2
        · exact absurd h2 (by decide)
        · exact fmt6_no_nl st.c h2
      rcases List.mem_cons.mp hm with rfl | hm
      · refine joinSpace_no_nl _ ?_ hc
        intro t ht
        rcases List.mem_map.mp ht with ⟨p, hp, hpe⟩
        intro hmem
        have := hws p hp '\n' (hpe ▸ hmem)
        exact absurd this (by decide)
      rcases List.mem_cons.mp hm with rfl | hm
      · refine joinSpace_no_nl _ ?_ hc
        intro t ht
        rcases List.mem_map.mp ht with ⟨p, _, hpe⟩
        exact hpe ▸ mem_false_of_class (natToStr_isDigit p.2) (by decide)
      rcases List.mem_cons.mp hm with rfl | hm
      · exact absurd hc (by decide)
      exact absurd hm (List.not_mem_nil l)
    · rcases List.mem_map.mp hm with ⟨t, _, hte⟩
      rw [← hte] at hc
      rcases List.mem_append.mp hc with h2 | h2
      · rcases List.mem_append.mp h2 with h3 | h3
        · exact fmt6_no_nl t.1 h3
        rcases List.mem_cons.mp h3 with h4 | h4
        · exact absurd h4 (by decide)
        exact fmt6_no_nl t.2.1 h4
      · rcases List.mem_cons.mp h2 with h3 | h3
        · exact absurd h3 (by decide)
        exact fmt6_no_nl t.2.2 h3
  have hct : pysplit (joinSpace (pr.1.map (fun p => natToStr p.2))) =
      pr.1.map (fun p => natToStr p.2) := by
    refine pysplit_joinSpace _ ?_
    intro t ht
    rcases List.mem_map.mp ht with ⟨p, _, hpe⟩
    exact hpe ▸ goodTok_natToStr p.2
  refine ⟨_, joinSpace (pr.1.map (fun p => p.1)),
    joinSpace (pr.1.map (fun p => natToStr p.2)), hout, ?_, ?_, ?_, ?_⟩
  · rw [hlines]
    rfl
  · rw [hlines]
    rfl
  · rw [hlines]
    show ((pr.2.map (fun t : ℚ × ℚ × ℚ => fmt6 t.1 ++ ' ' :: fmt6 t.2.1 ++ ' ' :: fmt6 t.2.2)
        ++ [[]]).dropLast).length = _
    rw [dropLast_append_singleton, List.length_map, hct, List.map_map]
    have hcomp : pr.1.map (natOfDigits ∘ fun p => natToStr p.2) =
        pr.1.map (fun p => p.2) :=
      List.map_congr_left (fun p _ => natOfDigits_natToStr p.2)
    rw [hcomp]
    exact htot.symm
  · intro hne
    have hsp : pysplit (joinSpace (pr.1.map (fun p => p.1))) =
        pr.1.map (fun p => p.1) := by
      refine pysplit_joinSpace _ ?_
      intro t ht
      rcases List.mem_map.mp ht with ⟨p, hp, hpe⟩
      unfold goodTok
      rw [Bool.and_eq_true, List.all_eq_true]
      constructor
      · rw [← hpe]
        cases hc : p.1 with
        | nil => exact absurd hc (hne p hp)
        | cons a l => rfl
      · intro c hcm
        simp [hws p hp c (hpe ▸ hcm)]
    rw [hsp, hct, List.length_map, List.length_map]

end Converter

namespace Converter

unseal Nat.gcd Rat.add Rat.mul Rat.inv Rat.sub in
/-- Counterexample to the literal C9: a record whose label token `123`
contains no alphabetic character produces the empty species symbol, so the
species-symbols line (line 5, empty) has 0 tokens while the counts line
(line 6, `1`) has 1 token. -/
theorem c9_counterexample :
    cif_to_poscar "T\nloop_\n_atom_site_label\n_atom_site_fract_x\n_atom_site_fract_y\n_atom_site_fract_z\n123 0.1 0.2 0.3\n".data =
      some "T\n1.0\n1.000000 0.0 0.0\n0.0 1.000000 0.0\n0.0 0.0 1.000000\n\n1\nDirect\n0.100000 0.200000 0.300000\n".data ∧
    (linesOf "T\n1.0\n1.000000 0.0 0.0\n0.0 1.000000 0.0\n0.0 0.0 1.000000\n\n1\nDirect\n0.100000 0.200000 0.300000\n".data).get? 5 = some [] ∧
    (linesOf "T\n1.0\n1.000000 0.0 0.0\n0.0 1.000000 0.0\n0.0 0.0 1.000000\n\n1\nDirect\n0.100000 0.200000 0.300000\n".data).get? 6 = some "1".data ∧
    (pysplit ([] : Str)).length ≠ (pysplit "1".data).length := by
  refine ⟨?_, by decide, by decide, by decide⟩
  decide

end Converter

namespace Converter

unseal Nat.gcd Rat.add Rat.mul Rat.inv Rat.sub in
theorem c9_witness :
    ∃ out spLine ctLine,
      cif_to_poscar "T\nloop_\n_atom_site_type_symbol\n_atom_site_fract_x\n_atom_site_fract_y\n_atom_site_fract_z\nSi 0.5 0.5 0.5\n".data = some out ∧
      (linesOf out).get? 5 = some spLine ∧
      (linesOf out).get? 6 = some ctLine ∧
      ((linesOf out).drop 8).dropLast.length = ((pysplit ctLine).map natOfDigits).sum ∧
      ((∀ p ∈ ([("Si".data, 1)] : List (Str × Nat)), p.1 ≠ []) →
        (pysplit spLine).length = (pysplit ctLine).length) :=
  c9_output_alignment _ ("T".data)
    (⟨1, 1, 1, 90, 90, 90, [["Si".data, "0.5".data, "0.5".data, "0.5".data]], true,
      [(ColKey.type, 0), (ColKey.x, 1), (ColKey.y, 2), (ColKey.z, 3)]⟩ : ScanState)
    (([("Si".data, 1)], [((1 : ℚ)/2, (1 : ℚ)/2, (1 : ℚ)/2)]))
    (by decide) (by decide) (by decide)

end Converter

namespace Converter

theorem head?_append_ne_nil (xs ys : Str) (h : xs ≠ []) : (xs ++ ys).head? = xs.head? := by
  cases xs with
  | nil => exact absurd rfl h
  | cons a l => rfl

theorem joinSpace_last (r : List Str) (hr : r ≠ []) (h : ∀ t ∈ r, goodTok t = true) :
    joinSpace r ≠ [] ∧ ∀ c, (joinSpace r).getLast? = some c → isWs c = false := by
  induction r with
  | nil => exact absurd rfl hr
  | cons t ts ih =>
    cases ts with
    | nil =>
      refine ⟨goodTok_ne_nil (h t (List.mem_cons_self _ _)), ?_⟩
      intro c hc
      exact goodTok_wsFree (h t (List.mem_cons_self _ _)) c
        (List.mem_of_mem_getLast? (Option.mem_def.mpr hc))
    | cons u us =>
      obtain ⟨hne2, hlast2⟩ := ih (by simp) (fun a ha => h a (List.mem_cons_of_mem _ ha))
      rw [joinSpace_cons_cons]
      refine ⟨by simp, ?_⟩
      intro c hc
      rw [List.getLast?_append_of_ne_nil t (by simp),
        show (' ' :: joinSpace (u :: us)) = [' '] ++ joinSpace (u :: us) from rfl,
        List.getLast?_append_of_ne_nil [' '] hne2] at hc
      exact hlast2 c hc

theorem joinNL_last (L : List Str) (hne : L ≠ [])
    (h : ∀ l ∈ L, l ≠ [] ∧ ∀ c, l.getLast? = some c → isWs c = false) :
    joinNL L ≠ [] ∧ ∀ c, (joinNL L).getLast? = some c → isWs c = false := by
  induction L with
  | nil => exact absurd rfl hne
  | cons t ts ih =>
    cases ts with
    | nil => exact h t (List.mem_cons_self _ _)
    | cons u us =>
      obtain ⟨hne2, hlast2⟩ := ih (by simp) (fun a ha => h a (List.mem_cons_of_mem _ ha))
      rw [joinNL_cons_cons]
      refine ⟨by simp, ?_⟩
      intro c hc
      rw [List.getLast?_append_of_ne_nil t (by simp),
        show ('\n' :: joinNL (u :: us)) = ['\n'] ++ joinNL (u :: us) from rfl,
        List.getLast?_append_of_ne_nil ['\n'] hne2] at hc
      exact hlast2 c hc

theorem joinNL_head (t : Str) (rest : List Str) (ht : t ≠ []) :
    (joinNL (t :: rest)).head? = t.head? := by
  cases rest with
  | nil => rfl
  | cons u us =>
    rw [joinNL_cons_cons]
    exact head?_append_ne_nil t _ ht

theorem pysplitlines_joinNL (L : List Str) (hne : L ≠ [])
    (hh : ∀ c, (joinNL L).head? = some c → isWs c = false)
    (hl : ∀ c, (joinNL L).getLast? = some c → isWs c = false)
    (hjn : joinNL L ≠ [])
    (hnl : ∀ l ∈ L, ∀ c ∈ l, c ≠ '\n') :
    pysplitlines (joinNL L) = L := by
  unfold pysplitlines
  rw [pystrip_eq_self _ hh hl]
  have hE : (joinNL L).isEmpty = false := by
    cases hJ : joinNL L with
    | nil => exact absurd hJ hjn
    | cons a l => rfl
  rw [hE]
  simp only [Bool.false_eq_true, if_false]
  exact splitSepNL_joinNL L hne hnl

theorem foldlM_scanLine_congr (l1 l2 : List Str)
    (h : List.Forall₂ (fun a b => ∀ st, scanLine st a = scanLine st b) l1 l2) :
    ∀ st : ScanState, l1.foldlM scanLine st = l2.foldlM scanLine st := by
  induction h with
  | nil => intro st; rfl
  | @cons a b tl1 tl2 hab htl ih =>
    intro st
    rw [List.foldlM_cons, List.foldlM_cons, hab st]
    cases hsb : scanLine st b with
    | none => rfl
    | some s =>
      simp only [Option.bind_eq_bind, Option.some_bind]
      exact ih s

theorem forall₂_map_pair {α : Type} (R : Str → Str → Prop) (f g : α → Str) (l : List α)
    (h : ∀ a ∈ l, R (f a) (g a)) : List.Forall₂ R (l.map f) (l.map g) := by
  induction l with
  | nil => exact List.Forall₂.nil
  | cons a as ih =>
    exact List.Forall₂.cons (h a (List.mem_cons_self _ _))
      (ih (fun x hx => h x (List.mem_cons_of_mem _ hx)))

theorem keyText_head_not_ws (style : Bool) (k : CifKeyId) :
    ∀ c, (keyText style k).head? = some c → isWs c = false := by
  cases style <;> cases k <;> exact fun c hc => by cases Option.some_inj.mp hc; decide

theorem keyText_ne_nil (style : Bool) (k : CifKeyId) : keyText style k ≠ [] := by
  cases style <;> cases k <;> decide

theorem keyText_no_nl (style : Bool) (k : CifKeyId) : ∀ c ∈ keyText style k, c ≠ '\n' := by
  cases style <;> cases k <;> decide

theorem scanLine_cellKey_styles (st : ScanState) (k : CifKeyId) (v : Str)
    (hvne : v ≠ []) (hv : ∀ c ∈ v, numChar c = true) (style : Bool) :
    scanLine st (joinSpace [keyText style k, v]) =
      (parseFloat v).map (setCellField st k) := by
  have hline : joinSpace [keyText style k, v] = keyText style k ++ ' ' :: v := rfl
  have hstrip : pystrip (keyText style k ++ ' ' :: v) = keyText style k ++ ' ' :: v := by
    refine pystrip_eq_self _ ?_ ?_
    · intro c hc
      rw [head?_append_ne_nil _ _ (keyText_ne_nil style k)] at hc
      exact keyText_head_not_ws style k c hc
    · intro c hc
      rw [show keyText style k ++ ' ' :: v = keyText style k ++ ([' '] ++ v) from rfl,
        List.getLast?_append_of_ne_nil _ (by simp [hvne]),
        List.getLast?_append_of_ne_nil [' '] hvne] at hc
      exact numChar_not_ws (hv c (List.mem_of_mem_getLast? (Option.mem_def.mpr hc)))
  unfold scanLine
  rw [hline, hstrip]
  exact scanLineCore_cellKey st style k v hv hvne

theorem scanLine_hdr_styles (st : ScanState) (k : ColKey) (style : Bool) :
    scanLine st (hdrText style k) =
      some { st with
             reading_atoms := true,
             column_indices := dictSet st.column_indices k st.column_indices.length } := by
  unfold scanLine
  rw [show pystrip (hdrText style k) = hdrText style k from by cases style <;> cases k <;> decide]
  exact scanLineCore_hdr st style k

end Converter

namespace Converter

theorem hdrText_ne_nil (style : Bool) (k : ColKey) : hdrText style k ≠ [] := by
  cases style <;> cases k <;> decide

theorem hdrText_last_not_ws (style : Bool) (k : ColKey) :
    ∀ c, (hdrText style k).getLast? = some c → isWs c = false := by
  cases style <;> cases k <;> exact fun c hc => by cases Option.some_inj.mp hc; decide

theorem hdrText_no_nl (style : Bool) (k : ColKey) : ∀ c ∈ hdrText style k, c ≠ '\n' := by
  cases style <;> cases k <;> decide

end Converter

namespace Converter

/-- C6 — confirmed.  A document built with wildcard-style keys and headers
(`*cell*…`, `*atom*site_…`) converts to exactly the same output as the
document built with the underscore-style equivalents (`_cell_…`,
`_atom_site_…`), for any title, cell parameters, column headers and data
rows (the values being ordinary numeric tokens and the rows nonempty
whitespace-free token lists). -/
theorem c6_wildcard_underscore_equivalent (title : Str)
    (params : List (CifKeyId × Str)) (hdrs : List ColKey) (rows : List (List Str))
    (htitle : goodTok title = true)
    (hparams : ∀ p ∈ params, p.2 ≠ [] ∧ ∀ c ∈ p.2, numChar c = true)
    (hrows : ∀ r ∈ rows, r ≠ [] ∧ ∀ t ∈ r, goodTok t = true) :
    cif_to_poscar (mkCifInput true title params hdrs rows) =
      cif_to_poscar (mkCifInput false title params hdrs rows) := by
  have hlineL : ∀ style : Bool, ∀ l ∈ (title ::
      (params.map (fun p => joinSpace [keyText style p.1, p.2]) ++
       ["loop_".data] ++ hdrs.map (hdrText style) ++ rows.map joinSpace)),
      (l ≠ [] ∧ ∀ c, l.getLast? = some c → isWs c = false) ∧ ∀ c ∈ l, c ≠ '\n' := by
    intro style l hl
    rcases List.mem_cons.mp hl with rfl | hl
    · refine ⟨⟨goodTok_ne_nil htitle, ?_⟩, ?_⟩
      · intro c hc
        exact goodTok_wsFree htitle c (List.mem_of_mem_getLast? (Option.mem_def.mpr hc))
      · intro c hc
        exact not_ws_ne_nl (goodTok_wsFree htitle c hc)
    rcases List.mem_append.mp hl with hl | hl
    · rcases List.mem_append.mp hl with hl | hl
      · rcases List.mem_append.mp hl with hl | hl
        · rcases List.mem_map.mp hl with ⟨p, hp, rfl⟩
          obtain ⟨hvne, hvnum⟩ := hparams p hp
          refine ⟨⟨?_, ?_⟩, ?_⟩
          · show keyText style p.1 ++ ' ' :: p.2 ≠ []
            simp
          · intro c hc
            rw [show joinSpace [keyText style p.1, p.2] =
                keyText style p.1 ++ ([' '] ++ p.2) from rfl,
              List.getLast?_append_of_ne_nil _ (by simp),
              List.getLast?_append_of_ne_nil [' '] hvne] at hc
            exact numChar_not_ws (hvnum c (List.mem_of_mem_getLast? (Option.mem_def.mpr hc)))
          · intro c hc
            rcases List.mem_append.mp hc with hm | hm
            · exact keyText_no_nl style p.1 c hm
            rcases List.mem_cons.mp hm with rfl | hm
            · decide
            · intro he
              have hnc := hvnum c hm
              rw [he] at hnc
              exact absurd hnc (by decide)
        · rw [List.mem_singleton.mp hl]
          refine ⟨⟨by decide, ?_⟩, by decide⟩
          exact fun c hc => by cases Option.some_inj.mp hc; decide
      · rcases List.mem_map.mp hl with ⟨k, _, rfl⟩
        exact ⟨⟨hdrText_ne_nil style k, hdrText_last_not_ws style k⟩, hdrText_no_nl style k⟩
    · rcases List.mem_map.mp hl with ⟨r, hr0, rfl⟩
      obtain ⟨hrne, hrtok⟩ := hrows r hr0
      obtain ⟨h1, h2⟩ := joinSpace_last r hrne hrtok
      refine ⟨⟨h1, h2⟩, ?_⟩
      intro c hc he
      subst he
      exact joinSpace_no_nl r
        (fun t ht hm => absurd (goodTok_wsFree (hrtok t ht) '\n' hm) (by decide)) hc
  have hsplit : ∀ style : Bool,
      pysplitlines (mkCifInput style title params hdrs rows) =
      title :: (params.map (fun p => joinSpace [keyText style p.1, p.2]) ++
       ["loop_".data] ++ hdrs.map (hdrText style) ++ rows.map joinSpace) := by
    intro style
    unfold mkCifInput
    refine pysplitlines_joinNL _ (by simp) ?_
      (joinNL_last _ (by simp) (fun l hl => (hlineL style l hl).1)).2
      (joinNL_last _ (by simp) (fun l hl => (hlineL style l hl).1)).1
      (fun l hl => (hlineL style l hl).2)
    rw [joinNL_head title _ (goodTok_ne_nil htitle)]
    intro c hc
    exact goodTok_wsFree htitle c (List.mem_of_mem_head? (Option.mem_def.mpr hc))
  have hfold : (title :: (params.map (fun p => joinSpace [keyText true p.1, p.2]) ++
       ["loop_".data] ++ hdrs.map (hdrText true) ++
       rows.map joinSpace)).foldlM scanLine initScan =
      (title :: (params.map (fun p => joinSpace [keyText false p.1, p.2]) ++
       ["loop_".data] ++ hdrs.map (hdrText false) ++
       rows.map joinSpace)).foldlM scanLine initScan := by
    refine foldlM_scanLine_congr _ _ ?_ initScan
    refine List.Forall₂.cons (fun st => rfl) ?_
    refine List.rel_append (List.rel_append (List.rel_append ?_ ?_) ?_) ?_
    · refine forall₂_map_pair _ _ _ params ?_
      intro p hp st
      obtain ⟨hvne, hvnum⟩ := hparams p hp
      rw [scanLine_cellKey_styles st p.1 p.2 hvne hvnum true,
        scanLine_cellKey_styles st p.1 p.2 hvne hvnum false]
    · exact List.forall₂_same.mpr (fun x _ st => rfl)
    · refine forall₂_map_pair _ _ _ hdrs ?_
      intro k _ st
      rw [scanLine_hdr_styles st k true, scanLine_hdr_styles st k false]
    · exact List.forall₂_same.mpr (fun x _ st => rfl)
  simp only [cif_to_poscar, hsplit true, hsplit false, List.head?_cons, Option.some_bind]
  rw [hfold]

end Converter

namespace Converter

theorem c6_witness :
    cif_to_poscar (mkCifInput true "T".data [(CifKeyId.lenA, "5.0".data)]
      [ColKey.type, ColKey.x, ColKey.y, ColKey.z]
      [["Si".data, "0.5".data, "0.5".data, "0.5".data]]) =
    cif_to_poscar (mkCifInput false "T".data [(CifKeyId.lenA, "5.0".data)]
      [ColKey.type, ColKey.x, ColKey.y, ColKey.z]
      [["Si".data, "0.5".data, "0.5".data, "0.5".data]]) :=
  c6_wildcard_underscore_equivalent "T".data _ _ _ (by decide) (by decide) (by decide)

end Converter

namespace Converter

theorem splitSep_append_sep2 (p : Char → Bool) (xs ys : Str) (c : Char) (hc : p c = true) :
    splitSep p (xs ++ c :: ys) = splitSep p xs ++ splitSep p ys := by
  induction xs with
  | nil =>
    rw [List.nil_append, splitSep_cons]
    cases h : splitSep p ys with
    | nil => exact absurd h (splitSep_ne_nil p ys)
    | cons t ts =>
      simp [hc]
      rfl
  | cons a xs ih =>
    rw [List.cons_append, splitSep_cons, ih, splitSep_cons]
    cases h : splitSep p xs with
    | nil => exact absurd h (splitSep_ne_nil p xs)
    | cons t ts =>
      by_cases pa : p a
      · simp [pa]
      · simp [pa]

theorem pysplit_append_sep (xs ys : Str) (c : Char) (hc : isWs c = true) :
    pysplit (xs ++ c :: ys) = pysplit xs ++ pysplit ys := by
  unfold pysplit
  rw [splitSep_append_sep2 isWs xs ys c hc, List.filter_append]

theorem pystrip_cons_ws (c : Char) (s : Str) (hc : isWs c = true) :
    pystrip (c :: s) = pystrip s := by
  unfold pystrip
  rw [List.dropWhile_cons]
  simp [hc]

theorem digitChar_not_alpha {d : Nat} (h : d < 10) : (Nat.digitChar d).isAlpha = false := by
  interval_cases d <;> decide

theorem natToStr_not_alpha (n : Nat) : ∀ c ∈ natToStr n, c.isAlpha = false := by
  rw [natToStr_eq]
  by_cases h : n = 0
  · simp only [h, if_pos]
    intro c hc
    rw [List.mem_singleton] at hc
    subst hc
    decide
  · simp only [h, if_neg, not_false_iff, List.mem_reverse, List.mem_map]
    rintro c ⟨d, hd, rfl⟩
    exact digitChar_not_alpha (Nat.digits_lt_base (by norm_num) hd)

theorem goodSym_alpha {s : Str} (h : goodSym s = true) : ∀ c ∈ s, c.isAlpha = true := by
  unfold goodSym at h
  rw [Bool.and_eq_true, List.all_eq_true] at h
  intro c hc
  simpa using h.2 c hc

theorem goodSym_ne_nil {s : Str} (h : goodSym s = true) : s ≠ [] := by
  unfold goodSym at h
  rw [Bool.and_eq_true] at h
  intro he
  rw [he] at h
  exact absurd h.1 (by decide)

theorem goodSym_goodTok {s : Str} (h : goodSym s = true) : goodTok s = true := by
  unfold goodTok
  rw [Bool.and_eq_true, List.all_eq_true]
  constructor
  · cases hs : s with
    | nil => exact absurd hs (goodSym_ne_nil h)
    | cons a l => rfl
  · intro c hc
    simp [isAlpha_not_ws (goodSym_alpha h c hc)]

theorem filter_alpha_label (sym : Str) (hsym : goodSym sym = true) (i : Nat) :
    (sym ++ natToStr i).filter (fun c => c.isAlpha) = sym := by
  rw [List.filter_append]
  have h1 : sym.filter (fun c => c.isAlpha) = sym :=
    List.filter_eq_self.mpr (fun c hc => by simp [goodSym_alpha hsym c hc])
  have h2 : (natToStr i).filter (fun c => c.isAlpha) = [] :=
    List.filter_eq_nil.mpr (fun c hc => by simp [natToStr_not_alpha i c hc])
  rw [h1, h2, List.append_nil]

theorem parseInt_natToStr (n : Nat) : parseInt (natToStr n) = some (n : ℤ) := by
  cases hs : natToStr n with
  | nil => exact absurd hs (natToStr_ne_nil n)
  | cons c rest =>
    have hc : c.isDigit = true := natToStr_isDigit n c (by rw [hs]; exact List.mem_cons_self c rest)
    show (if c = '-' then (if allDigits rest then some (-(natOfDigits rest : ℤ)) else none)
      else if c = '+' then (if allDigits rest then some ((natOfDigits rest : ℤ)) else none)
      else (if allDigits (c :: rest) then some ((natOfDigits (c :: rest) : ℤ)) else none)) =
      some (n : ℤ)
    rw [if_neg (char_ne_of_class hc (by decide : ('-' : Char).isDigit = false)),
      if_neg (char_ne_of_class hc (by decide : ('+' : Char).isDigit = false)),
      ← hs, allDigits_natToStr]
    simp [natOfDigits_natToStr]

theorem speciesIncr_fresh (sp : List (Str × Nat)) (k : Str)
    (h : ∀ q ∈ sp, q.1 ≠ k) : speciesIncr sp k = sp ++ [(k, 1)] := by
  unfold speciesIncr
  rw [if_neg]
  intro hx
  rcases List.any_eq_true.mp hx with ⟨q, hq, he⟩
  exact h q hq (by simpa using he)

theorem speciesIncr_snoc (sp : List (Str × Nat)) (k : Str) (j : Nat)
    (h : ∀ q ∈ sp, q.1 ≠ k) : speciesIncr (sp ++ [(k, j)]) k = sp ++ [(k, j + 1)] := by
  unfold speciesIncr
  rw [if_pos (by rw [List.any_append]; simp), List.map_append]
  congr 1
  · have heq : sp.map (fun q => if q.1 = k then (q.1, q.2 + 1) else q) = sp.map (fun q => q) :=
      List.map_congr_left (fun q hq => by rw [if_neg (h q hq)])
    rw [heq, List.map_id']
  · simp

end Converter

namespace Converter

unseal Nat.gcd Rat.add Rat.mul Rat.inv Rat.sub in
theorem parseFloat_zeroTok : parseFloat zeroTok = some 0 := by decide

unseal Nat.gcd Rat.add Rat.mul Rat.inv Rat.sub in
theorem fmt2_90 : fmt2 90 = "90.00".data := by decide

unseal Nat.gcd Rat.add Rat.mul Rat.inv Rat.sub in
theorem parseFloat_9000 : parseFloat "90.00".data = some 90 := by decide

end Converter

namespace Converter

theorem scanLineCore_cif_lenA (st : ScanState) (v : Str)
    (hv : ∀ c ∈ v, numChar c = true) (hvne : v ≠ []) :
    scanLineCore st ("_cell_length_a   ".data ++ ' ' :: v) =
      (parseFloat v).map (setCellField st CifKeyId.lenA) := by
  have hns : ∀ kw ∈ scanKws, strContains v kw = false := scanKws_numTok_false v hv
  unfold scanLineCore
  rw [show (("_cell_length_a   ".data ++ ' ' :: v).isEmpty
      || ['#'].isPrefixOf ("_cell_length_a   ".data ++ ' ' :: v)) = false from rfl]
  rw [strContains_sep_split "_cell_length_a   ".data v ' ' kwWCellLengthA (by decide),
    strContains_sep_split "_cell_length_a   ".data v ' ' kwUCellLengthA (by decide)]
  rw [show strContains "_cell_length_a   ".data kwWCellLengthA = false from by decide,
    show strContains "_cell_length_a   ".data kwUCellLengthA = true from by decide,
    hns kwWCellLengthA (by simp [scanKws]), hns kwUCellLengthA (by simp [scanKws])]
  simp only [Bool.false_or, Bool.or_false, Bool.or_true, Bool.true_or,
    Bool.false_eq_true, if_false, if_true]
  unfold lastTokenFloat
  rw [pysplit_append_sep "_cell_length_a   ".data v ' ' (by decide),
    pysplit_sepFree v (fun c hc => numChar_not_ws (hv c hc)) hvne,
    show pysplit "_cell_length_a   ".data = ["_cell_length_a".data] from by decide]
  simp
  rfl

theorem scanLineCore_cif_lenB (st : ScanState) (v : Str)
    (hv : ∀ c ∈ v, numChar c = true) (hvne : v ≠ []) :
    scanLineCore st ("_cell_length_b   ".data ++ ' ' :: v) =
      (parseFloat v).map (setCellField st CifKeyId.lenB) := by
  have hns : ∀ kw ∈ scanKws, strContains v kw = false := scanKws_numTok_false v hv
  unfold scanLineCore
  rw [show (("_cell_length_b   ".data ++ ' ' :: v).isEmpty
      || ['#'].isPrefixOf ("_cell_length_b   ".data ++ ' ' :: v)) = false from rfl]
  rw [strContains_sep_split "_cell_length_b   ".data v ' ' kwWCellLengthA (by decide),
    strContains_sep_split "_cell_length_b   ".data v ' ' kwUCellLengthA (by decide)]
  rw [show strContains "_cell_length_b   ".data kwWCellLengthA = false from by decide,
    show strContains "_cell_length_b   ".data kwUCellLengthA = false from by decide,
    hns kwWCellLengthA (by simp [scanKws]), hns kwUCellLengthA (by simp [scanKws])]
  rw [strContains_sep_split "_cell_length_b   ".data v ' ' kwWCellLengthB (by decide),
    strContains_sep_split "_cell_length_b   ".data v ' ' kwUCellLengthB (by decide)]
  rw [show strContains "_cell_length_b   ".data kwWCellLengthB = false from by decide,
    show strContains "_cell_length_b   ".data kwUCellLengthB = true from by decide,
    hns kwWCellLengthB (by simp [scanKws]), hns kwUCellLengthB (by simp [scanKws])]
  simp only [Bool.false_or, Bool.or_false, Bool.or_true, Bool.true_or,
    Bool.false_eq_true, if_false, if_true]
  unfold lastTokenFloat
  rw [pysplit_append_sep "_cell_length_b   ".data v ' ' (by decide),
    pysplit_sepFree v (fun c hc => numChar_not_ws (hv c hc)) hvne,
    show pysplit "_cell_length_b   ".data = ["_cell_length_b".data] from by decide]
  simp
  rfl

theorem scanLineCore_cif_lenC (st : ScanState) (v : Str)
    (hv : ∀ c ∈ v, numChar c = true) (hvne : v ≠ []) :
    scanLineCore st ("_cell_length_c   ".data ++ ' ' :: v) =
      (parseFloat v).map (setCellField st CifKeyId.lenC) := by
  have hns : ∀ kw ∈ scanKws, strContains v kw = false := scanKws_numTok_false v hv
  unfold scanLineCore
  rw [show (("_cell_length_c   ".data ++ ' ' :: v).isEmpty
      || ['#'].isPrefixOf ("_cell_length_c   ".data ++ ' ' :: v)) = false from rfl]
  rw [strContains_sep_split "_cell_length_c   ".data v ' ' kwWCellLengthA (by decide),
    strContains_sep_split "_cell_length_c   ".data v ' ' kwUCellLengthA (by decide)]
  rw [show strContains "_cell_length_c   ".data kwWCellLengthA = false from by decide,
    show strContains "_cell_length_c   ".data kwUCellLengthA = false from by decide,
    hns kwWCellLengthA (by simp [scanKws]), hns kwUCellLengthA (by simp [scanKws])]
  rw [strContains_sep_split "_cell_length_c   ".data v ' ' kwWCellLengthB (by decide),
    strContains_sep_split "_cell_length_c   ".data v ' ' kwUCellLengthB (by decide)]
  rw [show strContains "_cell_length_c   ".data kwWCellLengthB = false from by decide,
    show strContains "_cell_length_c   ".data kwUCellLengthB = false from by decide,
    hns kwWCellLengthB (by simp [scanKws]), hns kwUCellLengthB (by simp [scanKws])]
  rw [strContains_sep_split "_cell_length_c   ".data v ' ' kwWCellLengthC (by decide),
    strContains_sep_split "_cell_length_c   ".data v ' ' kwUCellLengthC (by decide)]
  rw [show strContains "_cell_length_c   ".data kwWCellLengthC = false from by decide,
    show strContains "_cell_length_c   ".data kwUCellLengthC = true from by decide,
    hns kwWCellLengthC (by simp [scanKws]), hns kwUCellLengthC (by simp [scanKws])]
  simp only [Bool.false_or, Bool.or_false, Bool.or_true, Bool.true_or,
    Bool.false_eq_true, if_false, if_true]
  unfold lastTokenFloat
  rw [pysplit_append_sep "_cell_length_c   ".data v ' ' (by decide),
    pysplit_sepFree v (fun c hc => numChar_not_ws (hv c hc)) hvne,
    show pysplit "_cell_length_c   ".data = ["_cell_length_c".data] from by decide]
  simp
  rfl

theorem scanLineCore_cif_angAlpha (st : ScanState) (v : Str)
    (hv : ∀ c ∈ v, numChar c = true) (hvne : v ≠ []) :
    scanLineCore st ("_cell_angle_alpha".data ++ ' ' :: v) =
      (parseFloat v).map (setCellField st CifKeyId.angAlpha) := by
  have hns : ∀ kw ∈ scanKws, strContains v kw = false := scanKws_numTok_false v hv
  unfold scanLineCore
  rw [show (("_cell_angle_alpha".data ++ ' ' :: v).isEmpty
      || ['#'].isPrefixOf ("_cell_angle_alpha".data ++ ' ' :: v)) = false from rfl]
  rw [strContains_sep_split "_cell_angle_alpha".data v ' ' kwWCellLengthA (by decide),
    strContains_sep_split "_cell_angle_alpha".data v ' ' kwUCellLengthA (by decide)]
  rw [show strContains "_cell_angle_alpha".data kwWCellLengthA = false from by decide,
    show strContains "_cell_angle_alpha".data kwUCellLengthA = false from by decide,
    hns kwWCellLengthA (by simp [scanKws]), hns kwUCellLengthA (by simp [scanKws])]
  rw [strContains_sep_split "_cell_angle_alpha".data v ' ' kwWCellLengthB (by decide),
    strContains_sep_split "_cell_angle_alpha".data v ' ' kwUCellLengthB (by decide)]
  rw [show strContains "_cell_angle_alpha".data kwWCellLengthB = false from by decide,
    show strContains "_cell_angle_alpha".data kwUCellLengthB = false from by decide,
    hns kwWCellLengthB (by simp [scanKws]), hns kwUCellLengthB (by simp [scanKws])]
  rw [strContains_sep_split "_cell_angle_alpha".data v ' ' kwWCellLengthC (by decide),
    strContains_sep_split "_cell_angle_alpha".data v ' ' kwUCellLengthC (by decide)]
  rw [show strContains "_cell_angle_alpha".data kwWCellLengthC = false from by decide,
    show strContains "_cell_angle_alpha".data kwUCellLengthC = false from by decide,
    hns kwWCellLengthC (by simp [scanKws]), hns kwUCellLengthC (by simp [scanKws])]
  rw [strContains_sep_split "_cell_angle_alpha".data v ' ' kwWCellAngleAlpha (by decide),
    strContains_sep_split "_cell_angle_alpha".data v ' ' kwUCellAngleAlpha (by decide)]
  rw [show strContains "_cell_angle_alpha".data kwWCellAngleAlpha = false from by decide,
    show strContains "_cell_angle_alpha".data kwUCellAngleAlpha = true from by decide,
    hns kwWCellAngleAlpha (by simp [scanKws]), hns kwUCellAngleAlpha (by simp [scanKws])]
  simp only [Bool.false_or, Bool.or_false, Bool.or_true, Bool.true_or,
    Bool.false_eq_true, if_false, if_true]
  unfold lastTokenFloat
  rw [pysplit_append_sep "_cell_angle_alpha".data v ' ' (by decide),
    pysplit_sepFree v (fun c hc => numChar_not_ws (hv c hc)) hvne,
    show pysplit "_cell_angle_alpha".data = ["_cell_angle_alpha".data] from by decide]
  simp
  rfl

theorem scanLineCore_cif_angBeta (st : ScanState) (v : Str)
    (hv : ∀ c ∈ v, numChar c = true) (hvne : v ≠ []) :
    scanLineCore st ("_cell_angle_beta ".data ++ ' ' :: v) =
      (parseFloat v).map (setCellField st CifKeyId.angBeta) := by
  have hns : ∀ kw ∈ scanKws, strContains v kw = false := scanKws_numTok_false v hv
  unfold scanLineCore
  rw [show (("_cell_angle_beta ".data ++ ' ' :: v).isEmpty
      || ['#'].isPrefixOf ("_cell_angle_beta ".data ++ ' ' :: v)) = false from rfl]
  rw [strContains_sep_split "_cell_angle_beta ".data v ' ' kwWCellLengthA (by decide),
    strContains_sep_split "_cell_angle_beta ".data v ' ' kwUCellLengthA (by decide)]
  rw [show strContains "_cell_angle_beta ".data kwWCellLengthA = false from by decide,
    show strContains "_cell_angle_beta ".data kwUCellLengthA = false from by decide,
    hns kwWCellLengthA (by simp [scanKws]), hns kwUCellLengthA (by simp [scanKws])]
  rw [strContains_sep_split "_cell_angle_beta ".data v ' ' kwWCellLengthB (by decide),
    strContains_sep_split "_cell_angle_beta ".data v ' ' kwUCellLengthB (by decide)]
  rw [show strContains "_cell_angle_beta ".data kwWCellLengthB = false from by decide,
    show strContains "_cell_angle_beta ".data kwUCellLengthB = false from by decide,
    hns kwWCellLengthB (by simp [scanKws]), hns kwUCellLengthB (by simp [scanKws])]
  rw [strContains_sep_split "_cell_angle_beta ".data v ' ' kwWCellLengthC (by decide),
    strContains_sep_split "_cell_angle_beta ".data v ' ' kwUCellLengthC (by decide)]
  rw [show strContains "_cell_angle_beta ".data kwWCellLengthC = false from by decide,
    show strContains "_cell_angle_beta ".data kwUCellLengthC = false from by decide,
    hns kwWCellLengthC (by simp [scanKws]), hns kwUCellLengthC (by simp [scanKws])]
  rw [strContains_sep_split "_cell_angle_beta ".data v ' ' kwWCellAngleAlpha (by decide),
    strContains_sep_split "_cell_angle_beta ".data v ' ' kwUCellAngleAlpha (by decide)]
  rw [show strContains "_cell_angle_beta ".data kwWCellAngleAlpha = false from by decide,
    show strContains "_cell_angle_beta ".data kwUCellAngleAlpha = false from by decide,
    hns kwWCellAngleAlpha (by simp [scanKws]), hns kwUCellAngleAlpha (by simp [scanKws])]
  rw [strContains_sep_split "_cell_angle_beta ".data v ' ' kwWCellAngleBeta (by decide),
    strContains_sep_split "_cell_angle_beta ".data v ' ' kwUCellAngleBeta (by decide)]
  rw [show strContains "_cell_angle_beta ".data kwWCellAngleBeta = false from by decide,
    show strContains "_cell_angle_beta ".data kwUCellAngleBeta = true from by decide,
    hns kwWCellAngleBeta (by simp [scanKws]), hns kwUCellAngleBeta (by simp [scanKws])]
  simp only [Bool.false_or, Bool.or_false, Bool.or_true, Bool.true_or,
    Bool.false_eq_true, if_false, if_true]
  unfold lastTokenFloat
  rw [pysplit_append_sep "_cell_angle_beta ".data v ' ' (by decide),
    pysplit_sepFree v (fun c hc => numChar_not_ws (hv c hc)) hvne,
    show pysplit "_cell_angle_beta ".data = ["_cell_angle_beta".data] from by decide]
  simp
  rfl

theorem scanLineCore_cif_angGamma (st : ScanState) (v : Str)
    (hv : ∀ c ∈ v, numChar c = true) (hvne : v ≠ []) :
    scanLineCore st ("_cell_angle_gamma".data ++ ' ' :: v) =
      (parseFloat v).map (setCellField st CifKeyId.angGamma) := by
  have hns : ∀ kw ∈ scanKws, strContains v kw = false := scanKws_numTok_false v hv
  unfold scanLineCore
  rw [show (("_cell_angle_gamma".data ++ ' ' :: v).isEmpty
      || ['#'].isPrefixOf ("_cell_angle_gamma".data ++ ' ' :: v)) = false from rfl]
  rw [strContains_sep_split "_cell_angle_gamma".data v ' ' kwWCellLengthA (by decide),
    strContains_sep_split "_cell_angle_gamma".data v ' ' kwUCellLengthA (by decide)]
  rw [show strContains "_cell_angle_gamma".data kwWCellLengthA = false from by decide,
    show strContains "_cell_angle_gamma".data kwUCellLengthA = false from by decide,
    hns kwWCellLengthA (by simp [scanKws]), hns kwUCellLengthA (by simp [scanKws])]
  rw [strContains_sep_split "_cell_angle_gamma".data v ' ' kwWCellLengthB (by decide),
    strContains_sep_split "_cell_angle_gamma".data v ' ' kwUCellLengthB (by decide)]
  rw [show strContains "_cell_angle_gamma".data kwWCellLengthB = false from by decide,
    show strContains "_cell_angle_gamma".data kwUCellLengthB = false from by decide,
    hns kwWCellLengthB (by simp [scanKws]), hns kwUCellLengthB (by simp [scanKws])]
  rw [strContains_sep_split "_cell_angle_gamma".data v ' ' kwWCellLengthC (by decide),
    strContains_sep_split "_cell_angle_gamma".data v ' ' kwUCellLengthC (by decide)]
  rw [show strContains "_cell_angle_gamma".data kwWCellLengthC = false from by decide,
    show strContains "_cell_angle_gamma".data kwUCellLengthC = false from by decide,
    hns kwWCellLengthC (by simp [scanKws]), hns kwUCellLengthC (by simp [scanKws])]
  rw [strContains_sep_split "_cell_angle_gamma".data v ' ' kwWCellAngleAlpha (by decide),
    strContains_sep_split "_cell_angle_gamma".data v ' ' kwUCellAngleAlpha (by decide)]
  rw [show strContains "_cell_angle_gamma".data kwWCellAngleAlpha = false from by decide,
    show strContains "_cell_angle_gamma".data kwUCellAngleAlpha = false from by decide,
    hns kwWCellAngleAlpha (by simp [scanKws]), hns kwUCellAngleAlpha (by simp [scanKws])]
  rw [strContains_sep_split "_cell_angle_gamma".data v ' ' kwWCellAngleBeta (by decide),
    strContains_sep_split "_cell_angle_gamma".data v ' ' kwUCellAngleBeta (by decide)]
  rw [show strContains "_cell_angle_gamma".data kwWCellAngleBeta = false from by decide,
    show strContains "_cell_angle_gamma".data kwUCellAngleBeta = false from by decide,
    hns kwWCellAngleBeta (by simp [scanKws]), hns kwUCellAngleBeta (by simp [scanKws])]
  rw [strContains_sep_split "_cell_angle_gamma".data v ' ' kwWCellAngleGamma (by decide),
    strContains_sep_split "_cell_angle_gamma".data v ' ' kwUCellAngleGamma (by decide)]
  rw [show strContains "_cell_angle_gamma".data kwWCellAngleGamma = false from by decide,
    show strContains "_cell_angle_gamma".data kwUCellAngleGamma = true from by decide,
    hns kwWCellAngleGamma (by simp [scanKws]), hns kwUCellAngleGamma (by simp [scanKws])]
  simp only [Bool.false_or, Bool.or_false, Bool.or_true, Bool.true_or,
    Bool.false_eq_true, if_false, if_true]
  unfold lastTokenFloat
  rw [pysplit_append_sep "_cell_angle_gamma".data v ' ' (by decide),
    pysplit_sepFree v (fun c hc => numChar_not_ws (hv c hc)) hvne,
    show pysplit "_cell_angle_gamma".data = ["_cell_angle_gamma".data] from by decide]
  simp
  rfl

end Converter

namespace Converter

theorem isEmpty_false_of_ne_nil {l : Str} (h : l ≠ []) : l.isEmpty = false := by
  cases l with
  | nil => exact absurd rfl h
  | cons a t => rfl

theorem append_ne_nil_left {xs : Str} (ys : Str) (h : xs ≠ []) : xs ++ ys ≠ [] := by
  intro he
  exact h (List.append_eq_nil.mp he).1

theorem scan_data_rows (rows : List Str) (st : ScanState) (m : Nat)
    (hread : st.reading_atoms = true)
    (hmax : pymax (st.column_indices.map (fun p => p.2)) = some m)
    (hrows : ∀ r ∈ rows,
      (∀ kw ∈ scanKws, strContains (pystrip r) kw = false) ∧
      (pystrip r).isEmpty = false ∧
      ['#'].isPrefixOf (pystrip r) = false ∧
      ['*'].isPrefixOf (pystrip r) = false ∧
      ['_'].isPrefixOf (pystrip r) = false ∧
      (pysplit (pystrip r)).length ≥ m + 1) :
    rows.foldlM scanLine st =
      some { st with
             atom_lines := st.atom_lines ++ rows.map (fun r => pysplit (pystrip r)) } := by
  induction rows generalizing st with
  | nil => simp
  | cons r rows ih =>
    obtain ⟨h1, h2, h3, h4, h5, h6⟩ := hrows r (List.mem_cons_self _ _)
    rw [List.foldlM_cons]
    have hstep : scanLine st r =
        some { st with atom_lines := st.atom_lines ++ [pysplit (pystrip r)] } := by
      unfold scanLine
      rw [scanLineCore_data st (pystrip r) h1 h2 h3 h4 h5 hread, hmax]
      show (if (pysplit (pystrip r)).length ≥ m + 1 then
          some { st with atom_lines := st.atom_lines ++ [pysplit (pystrip r)] }
        else some st) = _
      rw [if_pos h6]
    rw [hstep]
    simp only [Option.bind_eq_bind, Option.some_bind]
    rw [ih { st with atom_lines := st.atom_lines ++ [pysplit (pystrip r)] } hread hmax
      (fun a ha => hrows a (List.mem_cons_of_mem _ ha))]
    simp [List.append_assoc]

theorem rowText_strip (atom : Str) (hs : goodSym atom = true) (i : Nat) (t : ℚ × ℚ × ℚ) :
    pystrip (rowText atom i t) =
      atom ++ natToStr i ++ ' ' :: fmt6 t.1 ++ ' ' :: fmt6 t.2.1 ++ ' ' :: fmt6 t.2.2 := by
  have h1 : rowText atom i t = ' ' :: ' ' ::
      (atom ++ natToStr i ++ ' ' :: fmt6 t.1 ++ ' ' :: fmt6 t.2.1 ++ ' ' :: fmt6 t.2.2) := rfl
  rw [h1, pystrip_cons_ws _ _ (by decide), pystrip_cons_ws _ _ (by decide)]
  refine pystrip_eq_self _ ?_ ?_
  · intro c hc
    rw [head?_append_ne_nil _ _ (append_ne_nil_left _ (append_ne_nil_left _
        (append_ne_nil_left _ (goodSym_ne_nil hs)))),
      head?_append_ne_nil _ _ (append_ne_nil_left _
        (append_ne_nil_left _ (goodSym_ne_nil hs))),
      head?_append_ne_nil _ _ (append_ne_nil_left _ (goodSym_ne_nil hs)),
      head?_append_ne_nil _ _ (goodSym_ne_nil hs)] at hc
    exact isAlpha_not_ws (goodSym_alpha hs c (List.mem_of_mem_head? (Option.mem_def.mpr hc)))
  · intro c hc
    rw [List.getLast?_append_of_ne_nil _ (by simp),
      show (' ' :: fmt6 t.2.2) = [' '] ++ fmt6 t.2.2 from rfl,
      List.getLast?_append_of_ne_nil [' ']
        (show fmt6 t.2.2 ≠ [] from fmtFixed_ne_nil 6 t.2.2)] at hc
    exact numChar_not_ws (fmtFixed_numChar 6 t.2.2 c
      (List.mem_of_mem_getLast? (Option.mem_def.mpr hc)))

theorem label_ws_free (atom : Str) (hs : goodSym atom = true) (i : Nat) :
    ∀ c ∈ atom ++ natToStr i, isWs c = false := by
  intro c hc
  rcases List.mem_append.mp hc with hm | hm
  · exact isAlpha_not_ws (goodSym_alpha hs c hm)
  · exact numChar_not_ws (isDigit_numChar (natToStr_isDigit i c hm))

theorem rowText_tokens (atom : Str) (hs : goodSym atom = true) (i : Nat) (t : ℚ × ℚ × ℚ) :
    pysplit (pystrip (rowText atom i t)) = rowToks atom i t := by
  rw [rowText_strip atom hs i t,
    pysplit_append_sep _ _ ' ' (by decide),
    pysplit_append_sep _ _ ' ' (by decide),
    pysplit_append_sep _ _ ' ' (by decide),
    pysplit_sepFree (atom ++ natToStr i) (label_ws_free atom hs i)
      (append_ne_nil_left _ (goodSym_ne_nil hs)),
    pysplit_sepFree (fmt6 t.1) (fun c hc => numChar_not_ws (fmtFixed_numChar 6 _ c hc))
      (fmtFixed_ne_nil 6 _),
    pysplit_sepFree (fmt6 t.2.1) (fun c hc => numChar_not_ws (fmtFixed_numChar 6 _ c hc))
      (fmtFixed_ne_nil 6 _),
    pysplit_sepFree (fmt6 t.2.2) (fun c hc => numChar_not_ws (fmtFixed_numChar 6 _ c hc))
      (fmtFixed_ne_nil 6 _)]
  rfl

theorem map_pysplit_rowTexts (atom : Str) (hs : goodSym atom = true)
    (ts : List (ℚ × ℚ × ℚ)) :
    ∀ i, (rowTexts atom i ts).map (fun r => pysplit (pystrip r)) = rowTokss atom i ts := by
  induction ts with
  | nil => intro i; rfl
  | cons t ts ih =>
    intro i
    show (rowText atom i t :: rowTexts atom (i + 1) ts).map (fun r => pysplit (pystrip r)) =
      rowToks atom i t :: rowTokss atom (i + 1) ts
    rw [List.map_cons, rowText_tokens atom hs i t, ih (i + 1)]

end Converter

namespace Converter

theorem rowText_scan_conditions (atom : Str) (hs : goodSym atom = true) (i : Nat)
    (t : ℚ × ℚ × ℚ) :
    (∀ kw ∈ scanKws, strContains (pystrip (rowText atom i t)) kw = false) ∧
    (pystrip (rowText atom i t)).isEmpty = false ∧
    ['#'].isPrefixOf (pystrip (rowText atom i t)) = false ∧
    ['*'].isPrefixOf (pystrip (rowText atom i t)) = false ∧
    ['_'].isPrefixOf (pystrip (rowText atom i t)) = false ∧
    (pysplit (pystrip (rowText atom i t))).length ≥ 3 + 1 := by
  have hund : '_' ∉ (atom ++ natToStr i ++ ' ' :: fmt6 t.1 ++ ' ' :: fmt6 t.2.1
      ++ ' ' :: fmt6 t.2.2) := by
    intro hmem
    rcases List.mem_append.mp hmem with hm | hm
    · rcases List.mem_append.mp hm with hm2 | hm2
      · rcases List.mem_append.mp hm2 with hm3 | hm3
        · rcases List.mem_append.mp hm3 with hm4 | hm4
          · exact absurd (goodSym_alpha hs '_' hm4) (by decide)
          · exact absurd (natToStr_isDigit i '_' hm4) (by decide)
        · rcases List.mem_cons.mp hm3 with he | hm4
          · exact absurd he (by decide)
          · exact absurd (fmtFixed_numChar 6 t.1 '_' hm4) (by decide)
      · rcases List.mem_cons.mp hm2 with he | hm4
        · exact absurd he (by decide)
        · exact absurd (fmtFixed_numChar 6 t.2.1 '_' hm4) (by decide)
    · rcases List.mem_cons.mp hm with he | hm4
      · exact absurd he (by decide)
      · exact absurd (fmtFixed_numChar 6 t.2.2 '_' hm4) (by decide)
  refine ⟨?_, ?_, ?_, ?_, ?_, ?_⟩
  · intro kw hkw
    rw [rowText_strip atom hs i t]
    fin_cases hkw <;> exact strContains_false_of_missing_char _ _ '_' (by decide) hund
  · rw [rowText_strip atom hs i t]
    exact isEmpty_false_of_ne_nil (append_ne_nil_left _ (append_ne_nil_left _
      (append_ne_nil_left _ (append_ne_nil_left _ (goodSym_ne_nil hs)))))
  · rw [rowText_strip atom hs i t]
    cases hatom : atom with
    | nil => exact absurd hatom (goodSym_ne_nil hs)
    | cons a arest =>
      simp only [List.cons_append]
      rw [singleton_isPrefixOf_cons]
      have ha : a.isAlpha = true := goodSym_alpha hs a (by rw [hatom]; exact List.mem_cons_self _ _)
      simp only [beq_eq_false_iff_ne]
      exact (char_ne_of_class ha (by decide : ('#' : Char).isAlpha = false)).symm
  · rw [rowText_strip atom hs i t]
    cases hatom : atom with
    | nil => exact absurd hatom (goodSym_ne_nil hs)
    | cons a arest =>
      simp only [List.cons_append]
      rw [singleton_isPrefixOf_cons]
      have ha : a.isAlpha = true := goodSym_alpha hs a (by rw [hatom]; exact List.mem_cons_self _ _)
      simp only [beq_eq_false_iff_ne]
      exact (char_ne_of_class ha (by decide : ('*' : Char).isAlpha = false)).symm
  · rw [rowText_strip atom hs i t]
    cases hatom : atom with
    | nil => exact absurd hatom (goodSym_ne_nil hs)
    | cons a arest =>
      simp only [List.cons_append]
      rw [singleton_isPrefixOf_cons]
      have ha : a.isAlpha = true := goodSym_alpha hs a (by rw [hatom]; exact List.mem_cons_self _ _)
      simp only [beq_eq_false_iff_ne]
      exact (char_ne_of_class ha (by decide : ('_' : Char).isAlpha = false)).symm
  · rw [rowText_tokens atom hs i t]
    exact Nat.le.refl

theorem emitGroup_exact (atom : Str) (ts : List (ℚ × ℚ × ℚ)) :
    ∀ (i : Nat) (rest : List (List ℚ)),
      emitGroup atom ts.length i (ts.map tripleToList ++ rest) =
        some (rowTexts atom i ts, rest) := by
  induction ts with
  | nil => intro i rest; rfl
  | cons t ts ih =>
    intro i rest
    show (emitGroup atom ts.length (i + 1) (ts.map tripleToList ++ rest)).map
        (fun pr => (rowText atom i t :: pr.1, pr.2)) = some (rowTexts atom i (t :: ts), rest)
    rw [ih (i + 1) rest]
    rfl

theorem emitAtoms_exact (groups : List (Str × List (ℚ × ℚ × ℚ))) :
    emitAtoms (groups.map (fun g => (g.1, (g.2.length : ℤ))))
        ((groups.map (fun g => g.2.map tripleToList)).flatten) =
      some ((groups.map (fun g => rowTexts g.1 1 g.2)).flatten) := by
  induction groups with
  | nil => rfl
  | cons g gs ih =>
    show (emitGroup g.1 g.2.length 1
        (g.2.map tripleToList ++ (gs.map (fun g => g.2.map tripleToList)).flatten)).bind
        (fun pr => (emitAtoms (gs.map (fun g => (g.1, (g.2.length : ℤ)))) pr.2).map
          (fun rest => pr.1 ++ rest)) = _
    rw [emitGroup_exact g.1 g.2 1 ((gs.map (fun g => g.2.map tripleToList)).flatten)]
    simp only [Option.some_bind]
    rw [ih]
    rfl

end Converter

namespace Converter

theorem processAtom_rowToks (atom : Str) (hs : goodSym atom = true) (i : Nat)
    (t : ℚ × ℚ × ℚ) (hx : Reps6 t.1) (hy : Reps6 t.2.1) (hz : Reps6 t.2.2)
    (acc : List (Str × Nat) × List (ℚ × ℚ × ℚ)) :
    processAtom [(ColKey.label, 0), (ColKey.x, 1), (ColKey.y, 2), (ColKey.z, 3)] acc
        (rowToks atom i t) = some (speciesIncr acc.1 atom, acc.2 ++ [t]) := by
  have hsym : atomSym [(ColKey.label, 0), (ColKey.x, 1), (ColKey.y, 2), (ColKey.z, 3)]
      (rowToks atom i t) = some atom := by
    unfold atomSym
    rw [show dictMem [(ColKey.label, 0), (ColKey.x, 1), (ColKey.y, 2), (ColKey.z, 3)]
      ColKey.type = false from rfl]
    simp only [Bool.false_eq_true, if_false]
    show (((some 0).bind (fun j => (rowToks atom i t).get? j)).map
      (fun l => l.filter (fun c => c.isAlpha))) = some atom
    simp only [Option.some_bind]
    rw [show (rowToks atom i t).get? 0 = some (atom ++ natToStr i) from rfl,
      Option.map_some']
    rw [filter_alpha_label atom hs i]
  have hgx : getCoord [(ColKey.label, 0), (ColKey.x, 1), (ColKey.y, 2), (ColKey.z, 3)]
      (rowToks atom i t) ColKey.x = some t.1 := by
    unfold getCoord
    show (((some 1).bind (fun j => (rowToks atom i t).get? j)).bind parseFloat) = some t.1
    simp only [Option.some_bind]
    rw [show (rowToks atom i t).get? 1 = some (fmt6 t.1) from rfl, Option.some_bind,
      parseFloat_fmt6, round6_reps _ hx]
  have hgy : getCoord [(ColKey.label, 0), (ColKey.x, 1), (ColKey.y, 2), (ColKey.z, 3)]
      (rowToks atom i t) ColKey.y = some t.2.1 := by
    unfold getCoord
    show (((some 2).bind (fun j => (rowToks atom i t).get? j)).bind parseFloat) = some t.2.1
    simp only [Option.some_bind]
    rw [show (rowToks atom i t).get? 2 = some (fmt6 t.2.1) from rfl, Option.some_bind,
      parseFloat_fmt6, round6_reps _ hy]
  have hgz : getCoord [(ColKey.label, 0), (ColKey.x, 1), (ColKey.y, 2), (ColKey.z, 3)]
      (rowToks atom i t) ColKey.z = some t.2.2 := by
    unfold getCoord
    show (((some 3).bind (fun j => (rowToks atom i t).get? j)).bind parseFloat) = some t.2.2
    simp only [Option.some_bind]
    rw [show (rowToks atom i t).get? 3 = some (fmt6 t.2.2) from rfl, Option.some_bind,
      parseFloat_fmt6, round6_reps _ hz]
  unfold processAtom
  rw [hsym, Option.some_bind, hgx, Option.some_bind, hgy, Option.some_bind, hgz,
    Option.some_bind]

theorem processAtoms_group (atom : Str) (hs : goodSym atom = true)
    (ts : List (ℚ × ℚ × ℚ)) :
    ∀ (i : Nat) (sp : List (Str × Nat)) (j : Nat) (cs : List (ℚ × ℚ × ℚ)),
      (∀ t ∈ ts, Reps6 t.1 ∧ Reps6 t.2.1 ∧ Reps6 t.2.2) →
      (∀ q ∈ sp, q.1 ≠ atom) →
      (rowTokss atom i ts).foldlM
          (processAtom [(ColKey.label, 0), (ColKey.x, 1), (ColKey.y, 2), (ColKey.z, 3)])
          (sp ++ [(atom, j)], cs) =
        some (sp ++ [(atom, j + ts.length)], cs ++ ts) := by
  induction ts with
  | nil =>
    intro i sp j cs _ _
    show some (sp ++ [(atom, j)], cs) = some (sp ++ [(atom, j + 0)], cs ++ [])
    rw [Nat.add_zero, List.append_nil]
  | cons t ts ih =>
    intro i sp j cs hts hfresh
    obtain ⟨hx, hy, hz⟩ := hts t (List.mem_cons_self _ _)
    show (rowToks atom i t :: rowTokss atom (i + 1) ts).foldlM
        (processAtom [(ColKey.label, 0), (ColKey.x, 1), (ColKey.y, 2), (ColKey.z, 3)])
        (sp ++ [(atom, j)], cs) = _
    rw [List.foldlM_cons, processAtom_rowToks atom hs i t hx hy hz _]
    simp only [Option.bind_eq_bind, Option.some_bind]
    have hinc : speciesIncr (sp ++ [(atom, j)], cs).1 atom = sp ++ [(atom, j + 1)] :=
      speciesIncr_snoc sp atom j hfresh
    rw [hinc]
    rw [ih (i + 1) sp (j + 1) (cs ++ [t])
      (fun a ha => hts a (List.mem_cons_of_mem _ ha)) hfresh]
    rw [show (cs ++ [t]) ++ ts = cs ++ t :: ts from by simp,
      show j + 1 + ts.length = j + (ts.length + 1) from by omega]
    rfl

theorem processAtoms_groups (groups : List (Str × List (ℚ × ℚ × ℚ))) :
    ∀ (sp : List (Str × Nat)) (cs : List (ℚ × ℚ × ℚ)),
      (∀ g ∈ groups, goodSym g.1 = true ∧ g.2 ≠ [] ∧
        ∀ t ∈ g.2, Reps6 t.1 ∧ Reps6 t.2.1 ∧ Reps6 t.2.2) →
      (∀ g ∈ groups, ∀ q ∈ sp, q.1 ≠ g.1) →
      (groups.map (fun g => g.1)).Nodup →
      ((groups.map (fun g => rowTokss g.1 1 g.2)).flatten).foldlM
          (processAtom [(ColKey.label, 0), (ColKey.x, 1), (ColKey.y, 2), (ColKey.z, 3)])
          (sp, cs) =
        some (sp ++ groups.map (fun g => (g.1, g.2.length)),
              cs ++ (groups.map (fun g => g.2)).flatten) := by
  induction groups with
  | nil =>
    intro sp cs _ _ _
    show some (sp, cs) = some (sp ++ [], cs ++ [])
    rw [List.append_nil, List.append_nil]
  | cons g gs ih =>
    intro sp cs hg hfresh hnd
    obtain ⟨hgs, hgne, hgreps⟩ := hg g (List.mem_cons_self _ _)
    rcases List.nodup_cons.mp hnd with ⟨hniq, hnd2⟩
    show ((rowTokss g.1 1 g.2 ++ (gs.map (fun g => rowTokss g.1 1 g.2)).flatten).foldlM
      (processAtom [(ColKey.label, 0), (ColKey.x, 1), (ColKey.y, 2), (ColKey.z, 3)])
      (sp, cs)) = _
    rw [List.foldlM_append]
    cases hts : g.2 with
    | nil => exact absurd hts hgne
    | cons t ts =>
      obtain ⟨hx, hy, hz⟩ := hgreps t (by rw [hts]; exact List.mem_cons_self _ _)
      show ((rowToks g.1 1 t :: rowTokss g.1 2 ts).foldlM
        (processAtom [(ColKey.label, 0), (ColKey.x, 1), (ColKey.y, 2), (ColKey.z, 3)])
        (sp, cs)).bind _ = _
      rw [List.foldlM_cons, processAtom_rowToks g.1 hgs 1 t hx hy hz _]
      simp only [Option.bind_eq_bind, Option.some_bind]
      rw [show speciesIncr (sp, cs).1 g.1 = sp ++ [(g.1, 1)] from
        speciesIncr_fresh sp g.1 (fun q hq => hfresh g (List.mem_cons_self _ _) q hq)]
      rw [processAtoms_group g.1 hgs ts 2 sp 1 (cs ++ [t])
        (fun a ha => hgreps a (by rw [hts]; exact List.mem_cons_of_mem _ ha))
        (fun q hq => hfresh g (List.mem_cons_self _ _) q hq)]
      simp only [Option.some_bind]
      rw [ih (sp ++ [(g.1, 1 + ts.length)]) ((cs ++ [t]) ++ ts)
        (fun a ha => hg a (List.mem_cons_of_mem _ ha)) ?hfr hnd2]
      case hfr =>
        intro g2 hg2 q hq
        rcases List.mem_append.mp hq with hm | hm
        · exact hfresh g2 (List.mem_cons_of_mem _ hg2) q hm
        · rw [List.mem_singleton] at hm
          rw [hm]
          show g.1 ≠ g2.1
          intro he
          refine hniq ?_
          show g.1 ∈ List.map (fun g => g.1) gs
          rw [he]
          exact List.mem_map_of_mem (fun g => g.1) hg2
      rw [show (cs ++ [t]) ++ ts = cs ++ t :: ts from by simp]
      rw [show 1 + ts.length = (t :: ts).length from by simp [Nat.add_comm]]
      rw [← hts]
      simp [List.append_assoc]

end Converter

namespace Converter

theorem pystrip_fmt6 (q : ℚ) : pystrip (fmt6 q) = fmt6 q := by
  refine pystrip_eq_self _ ?_ ?_
  · intro c hc
    exact numChar_not_ws (fmtFixed_numChar 6 q c (List.mem_of_mem_head? (Option.mem_def.mpr hc)))
  · intro c hc
    exact numChar_not_ws (fmtFixed_numChar 6 q c (List.mem_of_mem_getLast? (Option.mem_def.mpr hc)))

theorem parseFloat_strip_fmt6 (q : ℚ) (h : Reps6 q) :
    parseFloat (pystrip (fmt6 q)) = some q := by
  rw [pystrip_fmt6, parseFloat_fmt6, round6_reps q h]

theorem mapM_parseInt_natToStr (ns : List Nat) :
    (ns.map natToStr).mapM parseInt = some (ns.map Int.ofNat) := by
  induction ns with
  | nil => rfl
  | cons n ns ih =>
    rw [List.map_cons, List.mapM_cons, parseInt_natToStr, ih]
    rfl

theorem sum_ofNat_nonneg (ns : List Nat) : 0 ≤ (ns.map Int.ofNat).sum := by
  induction ns with
  | nil => exact le_refl 0
  | cons m ms ih =>
    rw [List.map_cons, List.sum_cons]
    exact add_nonneg (Int.ofNat_nonneg m) ih

theorem sumZ_toNat (ns : List Nat) : (sumZ (ns.map Int.ofNat)).toNat = ns.sum := by
  unfold sumZ
  induction ns with
  | nil => rfl
  | cons n ns ih =>
    rw [List.map_cons, List.sum_cons, List.sum_cons,
      Int.toNat_add (show (0 : ℤ) ≤ Int.ofNat n from Int.ofNat_nonneg n)
        (sum_ofNat_nonneg ns), ih]
    rfl

theorem pysplit_lattice_row (t1 t2 t3 : Str) (h1 : goodTok t1 = true)
    (h2 : goodTok t2 = true) (h3 : goodTok t3 = true) :
    pysplit (joinSpace [t1, t2, t3]) = [t1, t2, t3] :=
  pysplit_joinSpace [t1, t2, t3] (by
    intro t ht
    rcases List.mem_cons.mp ht with rfl | ht
    · exact h1
    rcases List.mem_cons.mp ht with rfl | ht
    · exact h2
    rcases List.mem_cons.mp ht with rfl | ht
    · exact h3
    exact absurd ht (List.not_mem_nil t))

theorem mapM_parseFloat_coordToks (t : ℚ × ℚ × ℚ) (hx : Reps6 t.1) (hy : Reps6 t.2.1)
    (hz : Reps6 t.2.2) :
    ([fmt6 t.1, fmt6 t.2.1, fmt6 t.2.2]).mapM parseFloat = some (tripleToList t) := by
  rw [List.mapM_cons, parseFloat_fmt6, round6_reps _ hx]
  rw [List.mapM_cons, parseFloat_fmt6, round6_reps _ hy]
  rw [List.mapM_cons, parseFloat_fmt6, round6_reps _ hz]
  rfl

theorem readCoords_append (ts : List (ℚ × ℚ × ℚ))
    (hreps : ∀ t ∈ ts, Reps6 t.1 ∧ Reps6 t.2.1 ∧ Reps6 t.2.2) :
    ∀ pre : List Str,
      readCoords (pre ++ ts.map mkCoordLine) pre.length ts.length =
        some (ts.map tripleToList) := by
  induction ts with
  | nil => intro pre; rfl
  | cons t ts ih =>
    intro pre
    obtain ⟨hx, hy, hz⟩ := hreps t (List.mem_cons_self _ _)
    show (((pre ++ mkCoordLine t :: ts.map mkCoordLine).get? pre.length).bind fun l =>
      (((pysplit l).take 3).mapM parseFloat).bind fun row =>
      (readCoords (pre ++ mkCoordLine t :: ts.map mkCoordLine) (pre.length + 1)
        ts.length).map fun rest => row :: rest) = _
    have hget : (pre ++ mkCoordLine t :: ts.map mkCoordLine).get? pre.length =
        some (mkCoordLine t) := by
      rw [List.get?_append_right (Nat.le_refl _)]
      simp
    rw [hget, Option.some_bind]
    have htoks : pysplit (mkCoordLine t) = [fmt6 t.1, fmt6 t.2.1, fmt6 t.2.2] :=
      pysplit_lattice_row _ _ _ (goodTok_fmtFixed 6 _) (goodTok_fmtFixed 6 _)
        (goodTok_fmtFixed 6 _)
    rw [htoks, List.take_of_length_le (by simp),
      mapM_parseFloat_coordToks t hx hy hz, Option.some_bind]
    have hre : pre ++ mkCoordLine t :: ts.map mkCoordLine =
        (pre ++ [mkCoordLine t]) ++ ts.map mkCoordLine := by simp
    have hlen : pre.length + 1 = (pre ++ [mkCoordLine t]).length := by simp
    rw [hre, hlen, ih (fun a ha => hreps a (List.mem_cons_of_mem _ ha))
      (pre ++ [mkCoordLine t])]
    rfl

end Converter

namespace Converter

theorem line_facts_goodTok (t : Str) (h : goodTok t = true) :
    (t ≠ [] ∧ ∀ c, t.getLast? = some c → isWs c = false) ∧ ∀ c ∈ t, c ≠ '\n' :=
  ⟨⟨goodTok_ne_nil h,
    fun c hc => goodTok_wsFree h c (List.mem_of_mem_getLast? (Option.mem_def.mpr hc))⟩,
   fun c hc => not_ws_ne_nl (goodTok_wsFree h c hc)⟩

theorem line_facts_joinSpace (toks : List Str) (hne : toks ≠ [])
    (h : ∀ t ∈ toks, goodTok t = true) :
    (joinSpace toks ≠ [] ∧ ∀ c, (joinSpace toks).getLast? = some c → isWs c = false) ∧
    ∀ c ∈ joinSpace toks, c ≠ '\n' :=
  ⟨joinSpace_last toks hne h,
   fun c hc he => by
     subst he
     exact joinSpace_no_nl toks
       (fun t ht hm => absurd (goodTok_wsFree (h t ht) '\n' hm) (by decide)) hc⟩

theorem mkPoscarInput_lines (title : Str) (s d1 d2 d3 : ℚ)
    (groups : List (Str × List (ℚ × ℚ × ℚ)))
    (htitle : goodTok title = true) (hgne : groups ≠ [])
    (hg : ∀ g ∈ groups, goodSym g.1 = true) :
    pysplitlines (mkPoscarInput title s d1 d2 d3 groups) =
      [title, fmt6 s,
       joinSpace [fmt6 d1, zeroTok, zeroTok],
       joinSpace [zeroTok, fmt6 d2, zeroTok],
       joinSpace [zeroTok, zeroTok, fmt6 d3],
       joinSpace (groups.map (fun g => g.1)),
       joinSpace (groups.map (fun g => natToStr g.2.length)),
       "Direct".data] ++
      ((groups.map (fun g => g.2)).flatten).map mkCoordLine := by
  unfold mkPoscarInput
  have hfacts : ∀ l ∈ ([title, fmt6 s,
       joinSpace [fmt6 d1, zeroTok, zeroTok],
       joinSpace [zeroTok, fmt6 d2, zeroTok],
       joinSpace [zeroTok, zeroTok, fmt6 d3],
       joinSpace (groups.map (fun g => g.1)),
       joinSpace (groups.map (fun g => natToStr g.2.length)),
       "Direct".data] ++
      ((groups.map (fun g => g.2)).flatten).map mkCoordLine),
      (l ≠ [] ∧ ∀ c, l.getLast? = some c → isWs c = false) ∧ ∀ c ∈ l, c ≠ '\n' := by
    intro l hl
    rcases List.mem_append.mp hl with hm | hm
    · rcases List.mem_cons.mp hm with rfl | hm
      · exact line_facts_goodTok _ htitle
      rcases List.mem_cons.mp hm with rfl | hm
      · exact line_facts_goodTok _ (goodTok_fmtFixed 6 s)
      rcases List.mem_cons.mp hm with rfl | hm
      · refine line_facts_joinSpace _ (by simp) ?_
        intro t ht
        rcases List.mem_cons.mp ht with rfl | ht
        · exact goodTok_fmtFixed 6 d1
        rcases List.mem_cons.mp ht with rfl | ht
        · decide
        rcases List.mem_cons.mp ht with rfl | ht
        · decide
        exact absurd ht (List.not_mem_nil t)
      rcases List.mem_cons.mp hm with rfl | hm
      · refine line_facts_joinSpace _ (by simp) ?_
        intro t ht
        rcases List.mem_cons.mp ht with rfl | ht
        · decide
        rcases List.mem_cons.mp ht with rfl | ht
        · exact goodTok_fmtFixed 6 d2
        rcases List.mem_cons.mp ht with rfl | ht
        · decide
        exact absurd ht (List.not_mem_nil t)
      rcases List.mem_cons.mp hm with rfl | hm
      · refine line_facts_joinSpace _ (by simp) ?_
        intro t ht
        rcases List.mem_cons.mp ht with rfl | ht
        · decide
        rcases List.mem_cons.mp ht with rfl | ht
        · decide
        rcases List.mem_cons.mp ht with rfl | ht
        · exact goodTok_fmtFixed 6 d3
        exact absurd ht (List.not_mem_nil t)
      rcases List.mem_cons.mp hm with rfl | hm
      · refine line_facts_joinSpace _ (by simpa using hgne) ?_
        intro t ht
        rcases List.mem_map.mp ht with ⟨g, hgm, rfl⟩
        exact goodSym_goodTok (hg g hgm)
      rcases List.mem_cons.mp hm with rfl | hm
      · refine line_facts_joinSpace _ (by simpa using hgne) ?_
        intro t ht
        rcases List.mem_map.mp ht with ⟨g, _, rfl⟩
        exact goodTok_natToStr g.2.length
      rcases List.mem_cons.mp hm with rfl | hm
      · exact line_facts_goodTok _ (by decide)
      exact absurd hm (List.not_mem_nil l)
    · rcases List.mem_map.mp hm with ⟨t, _, rfl⟩
      refine line_facts_joinSpace _ (by simp [mkCoordLine]) ?_
      intro u hu
      rcases List.mem_cons.mp hu with rfl | hu
      · exact goodTok_fmtFixed 6 _
      rcases List.mem_cons.mp hu with rfl | hu
      · exact goodTok_fmtFixed 6 _
      rcases List.mem_cons.mp hu with rfl | hu
      · exact goodTok_fmtFixed 6 _
      exact absurd hu (List.not_mem_nil u)
  simp only [List.cons_append, List.nil_append] at hfacts ⊢
  refine pysplitlines_joinNL _ (by simp) ?_
    (joinNL_last _ (by simp) (fun l hl => (hfacts l hl).1)).2
    (joinNL_last _ (by simp) (fun l hl => (hfacts l hl).1)).1
    (fun l hl => (hfacts l hl).2)
  rw [joinNL_head title _ (goodTok_ne_nil htitle)]
  intro c hc
  exact goodTok_wsFree htitle c (List.mem_of_mem_head? (Option.mem_def.mpr hc))

end Converter

namespace Converter

theorem parsePoscar_mkPoscarInput (title : Str) (s d1 d2 d3 : ℚ)
    (groups : List (Str × List (ℚ × ℚ × ℚ)))
    (htitle : goodTok title = true)
    (hs : Reps6 s) (hd1 : Reps6 d1) (hd2 : Reps6 d2) (hd3 : Reps6 d3)
    (hgne : groups ≠ [])
    (hg : ∀ g ∈ groups, goodSym g.1 = true)
    (hreps : ∀ g ∈ groups, ∀ t ∈ g.2, Reps6 t.1 ∧ Reps6 t.2.1 ∧ Reps6 t.2.2) :
    parsePoscar (pysplitlines (mkPoscarInput title s d1 d2 d3 groups)) =
      some ⟨title, s, [d1, 0, 0], [0, d2, 0], [0, 0, d3],
            groups.map (fun g => g.1),
            (groups.map (fun g => g.2.length)).map Int.ofNat,
            ((groups.map (fun g => g.2)).flatten).map tripleToList⟩ := by
  rw [mkPoscarInput_lines title s d1 d2 d3 groups htitle hgne hg]
  have hrow1 : ((pysplit (joinSpace [fmt6 d1, zeroTok, zeroTok])).mapM parseFloat) =
      some [d1, 0, 0] := by
    rw [pysplit_lattice_row (fmt6 d1) zeroTok zeroTok
      (show goodTok (fmt6 d1) = true from goodTok_fmtFixed 6 d1) (by decide) (by decide),
      List.mapM_cons, parseFloat_fmt6, round6_reps _ hd1, List.mapM_cons, parseFloat_zeroTok,
      List.mapM_cons, parseFloat_zeroTok]
    rfl
  have hrow2 : ((pysplit (joinSpace [zeroTok, fmt6 d2, zeroTok])).mapM parseFloat) =
      some [0, d2, 0] := by
    rw [pysplit_lattice_row zeroTok (fmt6 d2) zeroTok (by decide)
      (show goodTok (fmt6 d2) = true from goodTok_fmtFixed 6 d2) (by decide),
      List.mapM_cons, parseFloat_zeroTok, List.mapM_cons, parseFloat_fmt6,
      round6_reps _ hd2, List.mapM_cons, parseFloat_zeroTok]
    rfl
  have hrow3 : ((pysplit (joinSpace [zeroTok, zeroTok, fmt6 d3])).mapM parseFloat) =
      some [0, 0, d3] := by
    rw [pysplit_lattice_row zeroTok zeroTok (fmt6 d3) (by decide) (by decide)
      (show goodTok (fmt6 d3) = true from goodTok_fmtFixed 6 d3),
      List.mapM_cons, parseFloat_zeroTok, List.mapM_cons, parseFloat_zeroTok,
      List.mapM_cons, parseFloat_fmt6, round6_reps _ hd3]
    rfl
  have hcounts : ((pysplit (joinSpace (groups.map (fun g => natToStr g.2.length)))).mapM
      parseInt) = some ((groups.map (fun g => g.2.length)).map Int.ofNat) := by
    rw [pysplit_joinSpace _ (fun t ht => by
      rcases List.mem_map.mp ht with ⟨g, _, rfl⟩
      exact goodTok_natToStr g.2.length)]
    rw [show groups.map (fun g => natToStr g.2.length) =
      (groups.map (fun g => g.2.length)).map natToStr from by rw [List.map_map]; rfl]
    exact mapM_parseInt_natToStr _
  have hsyms : pysplit (joinSpace (groups.map (fun g => g.1))) = groups.map (fun g => g.1) :=
    pysplit_joinSpace _ (fun t ht => by
      rcases List.mem_map.mp ht with ⟨g, hgm, rfl⟩
      exact goodSym_goodTok (hg g hgm))
  have hreps2 : ∀ t ∈ (groups.map (fun g => g.2)).flatten,
      Reps6 t.1 ∧ Reps6 t.2.1 ∧ Reps6 t.2.2 := by
    intro t ht
    rcases List.mem_flatten.mp ht with ⟨l, hl, htl⟩
    rcases List.mem_map.mp hl with ⟨g, hgm, rfl⟩
    exact hreps g hgm t htl
  have hlen : ((groups.map (fun g => g.2)).flatten).length =
      (groups.map (fun g => g.2.length)).sum := by
    rw [List.length_flatten, List.map_map]
    rfl
  unfold parsePoscar
  show (Option.bind (parseFloat (pystrip (fmt6 s))) fun scale =>
    Option.bind ((pysplit (joinSpace [fmt6 d1, zeroTok, zeroTok])).mapM parseFloat) fun w1 =>
    Option.bind ((pysplit (joinSpace [zeroTok, fmt6 d2, zeroTok])).mapM parseFloat) fun w2 =>
    Option.bind ((pysplit (joinSpace [zeroTok, zeroTok, fmt6 d3])).mapM parseFloat) fun w3 =>
    parsePoscar.parsePoscarTail
      ([title, fmt6 s,
       joinSpace [fmt6 d1, zeroTok, zeroTok],
       joinSpace [zeroTok, fmt6 d2, zeroTok],
       joinSpace [zeroTok, zeroTok, fmt6 d3],
       joinSpace (groups.map (fun g => g.1)),
       joinSpace (groups.map (fun g => natToStr g.2.length)),
       "Direct".data] ++
      ((groups.map (fun g => g.2)).flatten).map mkCoordLine)
      title scale w1 w2 w3) = _
  rw [parseFloat_strip_fmt6 s hs, Option.some_bind, hrow1, Option.some_bind,
    hrow2, Option.some_bind, hrow3, Option.some_bind]
  unfold parsePoscar.parsePoscarTail
  show (Option.bind ((pysplit (joinSpace (groups.map (fun g => natToStr g.2.length)))).mapM
      parseInt) fun atomCounts =>
    Option.bind (readCoords
      ([title, fmt6 s,
       joinSpace [fmt6 d1, zeroTok, zeroTok],
       joinSpace [zeroTok, fmt6 d2, zeroTok],
       joinSpace [zeroTok, zeroTok, fmt6 d3],
       joinSpace (groups.map (fun g => g.1)),
       joinSpace (groups.map (fun g => natToStr g.2.length)),
       "Direct".data] ++
      ((groups.map (fun g => g.2)).flatten).map mkCoordLine)
      8 (sumZ atomCounts).toNat) fun coords =>
    some ({ title := title, scale := s, row1 := [d1, 0, 0], row2 := [0, d2, 0], row3 := [0, 0, d3], types := pysplit (joinSpace (groups.map (fun g => g.1))), counts := atomCounts, coords := coords } : PoscarDoc)) = _
  rw [hcounts, Option.some_bind, sumZ_toNat, ← hlen]
  rw [show (8 : Nat) = ([title, fmt6 s,
       joinSpace [fmt6 d1, zeroTok, zeroTok],
       joinSpace [zeroTok, fmt6 d2, zeroTok],
       joinSpace [zeroTok, zeroTok, fmt6 d3],
       joinSpace (groups.map (fun g => g.1)),
       joinSpace (groups.map (fun g => natToStr g.2.length)),
       "Direct".data] : List Str).length from rfl]
  rw [readCoords_append ((groups.map (fun g => g.2)).flatten) hreps2
    [title, fmt6 s,
     joinSpace [fmt6 d1, zeroTok, zeroTok],
     joinSpace [zeroTok, fmt6 d2, zeroTok],
     joinSpace [zeroTok, zeroTok, fmt6 d3],
     joinSpace (groups.map (fun g => g.1)),
     joinSpace (groups.map (fun g => natToStr g.2.length)),
     "Direct".data], Option.some_bind, hsyms]

end Converter

namespace Converter

theorem poscar_to_cif_mkPoscarInput (title : Str) (s d1 d2 d3 : ℚ)
    (groups : List (Str × List (ℚ × ℚ × ℚ)))
    (htitle : goodTok title = true)
    (hs : Reps6 s) (hd1 : Reps6 d1) (hd2 : Reps6 d2) (hd3 : Reps6 d3)
    (hs0 : s ≠ 0) (h10 : d1 ≠ 0) (h20 : d2 ≠ 0) (h30 : d3 ≠ 0)
    (hgne : groups ≠ [])
    (hg : ∀ g ∈ groups, goodSym g.1 = true)
    (hreps : ∀ g ∈ groups, ∀ t ∈ g.2, Reps6 t.1 ∧ Reps6 t.2.1 ∧ Reps6 t.2.2) :
    poscar_to_cif (mkPoscarInput title s d1 d2 d3 groups) =
      some (joinNL (cifHeaderLines title (|s * d1|) (|s * d2|) (|s * d3|) 90 90 90 ++
        (groups.map (fun g => rowTexts g.1 1 g.2)).flatten)) := by
  have hp := parsePoscar_mkPoscarInput title s d1 d2 d3 groups htitle hs hd1 hd2 hd3
    hgne hg hreps
  have hva : vector_norm (List.map (fun x => s * x) [d1, 0, 0]) = |s * d1| := by
    refine vector_norm_of_sumSq (|s * d1|) _ ?_ (abs_nonneg _)
    rw [abs_mul_abs_self]
    norm_num [sumSq]
  have hvb : vector_norm (List.map (fun x => s * x) [0, d2, 0]) = |s * d2| := by
    refine vector_norm_of_sumSq (|s * d2|) _ ?_ (abs_nonneg _)
    rw [abs_mul_abs_self]
    norm_num [sumSq]
  have hvc : vector_norm (List.map (fun x => s * x) [0, 0, d3]) = |s * d3| := by
    refine vector_norm_of_sumSq (|s * d3|) _ ?_ (abs_nonneg _)
    rw [abs_mul_abs_self]
    norm_num [sumSq]
  have hang1 : angle_between (List.map (fun x => s * x) [0, d2, 0])
      (List.map (fun x => s * x) [0, 0, d3]) = some 90 := by
    refine angle_between_orth _ _ ?_ ?_ ?_
    · rw [hvb]; exact abs_ne_zero.mpr (mul_ne_zero hs0 h20)
    · rw [hvc]; exact abs_ne_zero.mpr (mul_ne_zero hs0 h30)
    · norm_num [dot_product]
  have hang2 : angle_between (List.map (fun x => s * x) [d1, 0, 0])
      (List.map (fun x => s * x) [0, 0, d3]) = some 90 := by
    refine angle_between_orth _ _ ?_ ?_ ?_
    · rw [hva]; exact abs_ne_zero.mpr (mul_ne_zero hs0 h10)
    · rw [hvc]; exact abs_ne_zero.mpr (mul_ne_zero hs0 h30)
    · norm_num [dot_product]
  have hang3 : angle_between (List.map (fun x => s * x) [d1, 0, 0])
      (List.map (fun x => s * x) [0, d2, 0]) = some 90 := by
    refine angle_between_orth _ _ ?_ ?_ ?_
    · rw [hva]; exact abs_ne_zero.mpr (mul_ne_zero hs0 h10)
    · rw [hvb]; exact abs_ne_zero.mpr (mul_ne_zero hs0 h20)
    · norm_num [dot_product]
  have hzip : (groups.map (fun g => g.1)).zip ((groups.map (fun g => g.2.length)).map
      Int.ofNat) = groups.map (fun g => (g.1, (g.2.length : ℤ))) := by
    rw [List.map_map, List.zip_map']
    rfl
  have hcoords : ((groups.map (fun g => g.2)).flatten).map tripleToList =
      (groups.map (fun g => g.2.map tripleToList)).flatten := by
    rw [List.map_flatten, List.map_map]
    rfl
  have hemit : emitAtoms ((groups.map (fun g => g.1)).zip
      ((groups.map (fun g => g.2.length)).map Int.ofNat))
      (((groups.map (fun g => g.2)).flatten).map tripleToList) =
      some ((groups.map (fun g => rowTexts g.1 1 g.2)).flatten) := by
    rw [hzip, hcoords]
    exact emitAtoms_exact groups
  simp only [poscar_to_cif, hp, Option.bind_eq_bind, Option.some_bind, hang1, hang2, hang3,
    hemit, hva, hvb, hvc]

end Converter

namespace Converter

theorem pystrip_goodTok {t : Str} (h : goodTok t = true) : pystrip t = t :=
  pystrip_eq_self t
    (fun c hc => goodTok_wsFree h c (List.mem_of_mem_head? (Option.mem_def.mpr hc)))
    (fun c hc => goodTok_wsFree h c (List.mem_of_mem_getLast? (Option.mem_def.mpr hc)))

theorem scanLine_skip_concrete (l : Str)
    (hstrip : pystrip l = l)
    (hkw : ∀ kw ∈ scanKws, strContains l kw = false) :
    ∀ st : ScanState, st.reading_atoms = false → scanLine st l = some st := by
  intro st hre
  unfold scanLine
  rw [hstrip]
  exact scanLineCore_noKw_skip st l hkw (Or.inr (Or.inr hre))

theorem scanLine_lenA (st : ScanState) (q : ℚ) :
    scanLine st ("_cell_length_a    ".data ++ fmt6 q) = some { st with a := round6 q } := by
  unfold scanLine
  rw [show "_cell_length_a    ".data ++ fmt6 q =
    "_cell_length_a   ".data ++ ' ' :: fmt6 q from rfl]
  rw [pystrip_eq_self _ ?hd ?lt]
  case hd =>
    intro c hc
    rw [head?_append_ne_nil _ _ (by decide)] at hc
    cases Option.some_inj.mp hc
    decide
  case lt =>
    intro c hc
    rw [show ' ' :: fmt6 q = [' '] ++ fmt6 q from rfl,
      List.getLast?_append_of_ne_nil _ (show [' '] ++ fmt6 q ≠ [] from by simp),
      List.getLast?_append_of_ne_nil [' '] (show fmt6 q ≠ [] from fmtFixed_ne_nil 6 q)] at hc
    exact numChar_not_ws (fmtFixed_numChar 6 q c (List.mem_of_mem_getLast? (Option.mem_def.mpr hc)))
  rw [scanLineCore_cif_lenA st (fmt6 q) (fmtFixed_numChar 6 q) (fmtFixed_ne_nil 6 q),
    parseFloat_fmt6, Option.map_some']
  rfl

theorem scanLine_lenB (st : ScanState) (q : ℚ) :
    scanLine st ("_cell_length_b    ".data ++ fmt6 q) = some { st with b := round6 q } := by
  unfold scanLine
  rw [show "_cell_length_b    ".data ++ fmt6 q =
    "_cell_length_b   ".data ++ ' ' :: fmt6 q from rfl]
  rw [pystrip_eq_self _ ?hd ?lt]
  case hd =>
    intro c hc
    rw [head?_append_ne_nil _ _ (by decide)] at hc
    cases Option.some_inj.mp hc
    decide
  case lt =>
    intro c hc
    rw [show ' ' :: fmt6 q = [' '] ++ fmt6 q from rfl,
      List.getLast?_append_of_ne_nil _ (show [' '] ++ fmt6 q ≠ [] from by simp),
      List.getLast?_append_of_ne_nil [' '] (show fmt6 q ≠ [] from fmtFixed_ne_nil 6 q)] at hc
    exact numChar_not_ws (fmtFixed_numChar 6 q c (List.mem_of_mem_getLast? (Option.mem_def.mpr hc)))
  rw [scanLineCore_cif_lenB st (fmt6 q) (fmtFixed_numChar 6 q) (fmtFixed_ne_nil 6 q),
    parseFloat_fmt6, Option.map_some']
  rfl

theorem scanLine_lenC (st : ScanState) (q : ℚ) :
    scanLine st ("_cell_length_c    ".data ++ fmt6 q) = some { st with c := round6 q } := by
  unfold scanLine
  rw [show "_cell_length_c    ".data ++ fmt6 q =
    "_cell_length_c   ".data ++ ' ' :: fmt6 q from rfl]
  rw [pystrip_eq_self _ ?hd ?lt]
  case hd =>
    intro c hc
    rw [head?_append_ne_nil _ _ (by decide)] at hc
    cases Option.some_inj.mp hc
    decide
  case lt =>
    intro c hc
    rw [show ' ' :: fmt6 q = [' '] ++ fmt6 q from rfl,
      List.getLast?_append_of_ne_nil _ (show [' '] ++ fmt6 q ≠ [] from by simp),
      List.getLast?_append_of_ne_nil [' '] (show fmt6 q ≠ [] from fmtFixed_ne_nil 6 q)] at hc
    exact numChar_not_ws (fmtFixed_numChar 6 q c (List.mem_of_mem_getLast? (Option.mem_def.mpr hc)))
  rw [scanLineCore_cif_lenC st (fmt6 q) (fmtFixed_numChar 6 q) (fmtFixed_ne_nil 6 q),
    parseFloat_fmt6, Option.map_some']
  rfl

theorem scanLine_angAlpha (st : ScanState) :
    scanLine st "_cell_angle_alpha 90.00".data = some { st with alpha := 90 } := by
  unfold scanLine
  rw [show pystrip "_cell_angle_alpha 90.00".data = "_cell_angle_alpha 90.00".data
    from by decide]
  rw [show ("_cell_angle_alpha 90.00".data : Str) =
    "_cell_angle_alpha".data ++ ' ' :: "90.00".data from by decide]
  rw [scanLineCore_cif_angAlpha st "90.00".data (by decide) (by decide), parseFloat_9000,
    Option.map_some']
  rfl

theorem scanLine_angBeta (st : ScanState) :
    scanLine st "_cell_angle_beta  90.00".data = some { st with beta := 90 } := by
  unfold scanLine
  rw [show pystrip "_cell_angle_beta  90.00".data = "_cell_angle_beta  90.00".data
    from by decide]
  rw [show ("_cell_angle_beta  90.00".data : Str) =
    "_cell_angle_beta ".data ++ ' ' :: "90.00".data from by decide]
  rw [scanLineCore_cif_angBeta st "90.00".data (by decide) (by decide), parseFloat_9000,
    Option.map_some']
  rfl

theorem scanLine_angGamma (st : ScanState) :
    scanLine st "_cell_angle_gamma 90.00".data = some { st with gamma := 90 } := by
  unfold scanLine
  rw [show pystrip "_cell_angle_gamma 90.00".data = "_cell_angle_gamma 90.00".data
    from by decide]
  rw [show ("_cell_angle_gamma 90.00".data : Str) =
    "_cell_angle_gamma".data ++ ' ' :: "90.00".data from by decide]
  rw [scanLineCore_cif_angGamma st "90.00".data (by decide) (by decide), parseFloat_9000,
    Option.map_some']
  rfl

theorem scanLine_loop (st : ScanState) :
    scanLine st "loop_".data =
      some { st with reading_atoms := false, column_indices := [] } := by
  unfold scanLine
  rw [show pystrip "loop_".data = "loop_".data from by decide]
  exact scanLineCore_loop st

theorem scanLine_hdr_label (st : ScanState) :
    scanLine st "  _atom_site_label".data =
      some { st with
             reading_atoms := true,
             column_indices := dictSet st.column_indices ColKey.label
               st.column_indices.length } := by
  unfold scanLine
  rw [show pystrip "  _atom_site_label".data = hdrText false ColKey.label from by decide]
  exact scanLineCore_hdr st false ColKey.label

theorem scanLine_hdr_x (st : ScanState) :
    scanLine st "  _atom_site_fract_x".data =
      some { st with
             reading_atoms := true,
             column_indices := dictSet st.column_indices ColKey.x
               st.column_indices.length } := by
  unfold scanLine
  rw [show pystrip "  _atom_site_fract_x".data = hdrText false ColKey.x from by decide]
  exact scanLineCore_hdr st false ColKey.x

theorem scanLine_hdr_y (st : ScanState) :
    scanLine st "  _atom_site_fract_y".data =
      some { st with
             reading_atoms := true,
             column_indices := dictSet st.column_indices ColKey.y
               st.column_indices.length } := by
  unfold scanLine
  rw [show pystrip "  _atom_site_fract_y".data = hdrText false ColKey.y from by decide]
  exact scanLineCore_hdr st false ColKey.y

theorem scanLine_hdr_z (st : ScanState) :
    scanLine st "  _atom_site_fract_z".data =
      some { st with
             reading_atoms := true,
             column_indices := dictSet st.column_indices ColKey.z
               st.column_indices.length } := by
  unfold scanLine
  rw [show pystrip "  _atom_site_fract_z".data = hdrText false ColKey.z from by decide]
  exact scanLineCore_hdr st false ColKey.z

theorem scan_cif_header (title : Str) (aL bL cL : ℚ)
    (htitle : goodTok title = true)
    (hkw : ∀ kw ∈ scanKws, strContains title kw = false) :
    ([title,
      "_symmetry_space_group_name_H-M   'P 1'".data,
      "_symmetry_Int_Tables_number      1".data,
      "_cell_length_a    ".data ++ fmt6 aL,
      "_cell_length_b    ".data ++ fmt6 bL,
      "_cell_length_c    ".data ++ fmt6 cL,
      "_cell_angle_alpha 90.00".data,
      "_cell_angle_beta  90.00".data,
      "_cell_angle_gamma 90.00".data,
      "loop_".data,
      "  _atom_site_label".data,
      "  _atom_site_fract_x".data,
      "  _atom_site_fract_y".data,
      "  _atom_site_fract_z".data] : List Str).foldlM scanLine initScan =
      some ⟨round6 aL, round6 bL, round6 cL, 90, 90, 90, [], true,
        [(ColKey.label, 0), (ColKey.x, 1), (ColKey.y, 2), (ColKey.z, 3)]⟩ := by
  rw [List.foldlM_cons,
    scanLine_skip_concrete title (pystrip_goodTok htitle) hkw initScan rfl]
  simp only [Option.bind_eq_bind, Option.some_bind]
  rw [List.foldlM_cons, scanLine_skip_concrete _ (by decide) (by decide) initScan rfl]
  simp only [Option.bind_eq_bind, Option.some_bind]
  rw [List.foldlM_cons, scanLine_skip_concrete _ (by decide) (by decide) initScan rfl]
  simp only [Option.bind_eq_bind, Option.some_bind]
  rw [List.foldlM_cons, scanLine_lenA]
  simp only [Option.bind_eq_bind, Option.some_bind]
  rw [List.foldlM_cons, scanLine_lenB]
  simp only [Option.bind_eq_bind, Option.some_bind]
  rw [List.foldlM_cons, scanLine_lenC]
  simp only [Option.bind_eq_bind, Option.some_bind]
  rw [List.foldlM_cons, scanLine_angAlpha]
  simp only [Option.bind_eq_bind, Option.some_bind]
  rw [List.foldlM_cons, scanLine_angBeta]
  simp only [Option.bind_eq_bind, Option.some_bind]
  rw [List.foldlM_cons, scanLine_angGamma]
  simp only [Option.bind_eq_bind, Option.some_bind]
  rw [List.foldlM_cons, scanLine_loop]
  simp only [Option.bind_eq_bind, Option.some_bind]
  rw [List.foldlM_cons, scanLine_hdr_label]
  simp only [Option.bind_eq_bind, Option.some_bind]
  rw [List.foldlM_cons, scanLine_hdr_x]
  simp only [Option.bind_eq_bind, Option.some_bind]
  rw [List.foldlM_cons, scanLine_hdr_y]
  simp only [Option.bind_eq_bind, Option.some_bind]
  rw [List.foldlM_cons, scanLine_hdr_z]
  simp only [Option.bind_eq_bind, Option.some_bind]
  rfl

end Converter

namespace Converter

theorem mem_rowTexts {atom : Str} {r : Str} (ts : List (ℚ × ℚ × ℚ)) :
    ∀ i, r ∈ rowTexts atom i ts → ∃ j t, t ∈ ts ∧ r = rowText atom j t := by
  induction ts with
  | nil => intro i h; exact absurd h (List.not_mem_nil r)
  | cons t ts ih =>
    intro i h
    rw [show rowTexts atom i (t :: ts) = rowText atom i t :: rowTexts atom (i + 1) ts
      from rfl] at h
    rcases List.mem_cons.mp h with he | h2
    · exact ⟨i, t, List.mem_cons_self _ _, he⟩
    · rcases ih (i + 1) h2 with ⟨j, u, hu, he⟩
      exact ⟨j, u, List.mem_cons_of_mem _ hu, he⟩

theorem rowText_line_facts (atom : Str) (hs : goodSym atom = true) (i : Nat)
    (t : ℚ × ℚ × ℚ) :
    (rowText atom i t ≠ [] ∧ ∀ c, (rowText atom i t).getLast? = some c → isWs c = false) ∧
    ∀ c ∈ rowText atom i t, c ≠ '\n' := by
  refine ⟨⟨?_, ?_⟩, ?_⟩
  · rw [show rowText atom i t = ' ' :: ' ' :: (atom ++ natToStr i ++ ' ' :: fmt6 t.1 ++
      ' ' :: fmt6 t.2.1 ++ ' ' :: fmt6 t.2.2) from rfl]
    simp
  · intro c hc
    unfold rowText at hc
    rw [List.getLast?_append_of_ne_nil _ (show ' ' :: fmt6 t.2.2 ≠ [] from by simp),
      show ' ' :: fmt6 t.2.2 = [' '] ++ fmt6 t.2.2 from rfl,
      List.getLast?_append_of_ne_nil [' '] (show fmt6 t.2.2 ≠ [] from fmtFixed_ne_nil 6 _)]
      at hc
    exact numChar_not_ws (fmtFixed_numChar 6 t.2.2 c
      (List.mem_of_mem_getLast? (Option.mem_def.mpr hc)))
  · intro c hc he
    subst he
    unfold rowText at hc
    rcases List.mem_append.mp hc with hm | hm
    · rcases List.mem_append.mp hm with hm2 | hm2
      · rcases List.mem_append.mp hm2 with hm3 | hm3
        · rcases List.mem_append.mp hm3 with hm4 | hm4
          · rcases List.mem_append.mp hm4 with hm5 | hm5
            · exact absurd hm5 (by decide)
            · exact absurd (goodSym_alpha hs '\n' hm5) (by decide)
          · exact absurd (natToStr_isDigit i '\n' hm4) (by decide)
        · rcases List.mem_cons.mp hm3 with he2 | hm4
          · exact absurd he2 (by decide)
          · exact absurd (fmtFixed_numChar 6 t.1 '\n' hm4) (by decide)
      · rcases List.mem_cons.mp hm2 with he2 | hm4
        · exact absurd he2 (by decide)
        · exact absurd (fmtFixed_numChar 6 t.2.1 '\n' hm4) (by decide)
    · rcases List.mem_cons.mp hm with he2 | hm4
      · exact absurd he2 (by decide)
      · exact absurd (fmtFixed_numChar 6 t.2.2 '\n' hm4) (by decide)

theorem lenline_facts (X : Str) (hXne : X ≠ []) (hXnl : ∀ c ∈ X, c ≠ '\n') (q : ℚ) :
    (X ++ fmt6 q ≠ [] ∧ ∀ c, (X ++ fmt6 q).getLast? = some c → isWs c = false) ∧
    ∀ c ∈ X ++ fmt6 q, c ≠ '\n' := by
  refine ⟨⟨append_ne_nil_left _ hXne, ?_⟩, ?_⟩
  · intro c hc
    rw [List.getLast?_append_of_ne_nil _ (show fmt6 q ≠ [] from fmtFixed_ne_nil 6 q)] at hc
    exact numChar_not_ws (fmtFixed_numChar 6 q c
      (List.mem_of_mem_getLast? (Option.mem_def.mpr hc)))
  · intro c hc he
    subst he
    rcases List.mem_append.mp hc with hm | hm
    · exact hXnl '\n' hm rfl
    · exact absurd (fmtFixed_numChar 6 q '\n' hm) (by decide)

theorem cifHeaderLines_norm (title : Str) (htitle : goodTok title = true) (aL bL cL : ℚ) :
    cifHeaderLines title aL bL cL 90 90 90 =
      [title,
      "_symmetry_space_group_name_H-M   'P 1'".data,
      "_symmetry_Int_Tables_number      1".data,
      "_cell_length_a    ".data ++ fmt6 aL,
      "_cell_length_b    ".data ++ fmt6 bL,
      "_cell_length_c    ".data ++ fmt6 cL,
      "_cell_angle_alpha 90.00".data,
      "_cell_angle_beta  90.00".data,
      "_cell_angle_gamma 90.00".data,
      "loop_".data,
      "  _atom_site_label".data,
      "  _atom_site_fract_x".data,
      "  _atom_site_fract_y".data,
      "  _atom_site_fract_z".data] := by
  unfold cifHeaderLines
  have hmap : title.map (fun ch => if ch = ' ' then '_' else ch) = title.map (fun c => c) :=
    List.map_congr_left (fun c hc => by
      rw [if_neg]
      intro he
      have hws := goodTok_wsFree htitle c hc
      rw [he] at hws
      exact absurd hws (by decide))
  rw [hmap, List.map_id', fmt2_90]
  rfl

theorem cif_to_poscar_of_cif (title : Str) (aL bL cL : ℚ)
    (groups : List (Str × List (ℚ × ℚ × ℚ)))
    (htitle : goodTok title = true)
    (hkw : ∀ kw ∈ scanKws, strContains title kw = false)
    (hdata : "data_".data.isPrefixOf title = false)
    (hg : ∀ g ∈ groups, goodSym g.1 = true ∧ g.2 ≠ [] ∧
      ∀ t ∈ g.2, Reps6 t.1 ∧ Reps6 t.2.1 ∧ Reps6 t.2.2)
    (hnd : (groups.map (fun g => g.1)).Nodup) :
    cif_to_poscar (joinNL (cifHeaderLines title aL bL cL 90 90 90 ++
        (groups.map (fun g => rowTexts g.1 1 g.2)).flatten)) =
      some (terminateLines (renderPoscarLines title (round6 aL) (round6 bL) (round6 cL)
        (groups.map (fun g => (g.1, g.2.length)))
        ((groups.map (fun g => g.2)).flatten))) := by
  rw [cifHeaderLines_norm title htitle aL bL cL]
  have hrowfacts : ∀ r ∈ (groups.map (fun g => rowTexts g.1 1 g.2)).flatten,
      ∃ g, g ∈ groups ∧ ∃ j t, r = rowText g.1 j t := by
    intro r hr
    rcases List.mem_flatten.mp hr with ⟨l, hl, hrl⟩
    rcases List.mem_map.mp hl with ⟨g, hgm, rfl⟩
    rcases mem_rowTexts g.2 1 hrl with ⟨j, t, _, he⟩
    exact ⟨g, hgm, j, t, he⟩
  have hlf : ∀ l ∈ ([title,
      "_symmetry_space_group_name_H-M   'P 1'".data,
      "_symmetry_Int_Tables_number      1".data,
      "_cell_length_a    ".data ++ fmt6 aL,
      "_cell_length_b    ".data ++ fmt6 bL,
      "_cell_length_c    ".data ++ fmt6 cL,
      "_cell_angle_alpha 90.00".data,
      "_cell_angle_beta  90.00".data,
      "_cell_angle_gamma 90.00".data,
      "loop_".data,
      "  _atom_site_label".data,
      "  _atom_site_fract_x".data,
      "  _atom_site_fract_y".data,
      "  _atom_site_fract_z".data] ++
      (groups.map (fun g => rowTexts g.1 1 g.2)).flatten),
      (l ≠ [] ∧ ∀ c, l.getLast? = some c → isWs c = false) ∧ ∀ c ∈ l, c ≠ '\n' := by
    intro l hl
    rcases List.mem_append.mp hl with hm | hm
    · rcases List.mem_cons.mp hm with rfl | hm
      · exact ⟨(line_facts_goodTok _ htitle).1, (line_facts_goodTok _ htitle).2⟩
      rcases List.mem_cons.mp hm with rfl | hm
      · exact ⟨⟨by decide, by decide⟩, by decide⟩
      rcases List.mem_cons.mp hm with rfl | hm
      · exact ⟨⟨by decide, by decide⟩, by decide⟩
      rcases List.mem_cons.mp hm with rfl | hm
      · exact lenline_facts _ (by decide) (by decide) aL
      rcases List.mem_cons.mp hm with rfl | hm
      · exact lenline_facts _ (by decide) (by decide) bL
      rcases List.mem_cons.mp hm with rfl | hm
      · exact lenline_facts _ (by decide) (by decide) cL
      rcases List.mem_cons.mp hm with rfl | hm
      · exact ⟨⟨by decide, by decide⟩, by decide⟩
      rcases List.mem_cons.mp hm with rfl | hm
      · exact ⟨⟨by decide, by decide⟩, by decide⟩
      rcases List.mem_cons.mp hm with rfl | hm
      · exact ⟨⟨by decide, by decide⟩, by decide⟩
      rcases List.mem_cons.mp hm with rfl | hm
      · exact ⟨⟨by decide, by decide⟩, by decide⟩
      rcases List.mem_cons.mp hm with rfl | hm
      · exact ⟨⟨by decide, by decide⟩, by decide⟩
      rcases List.mem_cons.mp hm with rfl | hm
      · exact ⟨⟨by decide, by decide⟩, by decide⟩
      rcases List.mem_cons.mp hm with rfl | hm
      · exact ⟨⟨by decide, by decide⟩, by decide⟩
      rcases List.mem_cons.mp hm with rfl | hm
      · exact ⟨⟨by decide, by decide⟩, by decide⟩
      exact absurd hm (List.not_mem_nil l)
    · rcases hrowfacts l hm with ⟨g, hgm, j, t, he⟩
      rw [he]
      exact rowText_line_facts g.1 (hg g hgm).1 j t
  have hsplit : pysplitlines (joinNL ([title,
      "_symmetry_space_group_name_H-M   'P 1'".data,
      "_symmetry_Int_Tables_number      1".data,
      "_cell_length_a    ".data ++ fmt6 aL,
      "_cell_length_b    ".data ++ fmt6 bL,
      "_cell_length_c    ".data ++ fmt6 cL,
      "_cell_angle_alpha 90.00".data,
      "_cell_angle_beta  90.00".data,
      "_cell_angle_gamma 90.00".data,
      "loop_".data,
      "  _atom_site_label".data,
      "  _atom_site_fract_x".data,
      "  _atom_site_fract_y".data,
      "  _atom_site_fract_z".data] ++
      (groups.map (fun g => rowTexts g.1 1 g.2)).flatten)) =
      [title,
      "_symmetry_space_group_name_H-M   'P 1'".data,
      "_symmetry_Int_Tables_number      1".data,
      "_cell_length_a    ".data ++ fmt6 aL,
      "_cell_length_b    ".data ++ fmt6 bL,
      "_cell_length_c    ".data ++ fmt6 cL,
      "_cell_angle_alpha 90.00".data,
      "_cell_angle_beta  90.00".data,
      "_cell_angle_gamma 90.00".data,
      "loop_".data,
      "  _atom_site_label".data,
      "  _atom_site_fract_x".data,
      "  _atom_site_fract_y".data,
      "  _atom_site_fract_z".data] ++ (groups.map (fun g => rowTexts g.1 1 g.2)).flatten := by
    simp only [List.cons_append, List.nil_append] at hlf ⊢
    refine pysplitlines_joinNL _ (by simp) ?_
      (joinNL_last _ (by simp) (fun l hl2 => (hlf l hl2).1)).2
      (joinNL_last _ (by simp) (fun l hl2 => (hlf l hl2).1)).1
      (fun l hl2 => (hlf l hl2).2)
    rw [joinNL_head title _ (goodTok_ne_nil htitle)]
    intro c hc
    exact goodTok_wsFree htitle c (List.mem_of_mem_head? (Option.mem_def.mpr hc))
  have hrowconds : ∀ r ∈ (groups.map (fun g => rowTexts g.1 1 g.2)).flatten,
      (∀ kw ∈ scanKws, strContains (pystrip r) kw = false) ∧
      (pystrip r).isEmpty = false ∧
      ['#'].isPrefixOf (pystrip r) = false ∧
      ['*'].isPrefixOf (pystrip r) = false ∧
      ['_'].isPrefixOf (pystrip r) = false ∧
      (pysplit (pystrip r)).length ≥ 3 + 1 := by
    intro r hr
    rcases hrowfacts r hr with ⟨g, hgm, j, t, he⟩
    rw [he]
    exact rowText_scan_conditions g.1 (hg g hgm).1 j t
  have hmapflat : ((groups.map (fun g => rowTexts g.1 1 g.2)).flatten).map
      (fun r => pysplit (pystrip r)) = (groups.map (fun g => rowTokss g.1 1 g.2)).flatten := by
    rw [List.map_flatten, List.map_map]
    congr 1
    refine List.map_congr_left ?_
    intro g hgm
    exact map_pysplit_rowTexts g.1 (hg g hgm).1 g.2 1
  simp only [cif_to_poscar, hsplit]
  rw [show (([title,
      "_symmetry_space_group_name_H-M   'P 1'".data,
      "_symmetry_Int_Tables_number      1".data,
      "_cell_length_a    ".data ++ fmt6 aL,
      "_cell_length_b    ".data ++ fmt6 bL,
      "_cell_length_c    ".data ++ fmt6 cL,
      "_cell_angle_alpha 90.00".data,
      "_cell_angle_beta  90.00".data,
      "_cell_angle_gamma 90.00".data,
      "loop_".data,
      "  _atom_site_label".data,
      "  _atom_site_fract_x".data,
      "  _atom_site_fract_y".data,
      "  _atom_site_fract_z".data] : List Str) ++
    (groups.map (fun g => rowTexts g.1 1 g.2)).flatten).head? = some title from rfl]
  simp only [Option.some_bind]
  rw [List.foldlM_append, scan_cif_header title aL bL cL htitle hkw]
  simp only [Option.bind_eq_bind, Option.some_bind]
  rw [scan_data_rows ((groups.map (fun g => rowTexts g.1 1 g.2)).flatten)
    (⟨round6 aL, round6 bL, round6 cL, 90, 90, 90, [], true,
      [(ColKey.label, 0), (ColKey.x, 1), (ColKey.y, 2), (ColKey.z, 3)]⟩ : ScanState)
    3 rfl rfl hrowconds]
  simp only [Option.some_bind]
  rw [hdata]
  simp only [Bool.false_eq_true, if_false]
  rw [show ([] : List (List Str)) ++ ((groups.map (fun g => rowTexts g.1 1 g.2)).flatten).map
    (fun r => pysplit (pystrip r)) = ((groups.map (fun g => rowTexts g.1 1 g.2)).flatten).map
    (fun r => pysplit (pystrip r)) from List.nil_append _, hmapflat]
  rw [show processAtoms [(ColKey.label, 0), (ColKey.x, 1), (ColKey.y, 2), (ColKey.z, 3)]
      ((groups.map (fun g => rowTokss g.1 1 g.2)).flatten) =
      some ([] ++ groups.map (fun g => (g.1, g.2.length)),
            [] ++ (groups.map (fun g => g.2)).flatten) from
    processAtoms_groups groups [] [] hg
      (fun g _ q hq => absurd hq (List.not_mem_nil q)) hnd]
  simp only [Option.map_some', List.nil_append]

end Converter

namespace Converter

/-- C2 — corrected.  For a lattice-format document with a diagonal cell built
from a whitespace-free title, a nonzero 6-decimal scale and nonzero
6-decimal diagonal entries, and nonempty species groups with distinct
alphabetic symbols and 6-decimal coordinates, composing `poscar_to_cif`
with `cif_to_poscar` yields a lattice-format document whose species counts
and coordinate values are EXACTLY those of the original (same order, hence
the same multiset), and whose cell lengths are the 6-decimal roundings of
the original scaled lengths, hence within 1e-6 of them.  Exact coordinate
preservation requires the 6-decimal hypothesis: a coordinate with more than
six decimals is changed by the `%.6f` formatting (see the counterexample),
so the unrestricted original claim is false. -/
theorem c2_roundtrip_diagonal (title : Str) (s d1 d2 d3 : ℚ)
    (groups : List (Str × List (ℚ × ℚ × ℚ)))
    (htitle : goodTok title = true)
    (hkw : ∀ kw ∈ scanKws, strContains title kw = false)
    (hdata : "data_".data.isPrefixOf title = false)
    (hs : Reps6 s) (hd1 : Reps6 d1) (hd2 : Reps6 d2) (hd3 : Reps6 d3)
    (hs0 : s ≠ 0) (h10 : d1 ≠ 0) (h20 : d2 ≠ 0) (h30 : d3 ≠ 0)
    (hgne : groups ≠ [])
    (hg : ∀ g ∈ groups, goodSym g.1 = true ∧ g.2 ≠ [] ∧
      ∀ t ∈ g.2, Reps6 t.1 ∧ Reps6 t.2.1 ∧ Reps6 t.2.2)
    (hnd : (groups.map (fun g => g.1)).Nodup) :
    ∃ cif, poscar_to_cif (mkPoscarInput title s d1 d2 d3 groups) = some cif ∧
      cif_to_poscar cif =
        some (terminateLines (renderPoscarLines title
          (round6 (abs (s * d1))) (round6 (abs (s * d2))) (round6 (abs (s * d3)))
          (groups.map (fun g => (g.1, g.2.length)))
          ((groups.map (fun g => g.2)).flatten))) ∧
      abs (round6 (abs (s * d1)) - abs (s * d1)) ≤ 1 / 1000000 ∧
      abs (round6 (abs (s * d2)) - abs (s * d2)) ≤ 1 / 1000000 ∧
      abs (round6 (abs (s * d3)) - abs (s * d3)) ≤ 1 / 1000000 := by
  have hg1 : ∀ g ∈ groups, goodSym g.1 = true := fun g hgm => (hg g hgm).1
  have hreps : ∀ g ∈ groups, ∀ t ∈ g.2, Reps6 t.1 ∧ Reps6 t.2.1 ∧ Reps6 t.2.2 :=
    fun g hgm => (hg g hgm).2.2
  refine ⟨_, poscar_to_cif_mkPoscarInput title s d1 d2 d3 groups htitle hs hd1 hd2 hd3
    hs0 h10 h20 h30 hgne hg1 hreps,
    cif_to_poscar_of_cif title _ _ _ groups htitle hkw hdata hg hnd, ?_, ?_, ?_⟩
  · exact le_trans (round6_close _) (by norm_num)
  · exact le_trans (round6_close _) (by norm_num)
  · exact le_trans (round6_close _) (by norm_num)

end Converter


namespace Converter

theorem poscar_to_cif_eq (input : Str) (d : PoscarDoc) (av bv cv alpha beta gamma : ℚ)
    (rows : List Str)
    (hp : parsePoscar (pysplitlines input) = some d)
    (hva : vector_norm (d.row1.map (fun x => d.scale * x)) = av)
    (hvb : vector_norm (d.row2.map (fun x => d.scale * x)) = bv)
    (hvc : vector_norm (d.row3.map (fun x => d.scale * x)) = cv)
    (ha : angle_between (d.row2.map (fun x => d.scale * x))
      (d.row3.map (fun x => d.scale * x)) = some alpha)
    (hb : angle_between (d.row1.map (fun x => d.scale * x))
      (d.row3.map (fun x => d.scale * x)) = some beta)
    (hg : angle_between (d.row1.map (fun x => d.scale * x))
      (d.row2.map (fun x => d.scale * x)) = some gamma)
    (he : emitAtoms (d.types.zip d.counts) d.coords = some rows) :
    poscar_to_cif input =
      some (joinNL (cifHeaderLines d.title av bv cv alpha beta gamma ++ rows)) := by
  simp only [poscar_to_cif, hp, Option.bind_eq_bind, Option.some_bind, ha, hb, hg, he,
    hva, hvb, hvc]

end Converter

namespace Converter

set_option maxRecDepth 8192 in
unseal Nat.gcd Rat.add Rat.mul Rat.inv Rat.sub in
/-- Counterexample to the literal C2: the diagonal-cell document with the
seven-decimal coordinate `0.1234567` round-trips to a document whose
coordinate is `0.123457` — both conversions succeed and the species counts
agree, but the coordinate values differ, because `poscar_to_cif` formats
every coordinate with `%.6f`. -/
theorem c2_counterexample :
    ∃ cif out dIn dOut,
      poscar_to_cif "T\n1.0\n1.0 0.0 0.0\n0.0 1.0 0.0\n0.0 0.0 1.0\nSi\n1\nDirect\n0.1234567 0.2 0.3\n".data = some cif ∧
      cif_to_poscar cif = some out ∧
      parsePoscar (pysplitlines "T\n1.0\n1.0 0.0 0.0\n0.0 1.0 0.0\n0.0 0.0 1.0\nSi\n1\nDirect\n0.1234567 0.2 0.3\n".data) = some dIn ∧
      parsePoscar (pysplitlines out) = some dOut ∧
      dIn.counts = dOut.counts ∧
      dIn.coords = [[1234567/10000000, 1/5, 3/10]] ∧
      dOut.coords = [[123457/1000000, 1/5, 3/10]] ∧
      dIn.coords ≠ dOut.coords := by
  have hp : parsePoscar (pysplitlines "T\n1.0\n1.0 0.0 0.0\n0.0 1.0 0.0\n0.0 0.0 1.0\nSi\n1\nDirect\n0.1234567 0.2 0.3\n".data) =
      some (⟨"T".data, 1, [1, 0, 0], [0, 1, 0], [0, 0, 1], ["Si".data], [1],
        [[1234567/10000000, 1/5, 3/10]]⟩ : PoscarDoc) := by
    decide
  have hva : vector_norm (List.map (fun x => (1 : ℚ) * x) [1, 0, 0]) = 1 :=
    vector_norm_of_sumSq 1 _ (by norm_num [sumSq]) (by norm_num)
  have hvb : vector_norm (List.map (fun x => (1 : ℚ) * x) [0, 1, 0]) = 1 :=
    vector_norm_of_sumSq 1 _ (by norm_num [sumSq]) (by norm_num)
  have hvc : vector_norm (List.map (fun x => (1 : ℚ) * x) [0, 0, 1]) = 1 :=
    vector_norm_of_sumSq 1 _ (by norm_num [sumSq]) (by norm_num)
  have hang1 : angle_between (List.map (fun x => (1 : ℚ) * x) [0, 1, 0])
      (List.map (fun x => (1 : ℚ) * x) [0, 0, 1]) = some 90 :=
    angle_between_orth _ _ (by rw [hvb]; norm_num) (by rw [hvc]; norm_num)
      (by norm_num [dot_product])
  have hang2 : angle_between (List.map (fun x => (1 : ℚ) * x) [1, 0, 0])
      (List.map (fun x => (1 : ℚ) * x) [0, 0, 1]) = some 90 :=
    angle_between_orth _ _ (by rw [hva]; norm_num) (by rw [hvc]; norm_num)
      (by norm_num [dot_product])
  have hang3 : angle_between (List.map (fun x => (1 : ℚ) * x) [1, 0, 0])
      (List.map (fun x => (1 : ℚ) * x) [0, 1, 0]) = some 90 :=
    angle_between_orth _ _ (by rw [hva]; norm_num) (by rw [hvb]; norm_num)
      (by norm_num [dot_product])
  have hemit : emitAtoms (List.zip ["Si".data] ([1] : List ℤ))
      [[1234567/10000000, 1/5, 3/10]] =
      some (([("Si".data, [((123457 : ℚ)/1000000, (1 : ℚ)/5, (3 : ℚ)/10)])].map
        (fun g => rowTexts g.1 1 g.2)).flatten) := by
    decide
  have hpc := poscar_to_cif_eq
    "T\n1.0\n1.0 0.0 0.0\n0.0 1.0 0.0\n0.0 0.0 1.0\nSi\n1\nDirect\n0.1234567 0.2 0.3\n".data
    (⟨"T".data, 1, [1, 0, 0], [0, 1, 0], [0, 0, 1], ["Si".data], [1],
      [[1234567/10000000, 1/5, 3/10]]⟩ : PoscarDoc)
    1 1 1 90 90 90
    (([("Si".data, [((123457 : ℚ)/1000000, (1 : ℚ)/5, (3 : ℚ)/10)])].map
      (fun g => rowTexts g.1 1 g.2)).flatten)
    hp hva hvb hvc hang1 hang2 hang3 hemit
  have hback := cif_to_poscar_of_cif "T".data 1 1 1
    [("Si".data, [((123457 : ℚ)/1000000, (1 : ℚ)/5, (3 : ℚ)/10)])]
    (by decide) (by decide) (by decide) (by decide) (by decide)
  have hpout : parsePoscar (pysplitlines (terminateLines (renderPoscarLines "T".data
      (round6 1) (round6 1) (round6 1)
      ([("Si".data, [((123457 : ℚ)/1000000, (1 : ℚ)/5, (3 : ℚ)/10)])].map
        (fun g => (g.1, g.2.length)))
      (([("Si".data, [((123457 : ℚ)/1000000, (1 : ℚ)/5, (3 : ℚ)/10)])].map
        (fun g => g.2)).flatten)))) =
      some (⟨"T".data, 1, [1, 0, 0], [0, 1, 0], [0, 0, 1], ["Si".data], [1],
        [[123457/1000000, 1/5, 3/10]]⟩ : PoscarDoc) := by
    decide
  exact ⟨_, _, _, _, hpc, hback, hp, hpout, rfl, rfl, rfl, by decide⟩

end Converter

namespace Converter

unseal Nat.gcd Rat.add Rat.mul Rat.inv Rat.sub in
theorem c2_witness :
    ∃ cif, poscar_to_cif (mkPoscarInput "T".data 1 5 5 5
        [("Si".data, [((1 : ℚ)/2, (1 : ℚ)/2, (1 : ℚ)/2)])]) = some cif ∧
      cif_to_poscar cif =
        some (terminateLines (renderPoscarLines "T".data
          (round6 (abs ((1 : ℚ) * 5))) (round6 (abs ((1 : ℚ) * 5)))
          (round6 (abs ((1 : ℚ) * 5)))
          ([("Si".data, [((1 : ℚ)/2, (1 : ℚ)/2, (1 : ℚ)/2)])].map
            (fun g => (g.1, g.2.length)))
          (([("Si".data, [((1 : ℚ)/2, (1 : ℚ)/2, (1 : ℚ)/2)])].map
            (fun g => g.2)).flatten))) ∧
      abs (round6 (abs ((1 : ℚ) * 5)) - abs ((1 : ℚ) * 5)) ≤ 1 / 1000000 ∧
      abs (round6 (abs ((1 : ℚ) * 5)) - abs ((1 : ℚ) * 5)) ≤ 1 / 1000000 ∧
      abs (round6 (abs ((1 : ℚ) * 5)) - abs ((1 : ℚ) * 5)) ≤ 1 / 1000000 :=
  c2_roundtrip_diagonal "T".data 1 5 5 5
    [("Si".data, [((1 : ℚ)/2, (1 : ℚ)/2, (1 : ℚ)/2)])]
    (by decide) (by decide) (by decide) (by decide) (by decide) (by decide) (by decide)
    (by decide) (by decide) (by decide) (by decide) (by decide) (by decide) (by decide)

end Converter
